import Mathlib

/-!
# CADET 2 main engine (`src/cadet2.c`): a shallow embedding

The engine state `C2` and the functions of `cadet2.c` are transcribed as Lean
definitions.  Conventions:

* `unsigned` and `size_t` values are natural numbers; where the source casts
  between `unsigned` and `int` the cast is made explicit (two's complement,
  32 bit).
* `float` values are rational numbers (exact arithmetic); a literal such as
  `1.2` is the rational `12/10`.
* A loop whose number of iterations is not bounded by its input takes a bound
  `fuel` on the number of iterations; running out of it is the failure
  `out_of_fuel`, distinct from every result of the program.
* `assert(...)` is a debugging aid that compiles to nothing in a release
  build; it has no effect on the values computed.  Assertions therefore do not
  appear in the definitions.  Where a statement depends on one, it is a
  hypothesis of the theorem.  `abortif(...)` always terminates the program and
  is part of the definitions.
* The Skolem domain, the Examples domain, the case-split state, the QCNF store
  and the SAT solver live in other translation units.  The fields that
  `cadet2.c` reads or writes directly are record fields here; everything else
  those components hold is a value of an arbitrary type `H`, and every function
  of theirs that `cadet2.c` calls is a field of the record `Ops`.
-/

namespace Cadet

/-! ## Data model -/

/-- A literal is a non-zero signed integer (`typedef int Lit`). -/
abbrev Lit := Int

/-- The variable of a literal, `lit_to_var`: its absolute value. -/
def lit_to_var (lit : Lit) : Nat := lit.natAbs

/-- A clause: `occs` holds the literals, `size` is their number. -/
structure Clause where
  occs : List Lit
  original : Bool
  clause_idx : Nat
deriving DecidableEq, Repr

/-- The field `size` of a clause. -/
def Clause.size (c : Clause) : Nat := c.occs.length

/-- The engine states (`c2->state`). -/
inductive C2_STATE where
  | C2_READY
  | C2_SKOLEM_CONFLICT
  | C2_EXAMPLES_CONFLICT
  | C2_CLOSE_CASE
  | C2_SAT
  | C2_UNSAT
  | C2_ABORT_RL
deriving DecidableEq, Repr

/-- The states of the Skolem domain (`c2->skolem->state`). -/
inductive SKOLEM_STATE where
  | SKOLEM_STATE_READY
  | SKOLEM_STATE_SKOLEM_CONFLICT
  | SKOLEM_STATE_CONSTANTS_CONLICT
deriving DecidableEq, Repr

/-- Answers of the SAT solver. -/
inductive sat_res where
  | SATSOLVER_SAT
  | SATSOLVER_UNSAT
  | SATSOLVER_UNKNOWN
deriving DecidableEq, Repr

/-- Results of the engine. -/
inductive cadet_res where
  | CADET_RESULT_SAT
  | CADET_RESULT_UNSAT
  | CADET_RESULT_UNKNOWN
deriving DecidableEq, Repr

/-- Per-variable data of the engine: the stored activity. -/
structure C2_VAR_DATA where
  activity : ℚ
deriving DecidableEq

/-- A variable slot of the QCNF.  `var_id = 0` marks a slot without variable. -/
structure Var where
  var_id : Nat
  is_universal : Bool
  c2_vd : C2_VAR_DATA
  pos_occs : List Clause
  neg_occs : List Clause
deriving DecidableEq

/-- The QCNF store; `vars` is the dense, id-indexed variable vector. -/
structure QCNF (H : Type) where
  vars : List Var
  clauses : List (Option Clause)
  universals_constraints : List Int
  universal_clauses : List Int
  hidden : H

/-- The undo stack of a domain; `cadet2.c` reads its `push_count`. -/
structure Stack where
  push_count : Nat
deriving DecidableEq, Repr

/-- The Skolem domain. -/
structure Skolem (H : Type) where
  decision_lvl : Nat
  stack : Stack
  state : SKOLEM_STATE
  conflict_var_id : Nat
  conflicted_clause : Option Clause
  universals_assumptions : List Int
  hidden : H

/-- A partial assignment of the Examples domain. -/
structure PartialAssignment (H : Type) where
  decision_lvl : Nat
  conflicted_var : Nat
  conflicted_clause : Option Clause
  hidden : H

/-- The Examples domain. -/
structure Examples (H : Type) where
  stack : Stack
  hidden : H

/-- The case-split and CEGAR state (`c2->cs`). -/
structure Casesplits (H : Type) where
  max_cegar_iterations_per_learnt_clause : Nat
  cegar_effectiveness_threshold : ℚ
  recent_average_cube_size : ℚ
  hidden : H

/-- The options that `cadet2.c` reads. -/
structure Options where
  examples_max_num : Nat
  easy_debugging : Bool
  minimize_conflicts : Bool
  cegar : Bool
  cegar_only : Bool
  cegar_soft_conflict_limit : Bool
  functional_synthesis : Bool
  reinforcement_learning : Bool
  miniscoping : Bool
deriving DecidableEq, Repr

/-- The counters of `c2->statistics`. -/
structure Statistics where
  conflicts : Nat
  added_clauses : Nat
  decisions : Nat
  successful_conflict_clause_minimizations : Nat
  learnt_clauses_total_length : Nat
  cases_closed : Nat
  lvls_backtracked : Nat
  failed_literals_conflicts : Nat
deriving DecidableEq, Repr

/-- The tuning constants of `c2->magic`. -/
structure Magic where
  initial_restart : Nat
  restart_factor : ℚ
  conflict_var_weight : Nat
  conflict_clause_weight : Nat
  decision_var_activity_modifier : ℚ
  decay_rate : ℚ
  activity_bump_value : ℚ
  major_restart_frequency : Nat
  replenish_frequency : Nat
  num_restarts_before_Jeroslow_Wang : Nat
  num_restarts_before_case_splits : Nat
  keeping_clauses_threshold : Nat
  skolem_success_horizon : ℚ
  notoriousity_threshold_factor : ℚ
  skolem_success_recent_average_initialization : ℚ
  case_split_linear_depth_penalty_factor : Nat
deriving DecidableEq

/-- The engine `C2`. -/
structure C2 (H : Type) where
  qcnf : QCNF H
  options : Options
  cs : Casesplits H
  skolem : Skolem H
  examples : Examples H
  state : C2_STATE
  restarts : Nat
  major_restarts : Nat
  restarts_since_last_major : Nat
  decisions_since_last_conflict : Nat
  restart_base_decision_lvl : Nat
  activity_factor : ℚ
  current_conflict : Option (List Int)
  statistics : Statistics
  magic : Magic
  next_restart : Nat
  next_major_restart : Nat
  skolem_success_recent_average : ℚ
  conflicts_between_case_splits_countdown : Nat

/-- The domain handed to the conflict analysis: the Skolem domain or a
partial assignment of the Examples domain (the `void* domain` argument of
`analyze_assignment_conflict`, which fixes the four callbacks passed with it). -/
inductive ConflictDomain (H : Type) where
  | skolem (s : Skolem H)
  | partial_assignment (pa : PartialAssignment H)

/-- The functions of other translation units that `cadet2.c` calls.  A function
that receives a pointer and may write through it returns the new value of what
the pointer refers to. -/
structure Ops (H : Type) where
  -- QCNF store
  qcnf_init : QCNF H
  qcnf_add_lit : QCNF H → Lit → QCNF H
  qcnf_close_clause : QCNF H → QCNF H × Option Clause
  qcnf_is_2QBF : QCNF H → Bool
  qcnf_is_propositional : QCNF H → Bool
  qcnf_var_exists : QCNF H → Nat → Bool
  qcnf_is_universal : QCNF H → Nat → Bool
  qcnf_is_original : QCNF H → Nat → Bool
  -- Skolem domain
  skolem_init : QCNF H → Options → Skolem H
  skolem_is_conflicted : Skolem H → Bool
  skolem_propagate : Skolem H → Skolem H
  skolem_can_propagate : Skolem H → Bool
  skolem_get_decision_lvl : Skolem H → Nat → Nat
  skolem_get_dlvl_for_constant : Skolem H → Nat → Nat
  skolem_is_deterministic : Skolem H → Nat → Bool
  skolem_push : Skolem H → Skolem H
  skolem_pop : Skolem H → Skolem H
  skolem_increase_decision_lvl : Skolem H → Skolem H
  skolem_decision : Skolem H → Lit → Skolem H
  skolem_new_clause : Skolem H → Clause → Skolem H
  skolem_make_universal_assumption : Skolem H → Lit → Skolem H
  skolem_get_satsolver_lit : Skolem H → Lit → Int
  skolem_get_value_for_conflict_analysis : Skolem H → Lit → Int
  -- the SAT solver `c2->skolem->skolem`
  satsolver_sat : Skolem H → Skolem H × sat_res
  satsolver_add : Skolem H → Int → Skolem H
  satsolver_clause_finished : Skolem H → Skolem H
  -- Examples domain
  examples_init : QCNF H → Nat → Examples H
  examples_is_conflicted : Examples H → Bool
  examples_propagate : Examples H → Examples H
  examples_push : Examples H → Examples H
  examples_pop : Examples H → Examples H
  examples_new_clause : Examples H → Clause → Examples H
  examples_get_conflicted_assignment : Examples H → PartialAssignment H
  examples_add_assignment_from_skolem :
    Examples H → Skolem H → Examples H × Option (PartialAssignment H)
  examples_decision_consistent_with_skolem : Examples H → Skolem H → Lit → Examples H
  partial_assignment_get_decision_lvl : PartialAssignment H → Nat → Nat
  partial_assignment_is_conflicted : PartialAssignment H → Bool
  -- case splits and CEGAR
  casesplits_init : QCNF H → Casesplits H
  casesplits_update_interface : Casesplits H → Skolem H → Casesplits H
  satsolver_state_exists_solver : Casesplits H → sat_res
  cegar_get_val : Skolem H → Int → Int
  cegar_one_round_for_conflicting_assignment : C2 H → C2 H
  cegar_solve_2QBF_by_cegar : C2 H → Int → C2 H
  c2_casesplits_assume_single_lit : C2 H → C2 H × Bool
  c2_backtrack_casesplit : C2 H → C2 H
  c2_close_case : C2 H → C2 H
  -- conflict analysis, minimization, simplification
  analyze_assignment_conflict :
    C2 H → Nat → Option Clause → ConflictDomain H → C2 H × List Int
  c2_minimize_clause : C2 H → Clause → C2 H × Clause
  c2_simplify : C2 H → C2 H
  c2_analysis_determine_number_of_partitions : C2 H → C2 H
  -- the answer of the external controller, given the engine it is shown
  c2_rl_get_decision : C2 H → Nat → Int

variable {H : Type}

/-! ## Integer vectors -/

/-- The cast `(int) u` of an `unsigned` value (32 bit, two's complement). -/
def unsigned_to_int (u : Nat) : Int :=
  if u % 2 ^ 32 < 2 ^ 31 then ((u % 2 ^ 32 : Nat) : Int) else ((u % 2 ^ 32 : Nat) : Int) - 2 ^ 32

/-- The cast `(unsigned) i` of an `int` value. -/
def int_to_unsigned (i : Int) : Nat := (i % 2 ^ 32).toNat

/-- Modelled from the spec: `int_vector_sort` with the comparison
`compare_integers_natural_order` is not under `src/`; it sorts the vector of
`int` values in ascending order. -/
def int_vector_sort (v : List Int) : List Int := v.insertionSort (fun a b => a ≤ b)

/-- Reading `int_vector_get(v, i)`. -/
def int_vector_get (v : List Int) (i : Nat) : Int := v.getD i 0

/-- The loop of `c2_determine_backtracking_lvl` that removes the last entry
while the last two entries are equal.  Every iteration shortens the vector, so
`fuel = |v|` iterations always suffice (`remove_trailing_duplicates_exit`). -/
def remove_trailing_duplicates : Nat → List Int → List Int
  | 0, v => v
  | fuel + 1, v =>
    if v.length ≥ 2 ∧ int_vector_get v (v.length - 1) = int_vector_get v (v.length - 2) then
      remove_trailing_duplicates fuel v.dropLast
    else v

/-! ## Backtracking level -/

/-- The function `c2_determine_backtracking_lvl`. -/
def c2_determine_backtracking_lvl (ops : Ops H) (c2 : C2 H) (conflict : Clause) : Nat :=
  let dlvls := conflict.occs.map (fun lit =>
    let var_id := lit_to_var lit
    let dlvl :=
      if c2.state = C2_STATE.C2_SKOLEM_CONFLICT then
        let dlvl := ops.skolem_get_decision_lvl c2.skolem var_id
        let constant_dlvl := ops.skolem_get_dlvl_for_constant c2.skolem var_id
        if constant_dlvl < dlvl then constant_dlvl else dlvl
      else
        let pa := ops.examples_get_conflicted_assignment c2.examples
        ops.partial_assignment_get_decision_lvl pa var_id
    unsigned_to_int dlvl)
  let dlvls := int_vector_sort dlvls
  let dlvls := remove_trailing_duplicates dlvls.length dlvls
  let second_largest :=
    if dlvls.length > 1 then int_to_unsigned (int_vector_get dlvls (dlvls.length - 2)) else 0
  if second_largest < c2.restart_base_decision_lvl then c2.restart_base_decision_lvl
  else second_largest

/-- The level of a literal in the conflicted domain: in a Skolem conflict the
smaller of the Skolem decision level and the constant decision level of its
variable, in an Examples conflict the decision level of its variable in the
conflicted partial assignment. -/
def conflict_level (ops : Ops H) (c2 : C2 H) (lit : Lit) : Nat :=
  match c2.state with
  | C2_STATE.C2_SKOLEM_CONFLICT =>
    min (ops.skolem_get_decision_lvl c2.skolem (lit_to_var lit))
      (ops.skolem_get_dlvl_for_constant c2.skolem (lit_to_var lit))
  | _ =>
    ops.partial_assignment_get_decision_lvl
      (ops.examples_get_conflicted_assignment c2.examples) (lit_to_var lit)

/-- The number `s` is the second-largest distinct value of `levels`, and `0`
when fewer than two distinct values occur. -/
def IsSecondLargestDistinct (levels : List Nat) (s : Nat) : Prop :=
  (∃ m ∈ levels, (∀ x ∈ levels, x ≤ m) ∧ s ∈ levels ∧ s < m ∧ ∀ x ∈ levels, x < m → x ≤ s)
  ∨ ((∀ x ∈ levels, ∀ y ∈ levels, x = y) ∧ s = 0)

/-! ## Failure of a run -/

/-- The places where the program is terminated by `abortif` or `abort()`. -/
inductive Abort where
  | conflict_clause_could_not_be_created
  | cannot_select_universal_variable
  | cannot_select_deterministic_variable
  | expected_restart_but_result_known
  | c2_result_called_in_illegal_state
  | constraint_variable_not_deterministic
  | universal_assumptions_before_solving
  | must_be_in_unsat_state
deriving DecidableEq, Repr

/-- A computation fails when the program aborts, or when the bound on the
number of loop iterations of the model is used up. -/
inductive Failure where
  | abort (a : Abort)
  | out_of_fuel
deriving DecidableEq, Repr

/-! ## Initialization -/

/-- The function `c2_init`.  The assignment `c2->state = C2_UNSAT` made when the
fresh Skolem domain is conflicted is followed by the unconditional assignment
`c2->state = C2_READY`; `early_state` is the value of the first assignment. -/
def c2_init (ops : Ops H) (options : Options) : C2 H :=
  let qcnf := ops.qcnf_init
  let cs := ops.casesplits_init qcnf
  let skolem := ops.skolem_init qcnf options
  let early_state : Option C2_STATE :=
    if ops.skolem_is_conflicted skolem then some C2_STATE.C2_UNSAT else none
  let examples := ops.examples_init qcnf options.examples_max_num
  let state := (fun (_ : Option C2_STATE) => C2_STATE.C2_READY) early_state
  { qcnf := qcnf
    options := options
    cs := cs
    skolem := skolem
    examples := examples
    state := state
    restarts := 0
    major_restarts := 0
    restarts_since_last_major := 0
    decisions_since_last_conflict := 0
    restart_base_decision_lvl := 0
    activity_factor := 1
    current_conflict := none
    statistics :=
      { conflicts := 0
        added_clauses := 0
        decisions := 0
        successful_conflict_clause_minimizations := 0
        learnt_clauses_total_length := 0
        cases_closed := 0
        lvls_backtracked := 0
        failed_literals_conflicts := 0 }
    magic :=
      { initial_restart := 6
        restart_factor := 12 / 10
        conflict_var_weight := 2
        conflict_clause_weight := 1
        decision_var_activity_modifier := 8 / 10
        decay_rate := 99 / 100
        activity_bump_value := 1
        major_restart_frequency := 15
        replenish_frequency := 100
        num_restarts_before_Jeroslow_Wang := if options.easy_debugging then 1000 else 3
        num_restarts_before_case_splits := if options.easy_debugging then 0 else 3
        keeping_clauses_threshold := 3
        skolem_success_horizon := 9 / 10
        notoriousity_threshold_factor := 5
        skolem_success_recent_average_initialization := 1
        case_split_linear_depth_penalty_factor := if options.easy_debugging then 1 else 5 }
    next_restart := 6
    next_major_restart := 15
    skolem_success_recent_average := 1
    conflicts_between_case_splits_countdown := 1 }

/-- The function `c2_initial_var_data`. -/
def c2_initial_var_data : C2_VAR_DATA := { activity := 0 }

/-! ## Variable vector -/

/-- The slot without variable. -/
def no_var : Var :=
  { var_id := 0, is_universal := false, c2_vd := c2_initial_var_data, pos_occs := [], neg_occs := [] }

/-- Reading `var_vector_get(vars, i)`; a slot outside the vector holds no variable. -/
def var_vector_get (vars : List Var) (i : Nat) : Var := vars.getD i no_var

/-- The count `var_vector_count(vars)`. -/
def var_vector_count (vars : List Var) : Nat := vars.length

/-- Writing the stored activity of slot `i` through the pointer `var_vector_get(vars, i)`. -/
def store_activity (c2 : C2 H) (i : Nat) (a : ℚ) : C2 H :=
  { c2 with qcnf := { c2.qcnf with
      vars := c2.qcnf.vars.set i { var_vector_get c2.qcnf.vars i with c2_vd := { activity := a } } } }

/-! ## Activities -/

/-- The function `c2_set_activity`. -/
def c2_set_activity (c2 : C2 H) (var_id : Nat) (val : ℚ) : C2 H :=
  let v := var_vector_get c2.qcnf.vars var_id
  if v.var_id ≠ 0 then store_activity c2 var_id (val * c2.activity_factor) else c2

/-- The function `c2_get_activity`. -/
def c2_get_activity (c2 : C2 H) (var_id : Nat) : ℚ :=
  let v := var_vector_get c2.qcnf.vars var_id
  v.c2_vd.activity / c2.activity_factor

/-- The function `c2_increase_activity`. -/
def c2_increase_activity (c2 : C2 H) (var_id : Nat) (val : ℚ) : C2 H :=
  let v := var_vector_get c2.qcnf.vars var_id
  store_activity c2 var_id (v.c2_vd.activity + val * c2.activity_factor)

/-- The function `c2_scale_activity`. -/
def c2_scale_activity (c2 : C2 H) (var_id : Nat) (factor : ℚ) : C2 H :=
  let v := var_vector_get c2.qcnf.vars var_id
  store_activity c2 var_id (v.c2_vd.activity * factor)

/-- The function `c2_rescale_activity_values`. -/
def c2_rescale_activity_values (c2 : C2 H) : C2 H :=
  let rescale_factor := 1 / c2.activity_factor
  let c2 := { c2 with activity_factor := 1 }
  (List.range (var_vector_count c2.qcnf.vars)).foldl
    (fun c2 i =>
      let v := var_vector_get c2.qcnf.vars i
      if v.var_id ≠ 0 then c2_scale_activity c2 i rescale_factor else c2)
    c2

/-- The function `c2_decay_activity`.  In exact arithmetic a quotient is finite
unless its divisor is zero, which is what the `isfinite` tests amount to. -/
def c2_decay_activity (c2 : C2 H) : C2 H :=
  let new_activity_factor := c2.activity_factor / c2.magic.decay_rate
  if c2.magic.decay_rate ≠ 0 ∧ c2.activity_factor ≠ 0 ∧ new_activity_factor < 1000 then
    { c2 with activity_factor := new_activity_factor }
  else
    let c2 := c2_rescale_activity_values c2
    { c2 with activity_factor := c2.activity_factor * (1 / c2.magic.decay_rate) }

/-! ## Decision variable -/

/-- One iteration of the scan of `c2_pick_most_active_notdeterministic_variable`
at slot `i`; the loop state is `decision_var` (the slot picked so far) and
`decision_var_activity`. -/
def pick_step (ops : Ops H) (c2 : C2 H) (st : Option Nat × ℚ) (i : Nat) : Option Nat × ℚ :=
  if ¬ ops.skolem_is_deterministic c2.skolem i then
    let v := var_vector_get c2.qcnf.vars i
    if v.var_id ≠ 0 then
      let v_activity := c2_get_activity c2 v.var_id
      if st.2 < v_activity then (some i, v_activity) else st
    else st
  else st

/-- The function `c2_pick_most_active_notdeterministic_variable`; the result is
the slot of the variable picked, `none` for `NULL`. -/
def c2_pick_most_active_notdeterministic_variable (ops : Ops H) (c2 : C2 H) : Option Nat :=
  ((List.range' 1 (var_vector_count c2.qcnf.vars - 1)).foldl (pick_step ops c2) (none, -1)).1

/-! ## Backtracking -/

/-- The `while` loop of `c2_backtrack_to_decision_lvl`. -/
def backtrack_loop (ops : Ops H) : Nat → C2 H → Nat → Except Failure (C2 H)
  | 0, c2, backtracking_lvl =>
    if c2.skolem.decision_lvl > backtracking_lvl then .error Failure.out_of_fuel else .ok c2
  | fuel + 1, c2, backtracking_lvl =>
    if c2.skolem.decision_lvl > backtracking_lvl then
      let c2 := { c2 with skolem := ops.skolem_pop c2.skolem }
      let c2 := { c2 with examples := ops.examples_pop c2.examples }
      backtrack_loop ops fuel c2 backtracking_lvl
    else .ok c2

/-- The function `c2_backtrack_to_decision_lvl`. -/
def c2_backtrack_to_decision_lvl (ops : Ops H) (fuel : Nat) (c2 : C2 H) (backtracking_lvl : Nat) :
    Except Failure (C2 H) :=
  if backtracking_lvl = c2.skolem.decision_lvl then .ok c2
  else
    let c2 := { c2 with state := C2_STATE.C2_READY }
    backtrack_loop ops fuel c2 backtracking_lvl

/-! ## Decisions involved -/

/-- The `for` loop of `c2_are_decisions_involved` over the remaining literals,
with the `break` taken when the running maximum reaches `max_decision_lvl`. -/
def decisions_involved_loop (ops : Ops H) (c2 : C2 H) (max_decision_lvl : Nat) :
    List Lit → Nat → Nat
  | [], largest_decision_level_involved => largest_decision_level_involved
  | lit :: rest, largest_decision_level_involved =>
    let dlvl :=
      if c2.state = C2_STATE.C2_SKOLEM_CONFLICT then
        ops.skolem_get_decision_lvl c2.skolem (lit_to_var lit)
      else
        let pa := ops.examples_get_conflicted_assignment c2.examples
        ops.partial_assignment_get_decision_lvl pa (lit_to_var lit)
    let largest_decision_level_involved :=
      if dlvl > largest_decision_level_involved then dlvl else largest_decision_level_involved
    if largest_decision_level_involved = max_decision_lvl then largest_decision_level_involved
    else decisions_involved_loop ops c2 max_decision_lvl rest largest_decision_level_involved

/-- The function `c2_are_decisions_involved`. -/
def c2_are_decisions_involved (ops : Ops H) (c2 : C2 H) (conflict : Clause) : Bool :=
  let max_decision_lvl :=
    if c2.state = C2_STATE.C2_SKOLEM_CONFLICT then c2.skolem.decision_lvl
    else (ops.examples_get_conflicted_assignment c2.examples).decision_lvl
  let largest_decision_level_involved :=
    decisions_involved_loop ops c2 max_decision_lvl conflict.occs c2.restart_base_decision_lvl
  decide (largest_decision_level_involved > c2.restart_base_decision_lvl)

/-- The decision level that `c2_are_decisions_involved` reads for a literal. -/
def involved_level (ops : Ops H) (c2 : C2 H) (lit : Lit) : Nat :=
  match c2.state with
  | C2_STATE.C2_SKOLEM_CONFLICT => ops.skolem_get_decision_lvl c2.skolem (lit_to_var lit)
  | _ =>
    ops.partial_assignment_get_decision_lvl
      (ops.examples_get_conflicted_assignment c2.examples) (lit_to_var lit)

/-- The maximal decision level of the conflicted domain. -/
def conflicted_domain_max_lvl (ops : Ops H) (c2 : C2 H) : Nat :=
  match c2.state with
  | C2_STATE.C2_SKOLEM_CONFLICT => c2.skolem.decision_lvl
  | _ => (ops.examples_get_conflicted_assignment c2.examples).decision_lvl

/-- Scanning the whole clause without early exit: the largest of the base level
and the levels of all literals. -/
def full_scan_largest (ops : Ops H) (c2 : C2 H) (conflict : Clause) : Nat :=
  conflict.occs.foldl (fun largest lit => max largest (involved_level ops c2 lit))
    c2.restart_base_decision_lvl

/-! ## Jeroslow-Wang weight -/

/-- The function `c2_Jeroslow_Wang_log_weight`; the loop starts at index 1. -/
def c2_Jeroslow_Wang_log_weight (clauses : List Clause) : ℚ :=
  let weight := (List.range' 1 (clauses.length - 1)).foldl
    (fun (weight : ℚ) i =>
      match clauses.get? i with
      | some c => if c.size ≤ 10 then weight + 1 / (2 : ℚ) ^ c.size else weight
      | none => weight)
    0
  weight + (clauses.length : ℚ) * (5 / 100)

/-! ## Propagation -/

/-- The function `c2_is_in_conflcit`. -/
def c2_is_in_conflcit (c2 : C2 H) : Bool :=
  decide (c2.state = C2_STATE.C2_UNSAT) || decide (c2.state = C2_STATE.C2_EXAMPLES_CONFLICT)
    || decide (c2.state = C2_STATE.C2_SKOLEM_CONFLICT)

/-- The function `c2_propagate`. -/
def c2_propagate (ops : Ops H) (c2 : C2 H) : C2 H :=
  let c2 := { c2 with examples := ops.examples_propagate c2.examples }
  if ops.examples_is_conflicted c2.examples then
    let c2 := { c2 with state := C2_STATE.C2_EXAMPLES_CONFLICT }
    let pa := ops.examples_get_conflicted_assignment c2.examples
    let r := ops.analyze_assignment_conflict c2 pa.conflicted_var pa.conflicted_clause
      (ConflictDomain.partial_assignment pa)
    { r.1 with current_conflict := some r.2 }
  else
    let c2 := { c2 with skolem := ops.skolem_propagate c2.skolem }
    if ops.skolem_is_conflicted c2.skolem then
      let c2 := { c2 with state := C2_STATE.C2_SKOLEM_CONFLICT }
      let r := ops.analyze_assignment_conflict c2 c2.skolem.conflict_var_id
        c2.skolem.conflicted_clause (ConflictDomain.skolem c2.skolem)
      { r.1 with current_conflict := some r.2 }
    else c2

/-- The loop of `c2_initial_propagation` over the universal constraints. -/
def assume_universals_constraints (ops : Ops H) : List Int → C2 H → Except Failure (C2 H)
  | [], c2 => .ok c2
  | x :: rest, c2 =>
    let var_id := int_to_unsigned x
    if ¬ ops.skolem_is_deterministic c2.skolem var_id then
      .error (Failure.abort Abort.constraint_variable_not_deterministic)
    else
      let lit : Lit := unsigned_to_int var_id
      let sk := ops.satsolver_add c2.skolem (ops.skolem_get_satsolver_lit c2.skolem lit)
      let sk := ops.satsolver_clause_finished sk
      let sk := ops.skolem_make_universal_assumption sk lit
      assume_universals_constraints ops rest { c2 with skolem := sk }

/-- The function `c2_initial_propagation`. -/
def c2_initial_propagation (ops : Ops H) (c2 : C2 H) : Except Failure (C2 H) :=
  let c2 := c2_propagate ops c2
  if ¬ c2_is_in_conflcit c2 then
    match assume_universals_constraints ops c2.qcnf.universals_constraints c2 with
    | .error e => .error e
    | .ok c2 => .ok (c2_propagate ops c2)
  else .ok c2

/-- The function `c2_new_clause`. -/
def c2_new_clause (ops : Ops H) (c2 : C2 H) (c : Clause) : C2 H :=
  let c2 := { c2 with examples := ops.examples_new_clause c2.examples c }
  let c2 := { c2 with skolem := ops.skolem_new_clause c2.skolem c }
  if ops.skolem_is_conflicted c2.skolem then { c2 with state := C2_STATE.C2_UNSAT } else c2

/-- The function `c2_result`. -/
def c2_result (c2 : C2 H) : Except Failure cadet_res :=
  match c2.state with
  | C2_STATE.C2_SAT => .ok cadet_res.CADET_RESULT_SAT
  | C2_STATE.C2_UNSAT => .ok cadet_res.CADET_RESULT_UNSAT
  | C2_STATE.C2_READY => .ok cadet_res.CADET_RESULT_UNKNOWN
  | _ => .error (Failure.abort Abort.c2_result_called_in_illegal_state)

/-! ## The main loop -/

/-- How one iteration of the loop of `c2_run` ends: the loop goes on with the
engine and the remaining conflicts, or `c2_run` returns. -/
inductive RunStep (H : Type) where
  | next (c2 : C2 H) (remaining_conflicts : Nat)
  | done (c2 : C2 H)

/-- The CEGAR rounds of `c2_run`, from round `i` on.  The result is the engine
and whether `c2_run` returns (the engine state became `C2_UNSAT`). -/
def cegar_rounds (ops : Ops H) : Nat → C2 H → Nat → Except Failure (C2 H × Bool)
  | 0, c2, i =>
    if i < c2.cs.max_cegar_iterations_per_learnt_clause then .error Failure.out_of_fuel
    else .ok (c2, false)
  | fuel + 1, c2, i =>
    if i < c2.cs.max_cegar_iterations_per_learnt_clause then
      let c2 := ops.cegar_one_round_for_conflicting_assignment c2
      if c2.state = C2_STATE.C2_UNSAT then .ok (c2, true)
      else if c2.cs.recent_average_cube_size ≤ c2.cs.cegar_effectiveness_threshold then
        let r := ops.satsolver_sat c2.skolem
        let c2 := { c2 with skolem := r.1 }
        if r.2 = sat_res.SATSOLVER_UNSAT then .ok (c2, false)
        else cegar_rounds ops fuel c2 (i + 1)
      else .ok (c2, false)
    else .ok (c2, false)

/-- The difference `old_dlvl - c2->skolem->decision_lvl` of two `unsigned` values. -/
def unsigned_sub (a b : Nat) : Nat := (a + 2 ^ 32 - b % 2 ^ 32) % 2 ^ 32

/-- The bookkeeping of `c2_run` for a learnt clause: mark it as learnt, count its
length, minimize it if asked to, free `current_conflict`, and update the
conflict statistics and the recent average of the Skolem success. -/
def c2_run_register_learnt_clause (ops : Ops H) (c2 : C2 H) (learnt_clause : Clause) :
    C2 H × Clause :=
  let learnt_clause := { learnt_clause with original := false }
  let c2 := { c2 with statistics := { c2.statistics with
    learnt_clauses_total_length := c2.statistics.learnt_clauses_total_length + learnt_clause.size } }
  let m := if c2.options.minimize_conflicts then ops.c2_minimize_clause c2 learnt_clause
    else (c2, learnt_clause)
  let c2 := m.1
  let learnt_clause := m.2
  let c2 := { c2 with current_conflict := none }
  let c2 := { c2 with statistics := { c2.statistics with conflicts := c2.statistics.conflicts + 1 } }
  let c2 := if c2.conflicts_between_case_splits_countdown > 0 then
      { c2 with conflicts_between_case_splits_countdown :=
          c2.conflicts_between_case_splits_countdown - 1 }
    else c2
  let conflict_success_rating : ℚ :=
    1 / ((learnt_clause.size : ℚ) * (c2.decisions_since_last_conflict : ℚ) + 1)
  let c2 := { c2 with skolem_success_recent_average :=
    c2.skolem_success_recent_average * c2.magic.skolem_success_horizon
      + conflict_success_rating * (1 - c2.magic.skolem_success_horizon) }
  ({ c2 with decisions_since_last_conflict := 0 }, learnt_clause)

/-- The update of the Examples database in `c2_run` when decisions are
involved; the flag is set when `c2_run` returns here, the new example being
conflicted. -/
def c2_run_update_examples (ops : Ops H) (c2 : C2 H) (decisions_involved : Bool) : C2 H × Bool :=
  if decisions_involved ∧ c2.skolem.state = SKOLEM_STATE.SKOLEM_STATE_SKOLEM_CONFLICT then
    let r := ops.examples_add_assignment_from_skolem c2.examples c2.skolem
    let c2 := { c2 with examples := r.1 }
    match r.2 with
    | some new_example =>
      if ops.partial_assignment_is_conflicted new_example then
        ({ c2 with state := C2_STATE.C2_EXAMPLES_CONFLICT }, true)
      else (c2, false)
    | none => (c2, false)
  else (c2, false)

/-- The CEGAR iterations of `c2_run` when decisions are involved; the flag is
set when `c2_run` returns here. -/
def c2_run_cegar (ops : Ops H) (fuel : Nat) (c2 : C2 H) (decisions_involved : Bool) :
    Except Failure (C2 H × Bool) :=
  if decisions_involved ∧ c2.options.cegar
      ∧ c2.skolem.state = SKOLEM_STATE.SKOLEM_STATE_SKOLEM_CONFLICT then
    cegar_rounds ops fuel c2 0
  else .ok (c2, false)

/-- The end of the conflict branch of `c2_run`: determine the backtracking
level, backtrack, hand the learnt clause to the domains, decay the activities. -/
def c2_run_backtrack (ops : Ops H) (fuel : Nat) (c2 : C2 H) (learnt_clause : Clause)
    (remaining_conflicts : Nat) : Except Failure (RunStep H) :=
  let backtracking_lvl := c2_determine_backtracking_lvl ops c2 learnt_clause
  let old_dlvl := c2.skolem.decision_lvl
  match c2_backtrack_to_decision_lvl ops fuel c2 backtracking_lvl with
  | .error e => .error e
  | .ok c2 =>
    let c2 := { c2 with statistics := { c2.statistics with
      lvls_backtracked :=
        c2.statistics.lvls_backtracked + unsigned_sub old_dlvl c2.skolem.decision_lvl } }
    let c2 := c2_new_clause ops c2 learnt_clause
    let c2 := c2_decay_activity c2
    if c2.state = C2_STATE.C2_UNSAT then .ok (RunStep.done c2)
    else .ok (RunStep.next c2 remaining_conflicts)

/-- The conflict branch of an iteration of `c2_run`, entered after
`c2_propagate` when `c2_is_in_conflcit` holds. -/
def c2_run_conflict (ops : Ops H) (fuel : Nat) (c2 : C2 H) (remaining_conflicts : Nat) :
    Except Failure (RunStep H) :=
  let qcnf := (c2.current_conflict.getD []).foldl (fun q lit => ops.qcnf_add_lit q (- lit)) c2.qcnf
  let closed := ops.qcnf_close_clause qcnf
  let c2 := { c2 with qcnf := closed.1 }
  match closed.2 with
  | none =>
    let r := ops.satsolver_sat c2.skolem
    let c2 := { c2 with skolem := r.1 }
    if r.2 = sat_res.SATSOLVER_SAT then
      .error (Failure.abort Abort.conflict_clause_could_not_be_created)
    else
      .ok (RunStep.done { c2 with current_conflict := none, state := C2_STATE.C2_CLOSE_CASE })
  | some learnt_clause =>
    let reg := c2_run_register_learnt_clause ops c2 learnt_clause
    let c2 := reg.1
    let learnt_clause := reg.2
    let remaining_conflicts := remaining_conflicts - 1
    let decisions_involved := c2_are_decisions_involved ops c2 learnt_clause
    let ex := c2_run_update_examples ops c2 decisions_involved
    if ex.2 then .ok (RunStep.done ex.1)
    else
      match c2_run_cegar ops fuel ex.1 decisions_involved with
      | .error e => .error e
      | .ok (c2, true) => .ok (RunStep.done c2)
      | .ok (c2, false) => c2_run_backtrack ops fuel c2 learnt_clause remaining_conflicts

/-- The decision of `c2_run` once the decision variable (slot `decision_var`)
and the phase are fixed: scale its activity, push both domains, let the
Examples domain follow, and decide in the Skolem domain unless the Examples
domain became conflicted. -/
def c2_run_take_decision (ops : Ops H) (c2 : C2 H) (decision_var : Nat) (phase : Int) : C2 H :=
  let var := var_vector_get c2.qcnf.vars decision_var
  let phase :=
    if c2.restarts ≥ c2.magic.num_restarts_before_Jeroslow_Wang
        ∧ ¬ c2.options.reinforcement_learning then
      let pos_JW_weight := c2_Jeroslow_Wang_log_weight var.pos_occs
      let neg_JW_weight := c2_Jeroslow_Wang_log_weight var.neg_occs
      if pos_JW_weight > neg_JW_weight then 1 else -1
    else phase
  let c2 := c2_scale_activity c2 var.var_id c2.magic.decision_var_activity_modifier
  let c2 := { c2 with skolem := ops.skolem_push c2.skolem }
  let c2 := { c2 with examples := ops.examples_push c2.examples }
  let c2 := { c2 with statistics := { c2.statistics with decisions := c2.statistics.decisions + 1 } }
  let c2 := { c2 with decisions_since_last_conflict := c2.decisions_since_last_conflict + 1 }
  let lit : Lit := phase * (var.var_id : Int)
  let c2 := { c2 with
    examples := ops.examples_decision_consistent_with_skolem c2.examples c2.skolem lit }
  if ops.examples_is_conflicted c2.examples then c2
  else
    let c2 := { c2 with skolem := ops.skolem_increase_decision_lvl c2.skolem }
    { c2 with skolem := ops.skolem_decision c2.skolem lit }

/-- The branch of an iteration of `c2_run` without conflict. -/
def c2_run_no_conflict (ops : Ops H) (c2 : C2 H) (remaining_conflicts : Nat) :
    Except Failure (RunStep H) :=
  if ops.skolem_can_propagate c2.skolem then .ok (RunStep.next c2 remaining_conflicts)
  else
    let cs := ops.c2_casesplits_assume_single_lit c2
    let c2 := cs.1
    let progress_through_case_split := cs.2
    if c2.state = C2_STATE.C2_SKOLEM_CONFLICT then .ok (RunStep.next c2 remaining_conflicts)
    else if c2.state ≠ C2_STATE.C2_READY then .ok (RunStep.done c2)
    else if progress_through_case_split then .ok (RunStep.next c2 remaining_conflicts)
    else
      match c2_pick_most_active_notdeterministic_variable ops c2 with
      | none => .ok (RunStep.done { c2 with state := C2_STATE.C2_CLOSE_CASE })
      | some picked =>
        if c2.options.reinforcement_learning then
          let d := ops.c2_rl_get_decision c2 remaining_conflicts
          if d = 0 then .ok (RunStep.done { c2 with state := C2_STATE.C2_ABORT_RL })
          else
            let phase : Int := if d > 0 then 1 else -1
            let decision_var := lit_to_var d
            let var := var_vector_get c2.qcnf.vars decision_var
            if var.is_universal then
              .error (Failure.abort Abort.cannot_select_universal_variable)
            else if ops.skolem_is_deterministic c2.skolem var.var_id then
              .error (Failure.abort Abort.cannot_select_deterministic_variable)
            else .ok (RunStep.next (c2_run_take_decision ops c2 decision_var phase) remaining_conflicts)
        else .ok (RunStep.next (c2_run_take_decision ops c2 picked 1) remaining_conflicts)

/-- One iteration of the loop of `c2_run`. -/
def c2_run_iteration (ops : Ops H) (fuel : Nat) (c2 : C2 H) (remaining_conflicts : Nat) :
    Except Failure (RunStep H) :=
  let c2 := c2_propagate ops c2
  if c2_is_in_conflcit c2 then c2_run_conflict ops fuel c2 remaining_conflicts
  else c2_run_no_conflict ops c2 remaining_conflicts

/-- The end of `c2_run` when the loop is left with no conflicts remaining: the
program aborts unless `c2_result` is `CADET_RESULT_UNKNOWN`. -/
def c2_run_exit (c2 : C2 H) : Except Failure (C2 H) :=
  match c2_result c2 with
  | .error e => .error e
  | .ok res =>
    if res ≠ cadet_res.CADET_RESULT_UNKNOWN then
      .error (Failure.abort Abort.expected_restart_but_result_known)
    else .ok c2

/-- The function `c2_run`; `fuel` bounds the number of iterations of each loop. -/
def c2_run (ops : Ops H) : Nat → C2 H → Nat → Except Failure (C2 H)
  | 0, c2, remaining_conflicts =>
    if remaining_conflicts > 0 then .error Failure.out_of_fuel else c2_run_exit c2
  | fuel + 1, c2, remaining_conflicts =>
    if remaining_conflicts > 0 then
      match c2_run_iteration ops fuel c2 remaining_conflicts with
      | .error e => .error e
      | .ok (RunStep.done c2) => .ok c2
      | .ok (RunStep.next c2 remaining_conflicts) => c2_run ops fuel c2 remaining_conflicts
    else c2_run_exit c2

/-! ## Restarts -/

/-- The cast `(unsigned) x` of a non-negative `float` value: its integral part. -/
def float_to_unsigned (x : ℚ) : Nat := (Int.floor x).toNat

/-- The function `c2_restart_heuristics`. -/
def c2_restart_heuristics (ops : Ops H) (c2 : C2 H) : C2 H :=
  let c2 := { c2 with restarts_since_last_major := c2.restarts_since_last_major + 1 }
  let c2 := { c2 with
    next_restart := float_to_unsigned ((c2.next_restart : ℚ) * c2.magic.restart_factor) }
  let c2 := c2_rescale_activity_values c2
  let c2 :=
    if c2.next_major_restart = c2.restarts_since_last_major then
      let c2 := { c2 with major_restarts := c2.major_restarts + 1 }
      let c2 := { c2 with restarts_since_last_major := 0 }
      let c2 := { c2 with next_restart := c2.magic.initial_restart }
      let c2 := { c2 with magic := { c2.magic with
        keeping_clauses_threshold := c2.magic.keeping_clauses_threshold + 1 } }
      let c2 := (List.range (var_vector_count c2.qcnf.vars)).foldl
        (fun c2 i => if ops.qcnf_var_exists c2.qcnf i then c2_set_activity c2 i 0 else c2) c2
      { c2 with next_major_restart :=
          float_to_unsigned ((c2.next_major_restart : ℚ) * c2.magic.restart_factor) }
    else c2
  if c2.restarts % c2.magic.replenish_frequency = c2.magic.replenish_frequency - 1 then
    ops.c2_backtrack_casesplit c2
  else c2

/-! ## The outer loop -/

/-- The body of the restart loop of `c2_sat`, entered in state `C2_READY`. -/
def c2_sat_round (ops : Ops H) (fuel : Nat) (c2 : C2 H) : Except Failure (C2 H) :=
  match c2_run ops fuel c2 c2.next_restart with
  | .error e => .error e
  | .ok c2 =>
    let c2 := if c2.state = C2_STATE.C2_CLOSE_CASE then ops.c2_close_case c2 else c2
    let r : Except Failure (C2 H) :=
      if c2.state = C2_STATE.C2_READY then
        match c2_backtrack_to_decision_lvl ops fuel c2 c2.restart_base_decision_lvl with
        | .error e => .error e
        | .ok c2 =>
          let c2 := { c2 with restarts := c2.restarts + 1 }
          let c2 := c2_restart_heuristics ops c2
          .ok (if c2.options.minimize_conflicts then ops.c2_simplify c2 else c2)
      else .ok c2
    match r with
    | .error e => .error e
    | .ok c2 =>
      if c2.options.cegar_soft_conflict_limit ∧ c2.statistics.conflicts > 1000
          ∧ ¬ c2.options.cegar then
        .ok { c2 with options := { c2.options with cegar := true } }
      else .ok c2

/-- The restart loop of `c2_sat`. -/
def c2_sat_loop (ops : Ops H) : Nat → C2 H → Except Failure (C2 H)
  | 0, c2 => if c2.state = C2_STATE.C2_READY then .error Failure.out_of_fuel else .ok c2
  | fuel + 1, c2 =>
    if c2.state = C2_STATE.C2_READY then
      match c2_sat_round ops fuel c2 with
      | .error e => .error e
      | .ok c2 => c2_sat_loop ops fuel c2
    else .ok c2

/-- The label `return_result` of `c2_sat`: the result is `c2_result`. -/
def c2_sat_return_result (c2 : C2 H) : Except Failure (cadet_res × C2 H) :=
  match c2_result c2 with
  | .error e => .error e
  | .ok res => .ok (res, c2)

/-- The part of `c2_sat` that follows an initial propagation without conflict:
the optional partition analysis, the update of the case-split interface, and
then either pure CEGAR or the restart loop. -/
def c2_sat_search (ops : Ops H) (fuel : Nat) (c2 : C2 H) : Except Failure (cadet_res × C2 H) :=
  let c2 := if c2.options.miniscoping then
      ops.c2_analysis_determine_number_of_partitions c2 else c2
  let c2 := { c2 with cs := ops.casesplits_update_interface c2.cs c2.skolem }
  if c2.options.cegar_only then
    c2_sat_return_result (ops.cegar_solve_2QBF_by_cegar c2 (-1))
  else
    match c2_sat_loop ops fuel c2 with
    | .error e => .error e
    | .ok c2 => c2_sat_return_result c2

/-- The function `c2_sat`: the result and the engine it leaves. -/
def c2_sat (ops : Ops H) (fuel : Nat) (c2 : C2 H) : Except Failure (cadet_res × C2 H) :=
  if ¬ ops.qcnf_is_2QBF c2.qcnf ∧ ¬ ops.qcnf_is_propositional c2.qcnf then
    .ok (cadet_res.CADET_RESULT_UNKNOWN, c2)
  else if c2.state = C2_STATE.C2_UNSAT ∨ c2.state = C2_STATE.C2_SAT then c2_sat_return_result c2
  else if c2.skolem.universals_assumptions.length ≠ 0 then
    .error (Failure.abort Abort.universal_assumptions_before_solving)
  else
    match c2_initial_propagation ops c2 with
    | .error e => .error e
    | .ok c2 =>
      if c2_is_in_conflcit c2 then c2_sat_return_result { c2 with state := C2_STATE.C2_UNSAT }
      else c2_sat_search ops fuel c2

/-! ## A small concrete instance

The instance below fixes the components outside `cadet2.c` in the simplest way,
so that the definitions above can be evaluated on concrete engines.  The extra
data of the Skolem domain is a table with one entry per variable: a negative
entry marks a variable without Skolem function, any other entry is the decision
level of the variable.  The extra data of the Examples domain is the list of
literals assigned in its example; the domain is conflicted when that list holds
a literal and its negation.  The extra data of the QCNF is the clause under
construction. -/

/-- The empty QCNF of the concrete instance. -/
def mini_qcnf : QCNF (List Int) :=
  { vars := [], clauses := [], universals_constraints := [], universal_clauses := [], hidden := [] }

/-- The Skolem domain of the concrete instance at decision level 0. -/
def mini_skolem : Skolem (List Int) :=
  { decision_lvl := 0, stack := { push_count := 0 }, state := SKOLEM_STATE.SKOLEM_STATE_READY,
    conflict_var_id := 0, conflicted_clause := none, universals_assumptions := [], hidden := [] }

/-- The Examples domain of the concrete instance. -/
def mini_examples : Examples (List Int) := { stack := { push_count := 0 }, hidden := [] }

/-- Whether a list of literals holds a literal together with its negation. -/
def has_complementary_pair (l : List Int) : Bool := l.any (fun x => l.contains (- x))

/-- The components outside `cadet2.c` in the concrete instance. -/
def mini_ops : Ops (List Int) :=
  { qcnf_init := mini_qcnf
    qcnf_add_lit := fun q lit => { q with hidden := q.hidden ++ [lit] }
    qcnf_close_clause := fun q =>
      if q.hidden = [] then ({ q with hidden := [] }, none)
      else
        let c : Clause := { occs := q.hidden, original := true, clause_idx := q.clauses.length }
        ({ q with hidden := [], clauses := q.clauses ++ [some c] }, some c)
    qcnf_is_2QBF := fun _ => true
    qcnf_is_propositional := fun _ => false
    qcnf_var_exists := fun q i => decide ((q.vars.getD i no_var).var_id ≠ 0)
    qcnf_is_universal := fun q i => (q.vars.getD i no_var).is_universal
    qcnf_is_original := fun _ _ => true
    skolem_init := fun _ _ => mini_skolem
    skolem_is_conflicted := fun s => decide (s.state ≠ SKOLEM_STATE.SKOLEM_STATE_READY)
    skolem_propagate := fun s => s
    skolem_can_propagate := fun _ => false
    skolem_get_decision_lvl := fun s v => (s.hidden.getD v 0).toNat
    skolem_get_dlvl_for_constant := fun s v => (s.hidden.getD v 0).toNat
    skolem_is_deterministic := fun s v => decide (0 ≤ s.hidden.getD v 0)
    skolem_push := fun s => { s with stack := { push_count := s.stack.push_count + 1 } }
    skolem_pop := fun s =>
      { s with stack := { push_count := s.stack.push_count - 1 },
               decision_lvl := s.decision_lvl - 1,
               state := SKOLEM_STATE.SKOLEM_STATE_READY }
    skolem_increase_decision_lvl := fun s => { s with decision_lvl := s.decision_lvl + 1 }
    skolem_decision := fun s lit => { s with hidden := s.hidden.set (lit_to_var lit) s.decision_lvl }
    skolem_new_clause := fun s _ => s
    skolem_make_universal_assumption := fun s lit =>
      { s with universals_assumptions := s.universals_assumptions ++ [lit] }
    skolem_get_satsolver_lit := fun _ lit => lit
    skolem_get_value_for_conflict_analysis := fun _ _ => 0
    satsolver_sat := fun s => (s, sat_res.SATSOLVER_SAT)
    satsolver_add := fun s _ => s
    satsolver_clause_finished := fun s => s
    examples_init := fun _ _ => mini_examples
    examples_is_conflicted := fun e => has_complementary_pair e.hidden
    examples_propagate := fun e => e
    examples_push := fun e => { e with stack := { push_count := e.stack.push_count + 1 } }
    examples_pop := fun e => { e with stack := { push_count := e.stack.push_count - 1 } }
    examples_new_clause := fun e _ => e
    examples_get_conflicted_assignment := fun e =>
      { decision_lvl := e.stack.push_count, conflicted_var := 0, conflicted_clause := none,
        hidden := e.hidden }
    examples_add_assignment_from_skolem := fun e _ => (e, none)
    examples_decision_consistent_with_skolem := fun e _ lit => { e with hidden := e.hidden ++ [lit] }
    partial_assignment_get_decision_lvl := fun _ _ => 0
    partial_assignment_is_conflicted := fun pa => has_complementary_pair pa.hidden
    casesplits_init := fun _ =>
      { max_cegar_iterations_per_learnt_clause := 1, cegar_effectiveness_threshold := 17,
        recent_average_cube_size := 0, hidden := [] }
    casesplits_update_interface := fun cs _ => cs
    satsolver_state_exists_solver := fun _ => sat_res.SATSOLVER_SAT
    cegar_get_val := fun _ _ => 1
    cegar_one_round_for_conflicting_assignment := fun c2 => c2
    cegar_solve_2QBF_by_cegar := fun c2 _ => c2
    c2_casesplits_assume_single_lit := fun c2 => (c2, false)
    c2_backtrack_casesplit := fun c2 => c2
    c2_close_case := fun c2 => { c2 with state := C2_STATE.C2_SAT }
    analyze_assignment_conflict := fun c2 var _ _ => (c2, [(var : Int)])
    c2_minimize_clause := fun c2 c => (c2, c)
    c2_simplify := fun c2 => c2
    c2_analysis_determine_number_of_partitions := fun c2 => c2
    c2_rl_get_decision := fun _ _ => 0 }

/-- The options of the concrete instance: everything switched off. -/
def mini_options : Options :=
  { examples_max_num := 0, easy_debugging := false, minimize_conflicts := false, cegar := false,
    cegar_only := false, cegar_soft_conflict_limit := false, functional_synthesis := false,
    reinforcement_learning := false, miniscoping := false }

/-- An existential variable of the concrete instance with a stored activity. -/
def mini_var (var_id : Nat) (activity : ℚ) : Var :=
  { var_id := var_id, is_universal := false, c2_vd := { activity := activity },
    pos_occs := [], neg_occs := [] }

/-- The engine of the concrete instance right after `c2_init`. -/
def mini_c2 : C2 (List Int) := c2_init mini_ops mini_options

/-- An engine in a Skolem conflict over two variables, the second of which has
decision level `2 ^ 31`. -/
def high_level_c2 : C2 (List Int) :=
  { mini_c2 with
    state := C2_STATE.C2_SKOLEM_CONFLICT
    skolem := { mini_skolem with hidden := [0, 1, 2147483648] } }

/-- A learnt clause over the variables 1 and 2. -/
def clause_1_2 : Clause := { occs := [-1, -2], original := false, clause_idx := 0 }

/-- An engine in a Skolem conflict at decision level 1: variable 1 has level 0,
variable 2 has level 1. -/
def conflict_c2 : C2 (List Int) :=
  { mini_c2 with
    state := C2_STATE.C2_SKOLEM_CONFLICT
    skolem := { mini_skolem with
      hidden := [0, 0, 1], decision_lvl := 1, stack := { push_count := 1 },
      state := SKOLEM_STATE.SKOLEM_STATE_SKOLEM_CONFLICT }
    examples := { mini_examples with stack := { push_count := 1 } } }

/-- The effective activity that the scan reads for the variable in slot `i`. -/
def slot_activity (c2 : C2 H) (i : Nat) : ℚ :=
  c2_get_activity c2 (var_vector_get c2.qcnf.vars i).var_id

/-- Slot `i` holds an existing variable with id at least 1 that is
nondeterministic in the Skolem domain. -/
def IsNondeterministicVar (ops : Ops H) (c2 : C2 H) (i : Nat) : Prop :=
  1 ≤ i ∧ i < var_vector_count c2.qcnf.vars ∧ ops.skolem_is_deterministic c2.skolem i = false
    ∧ (var_vector_get c2.qcnf.vars i).var_id ≠ 0

/-- An engine with three existential variables of effective activities 2, 5
and 5, the first of which has a Skolem function. -/
def three_vars_c2 : C2 (List Int) :=
  { mini_c2 with
    qcnf := { mini_qcnf with vars := [no_var, mini_var 1 2, mini_var 2 5, mini_var 3 5] }
    skolem := { mini_skolem with hidden := [0, 0, -1, -1] } }

/-- An engine in state `C2_READY` at decision level 0 with one nondeterministic
existential variable 1, whose example already assigns the literal `-1`. -/
def decision_c2 : C2 (List Int) :=
  { mini_c2 with
    qcnf := { mini_qcnf with vars := [no_var, mini_var 1 0] }
    skolem := { mini_skolem with hidden := [0, -1] }
    examples := { mini_examples with hidden := [-1] } }

/-- An engine in state `C2_READY` whose Skolem domain is in a constants
conflict on variable 1 before the first propagation. -/
def constants_conflict_c2 : C2 (List Int) :=
  { mini_c2 with
    skolem := { mini_skolem with
      state := SKOLEM_STATE.SKOLEM_STATE_CONSTANTS_CONLICT, conflict_var_id := 1 } }

/-- The concrete instance with a case-split driver that runs into a Skolem
conflict: it leaves the engine in state `C2_SKOLEM_CONFLICT`. -/
def casesplit_conflict_ops : Ops (List Int) :=
  { mini_ops with
    c2_casesplits_assume_single_lit := fun c2 =>
      ({ c2 with
          state := C2_STATE.C2_SKOLEM_CONFLICT
          skolem := { c2.skolem with
            state := SKOLEM_STATE.SKOLEM_STATE_SKOLEM_CONFLICT, conflict_var_id := 1 } }, false) }

/-! ## The relation between `current_conflict` and the engine state -/

/-- The assertion of `c2_is_in_conflcit`: `current_conflict` is non-null only
in the states `C2_UNSAT`, `C2_EXAMPLES_CONFLICT` and `C2_SKOLEM_CONFLICT`. -/
def ConflictInvariant (c2 : C2 H) : Prop :=
  c2.current_conflict ≠ none → c2_is_in_conflcit c2 = true

/-- What is assumed of the functions outside `cadet2.c` that receive the
engine: the conflict analysis does not change the engine state, and none of the
others creates a `current_conflict` vector. -/
def LeavesConflictAlone (ops : Ops H) : Prop :=
  (∀ c2 var clause domain,
    (ops.analyze_assignment_conflict c2 var clause domain).1.state = c2.state) ∧
  (∀ c2, c2.current_conflict = none →
    (ops.cegar_one_round_for_conflicting_assignment c2).current_conflict = none) ∧
  (∀ c2, c2.current_conflict = none →
    (ops.c2_casesplits_assume_single_lit c2).1.current_conflict = none) ∧
  (∀ c2, c2.current_conflict = none → (ops.c2_close_case c2).current_conflict = none) ∧
  (∀ c2, c2.current_conflict = none → (ops.c2_backtrack_casesplit c2).current_conflict = none) ∧
  (∀ c2, c2.current_conflict = none → (ops.c2_simplify c2).current_conflict = none) ∧
  (∀ c2, c2.current_conflict = none →
    (ops.c2_analysis_determine_number_of_partitions c2).current_conflict = none) ∧
  (∀ c2 n, c2.current_conflict = none →
    (ops.cegar_solve_2QBF_by_cegar c2 n).current_conflict = none)

/-- The engine with which an iteration of `c2_run` ends. -/
def RunStep.engine : RunStep H → C2 H
  | RunStep.next c2 _ => c2
  | RunStep.done c2 => c2

/-! ## Stored and effective activities -/

/-- Slot `i` of the variable vector holds a variable (`var_id != 0`). -/
def var_exists (c2 : C2 H) (i : Nat) : Prop := (var_vector_get c2.qcnf.vars i).var_id ≠ 0

/-- The stored activity `c2_vd.activity` of the variable in slot `i`. -/
def stored_activity (c2 : C2 H) (i : Nat) : ℚ := (var_vector_get c2.qcnf.vars i).c2_vd.activity

/-- Every existing variable's stored activity is at least 0 and the activity
factor is at least 1. -/
def ActivityInvariant (c2 : C2 H) : Prop :=
  (∀ i, var_exists c2 i → 0 ≤ stored_activity c2 i) ∧ 1 ≤ c2.activity_factor

/-- The engine `three_vars_c2` with activity factor 990; with the decay rate
0.99 of `c2_init` the quotient of the two is exactly 1000. -/
def boundary_c2 : C2 (List Int) := { three_vars_c2 with activity_factor := 990 }

/-! ## Restarts: what is assumed and observed -/

/-- What is assumed of `qcnf_var_exists`, which is not part of `cadet2.c`: it
reports exactly the slots that hold a variable (`var_id != 0`). -/
def VarExistsAgrees (ops : Ops H) : Prop :=
  ∀ (q : QCNF H) (i : Nat), ops.qcnf_var_exists q i = true ↔ (var_vector_get q.vars i).var_id ≠ 0

/-- What is assumed of `c2_backtrack_casesplit`, which is not part of
`cadet2.c`: it changes neither the variable vector nor the activity factor. -/
def CasesplitKeepsActivities (ops : Ops H) : Prop :=
  ∀ c2 : C2 H, (ops.c2_backtrack_casesplit c2).qcnf.vars = c2.qcnf.vars ∧
    (ops.c2_backtrack_casesplit c2).activity_factor = c2.activity_factor

/-- The engine `three_vars_c2` with activity factor 4, one restart before its
next major restart. -/
def major_due_c2 : C2 (List Int) :=
  { three_vars_c2 with activity_factor := 4, restarts_since_last_major := 14 }

/-- The first part of `c2_restart_heuristics`: count the restart, lengthen the
restart interval, rescale the activities. -/
def restart_begin (c2 : C2 H) : C2 H :=
  let c2 := { c2 with restarts_since_last_major := c2.restarts_since_last_major + 1 }
  let c2 := { c2 with
    next_restart := float_to_unsigned ((c2.next_restart : ℚ) * c2.magic.restart_factor) }
  c2_rescale_activity_values c2

/-- The body of the major restart in `c2_restart_heuristics`. -/
def restart_major (ops : Ops H) (c2 : C2 H) : C2 H :=
  let c2 := { c2 with major_restarts := c2.major_restarts + 1 }
  let c2 := { c2 with restarts_since_last_major := 0 }
  let c2 := { c2 with next_restart := c2.magic.initial_restart }
  let c2 := { c2 with magic := { c2.magic with
    keeping_clauses_threshold := c2.magic.keeping_clauses_threshold + 1 } }
  let c2 := (List.range (var_vector_count c2.qcnf.vars)).foldl
    (fun c2 i => if ops.qcnf_var_exists c2.qcnf i then c2_set_activity c2 i 0 else c2) c2
  { c2 with next_major_restart :=
      float_to_unsigned ((c2.next_major_restart : ℚ) * c2.magic.restart_factor) }

/-- The last part of `c2_restart_heuristics`: stepping out of the case split
every `replenish_frequency` restarts. -/
def restart_replenish (ops : Ops H) (c2 : C2 H) : C2 H :=
  if c2.restarts % c2.magic.replenish_frequency = c2.magic.replenish_frequency - 1 then
    ops.c2_backtrack_casesplit c2
  else c2

/-- The restart intervals by the rule of the schedule: start at 6, multiply by
1.2 and take the integral part. -/
def restart_interval : Nat → Nat
  | 0 => 6
  | k + 1 => restart_interval k * 12 / 10

/-- The engine after `k` calls of `c2_restart_heuristics`. -/
def after_restarts (ops : Ops H) (c2 : C2 H) (k : Nat) : C2 H :=
  (c2_restart_heuristics ops)^[k] c2

/-! ## Jeroslow-Wang weight: the formula -/

/-- The Jeroslow-Wang weight of a clause list by the formula: the sum of
`2^-|c|` over all clauses `c` of the list with `|c| ≤ 10`, plus 0.05 times the
number of clauses. -/
def Jeroslow_Wang_formula (L : List Clause) : ℚ :=
  ((L.filter (fun c => decide (c.size ≤ 10))).map (fun c => 1 / (2 : ℚ) ^ c.size)).sum
    + (5 / 100) * (L.length : ℚ)

/-- A clause with the single literal 1. -/
def unit_clause : Clause := { occs := [1], original := true, clause_idx := 0 }

/-! ## The decision: phase and literal -/

/-- The phase that `c2_run` decides with, given the phase chosen so far (1, or
the sign of the answer of the external controller): once
`num_restarts_before_Jeroslow_Wang` restarts have happened and outside
reinforcement learning, the Jeroslow-Wang weights decide. -/
def c2_run_decision_phase (c2 : C2 H) (decision_var : Nat) (phase : Int) : Int :=
  let var := var_vector_get c2.qcnf.vars decision_var
  if c2.restarts ≥ c2.magic.num_restarts_before_Jeroslow_Wang
      ∧ ¬ c2.options.reinforcement_learning then
    let pos_JW_weight := c2_Jeroslow_Wang_log_weight var.pos_occs
    let neg_JW_weight := c2_Jeroslow_Wang_log_weight var.neg_occs
    if pos_JW_weight > neg_JW_weight then 1 else -1
  else phase

/-- The decision of `c2_run` on the literal `lit` of the variable `var_id`:
scale the activity, push both domains, count the decision, let the Examples
domain follow, and unless it became conflicted raise the decision level and
call `skolem_decision` with `lit`. -/
def c2_run_decide (ops : Ops H) (c2 : C2 H) (var_id : Nat) (lit : Lit) : C2 H :=
  let c2 := c2_scale_activity c2 var_id c2.magic.decision_var_activity_modifier
  let c2 := { c2 with skolem := ops.skolem_push c2.skolem }
  let c2 := { c2 with examples := ops.examples_push c2.examples }
  let c2 := { c2 with statistics := { c2.statistics with decisions := c2.statistics.decisions + 1 } }
  let c2 := { c2 with decisions_since_last_conflict := c2.decisions_since_last_conflict + 1 }
  let c2 := { c2 with
    examples := ops.examples_decision_consistent_with_skolem c2.examples c2.skolem lit }
  if ops.examples_is_conflicted c2.examples then c2
  else
    let c2 := { c2 with skolem := ops.skolem_increase_decision_lvl c2.skolem }
    { c2 with skolem := ops.skolem_decision c2.skolem lit }

/-- The engine `decision_c2` without the assignment in its example, so that the
decision on variable 1 goes through. -/
def free_decision_c2 : C2 (List Int) := { decision_c2 with examples := mini_examples }

/-! ## A conflict without a learnt clause -/

/-- The result of `qcnf_close_clause` in the conflict branch of `c2_run`, after
the negated literals of `current_conflict` have been added. -/
def c2_run_closed_clause (ops : Ops H) (c2 : C2 H) : QCNF H × Option Clause :=
  ops.qcnf_close_clause
    ((c2.current_conflict.getD []).foldl (fun q lit => ops.qcnf_add_lit q (- lit)) c2.qcnf)

/-- The engine that `c2_run` returns when no learnt clause was created and
the SAT solver of the Skolem domain does not report SAT: `current_conflict` is
freed and the state is `C2_CLOSE_CASE`. -/
def c2_run_close_case (ops : Ops H) (c2 : C2 H) : C2 H :=
  { c2 with
    qcnf := (c2_run_closed_clause ops c2).1
    skolem := (ops.satsolver_sat c2.skolem).1
    current_conflict := none
    state := C2_STATE.C2_CLOSE_CASE }

/-- The concrete instance with a conflict analysis that returns the empty
conflict, and a Skolem domain that is conflicted after every decision; its SAT
solver reports SAT. -/
def no_clause_sat_ops : Ops (List Int) :=
  { mini_ops with
    analyze_assignment_conflict := fun c2 _ _ _ => (c2, [])
    skolem_decision := fun s _ =>
      { s with state := SKOLEM_STATE.SKOLEM_STATE_SKOLEM_CONFLICT, conflict_var_id := 1 } }

/-- The same instance with a SAT solver that reports UNSAT. -/
def no_clause_unsat_ops : Ops (List Int) :=
  { no_clause_sat_ops with satsolver_sat := fun s => (s, sat_res.SATSOLVER_UNSAT) }

/-! ## Reinforcement learning -/

/-- The engine `free_decision_c2` in reinforcement-learning mode. -/
def rl_c2 : C2 (List Int) :=
  { free_decision_c2 with options := { mini_options with reinforcement_learning := true } }

/-! ## Formulas outside 2QBF -/

/-- The concrete instance for a formula that is neither 2QBF nor propositional. -/
def not_2QBF_ops : Ops (List Int) := { mini_ops with qcnf_is_2QBF := fun _ => false }

/-! ## The refuting assignment -/

/-- The condition of both loops of `c2_refuting_assignment`: the variable
exists, is universal and is original. -/
def refuting_eligible (ops : Ops H) (c2 : C2 H) (i : Nat) : Bool :=
  ops.qcnf_var_exists c2.qcnf i && ops.qcnf_is_universal c2.qcnf i && ops.qcnf_is_original c2.qcnf i

/-- The body of the first loop of `c2_refuting_assignment`, taken when the
solver `c2->cs->exists_solver` is in state UNSAT.  The product `val * (Lit) i`
is the product of integers; it is in the range of `int` when `val` is one of
`-1`, `0`, `1`. -/
def refuting_step_cegar (ops : Ops H) (c2 : C2 H) (a : List Int) (i : Nat) : List Int :=
  if refuting_eligible ops c2 i then
    let val := ops.cegar_get_val c2.skolem (unsigned_to_int i)
    a ++ [val * unsigned_to_int i]
  else a

/-- The body of the second loop of `c2_refuting_assignment`. -/
def refuting_step_skolem (ops : Ops H) (c2 : C2 H) (a : List Int) (i : Nat) : List Int :=
  if refuting_eligible ops c2 i then
    let val := ops.skolem_get_value_for_conflict_analysis c2.skolem (unsigned_to_int i)
    if val ≠ 0 then a ++ [val * unsigned_to_int i] else a
  else a

/-- The function `c2_refuting_assignment`. -/
def c2_refuting_assignment (ops : Ops H) (c2 : C2 H) : Except Failure (List Int) :=
  if c2.state ≠ C2_STATE.C2_UNSAT then .error (Failure.abort Abort.must_be_in_unsat_state)
  else if ops.satsolver_state_exists_solver c2.cs = sat_res.SATSOLVER_UNSAT then
    .ok ((List.range (var_vector_count c2.qcnf.vars)).foldl (refuting_step_cegar ops c2) [])
  else
    .ok ((List.range (var_vector_count c2.qcnf.vars)).foldl (refuting_step_skolem ops c2) [])

/-- The value that `c2_refuting_assignment` reads for the variable `i`. -/
def refuting_value (ops : Ops H) (c2 : C2 H) (i : Nat) : Int :=
  if ops.satsolver_state_exists_solver c2.cs = sat_res.SATSOLVER_UNSAT then
    ops.cegar_get_val c2.skolem (unsigned_to_int i)
  else ops.skolem_get_value_for_conflict_analysis c2.skolem (unsigned_to_int i)

/-- The variable `v` is listed by `c2_refuting_assignment`: it is an existing
original universal variable and, when the solver `c2->cs->exists_solver` is not
in state UNSAT, its value is not `0`. -/
def RefutingListed (ops : Ops H) (c2 : C2 H) (v : Nat) : Prop :=
  v < var_vector_count c2.qcnf.vars ∧ refuting_eligible ops c2 v = true
    ∧ (ops.satsolver_state_exists_solver c2.cs ≠ sat_res.SATSOLVER_UNSAT → refuting_value ops c2 v ≠ 0)

/-- An engine in state `C2_UNSAT` whose only variable is the universal
variable 1. -/
def refuting_c2 : C2 (List Int) :=
  { mini_c2 with
    state := C2_STATE.C2_UNSAT
    qcnf := { mini_qcnf with vars := [no_var, { mini_var 1 0 with is_universal := true }] } }

/-- The concrete instance with the solver `exists_solver` in state UNSAT. -/
def cegar_unsat_ops : Ops (List Int) :=
  { mini_ops with satsolver_state_exists_solver := fun _ => sat_res.SATSOLVER_UNSAT }

/-- The engine `free_decision_c2` after the decision on variable 1 with the
instance `no_clause_sat_ops`: its Skolem domain is conflicted. -/
def after_decision_c2 : C2 (List Int) := c2_run_take_decision no_clause_sat_ops free_decision_c2 1 1

/-! ## The command line (`main.c`)

The function `main` scans its arguments, opens the input file and hands it to
one of the solvers.  Strings are lists of characters without the terminating
`NUL`; reading `argv[i][1]` of a one-character string gives `NUL`.  Messages
(`LOG_ERROR`, `print_usage`, `printf`) are not part of the model. -/

/-- The values of `debug_verbosity` that `main` assigns. -/
inductive VERBOSITY where
  | VERBOSITY_NONE
  | VERBOSITY_LOW
  | VERBOSITY_MEDIUM
  | VERBOSITY_HIGH
  | VERBOSITY_ALL
deriving DecidableEq, Repr

/-- The values of `certificate_aiger_mode` that `main` assigns. -/
inductive aiger_mode where
  | aiger_binary_mode
  | aiger_ascii_mode
deriving DecidableEq, Repr

/-- The fields of the structure `Options` that `main` reads or writes.  The
field `certificate_type_QBFCERT` tells whether `certificate_type` is `QBFCERT`;
`variable_names` is `none` for a null pointer. -/
structure MainOptions where
  reactive : Bool
  certify_SAT : Bool
  certify_UNSAT : Bool
  certify_internally_UNSAT : Bool
  certificate_file_name : Option String
  certificate_aiger_mode : aiger_mode
  certificate_type_QBFCERT : Bool
  case_splits : Bool
  cadet2cegar : Bool
  easy_debugging_mode_c2 : Bool
  cadet_version : Int
  print_statistics : Bool
  preprocess : Bool
  print_qdimacs : Bool
  aiger_negated_encoding : Bool
  reencode3QBF : Bool
  reencode_existentials : Bool
  aiger_controllable_inputs : String
  minimize_conflicts : Bool
  miniscoping : Bool
  print_detailed_miniscoping_stats : Bool
  trace_learnt_clauses : Bool
  trace_for_visualization : Bool
  variable_names : Option (List String)
  use_qbf_engine_also_for_propositional_problems : Bool
  delay_conflict_checks : Bool
deriving DecidableEq

/-- The local variables of `main` and the global variables of the logging
component that it writes. -/
structure MainState where
  options : MainOptions
  file_name : Option String
  verbosity : Int
  seed : Int
  debug_verbosity : VERBOSITY
  log_silent : Bool
  log_comment_prefix : Bool
  log_colors : Bool
deriving DecidableEq

/-- What `main` takes from outside `main.c`: the default options, the initial
values of the logging variables, the functions `get_filename_ext` and `strtol`
(with base 0), whether `fopen` and `popen` succeed for a file name, and the
exit codes of the three solvers for an input (`none` is the standard input). -/
structure MainEnv where
  default_options : MainOptions
  debug_verbosity : VERBOSITY
  log_silent : Bool
  log_comment_prefix : Bool
  log_colors : Bool
  get_filename_ext : String → Option String
  strtol : String → Int
  fopen : String → Bool
  popen : String → Bool
  reactive : Option String → MainOptions → Int
  c2_solve_qdimacs : Option String → MainOptions → Int
  cadet_solve_qdimacs : Option String → MainOptions → Int

/-- The `return` statements inside the argument loop of `main`, named after
the message printed before them. -/
inductive UsageExit where
  | certificate_file_name_missing
  | certificate_extension_missing
  | certificate_extension_unknown
  | help
  | verbosity_number_missing
  | illegal_verbosity_number
  | missing_seed_number
  | missing_controllable_inputs_string
  | unknown_long_argument
  | unknown_argument
deriving DecidableEq, Repr

/-- How the handling of one argument ends: `main` returns, the loop is left by
`break`, or the loop goes on; `skip` tells that the case has advanced `i` over
the value of the option. -/
inductive ScanStep where
  | returned (site : UsageExit) (code : Int) (st : MainState)
  | stop (st : MainState)
  | next (skip : Bool) (st : MainState)
deriving DecidableEq

/-- How the argument loop of `main` ends: `main` returns, or the loop is left. -/
inductive ScanResult where
  | returned (site : UsageExit) (code : Int) (st : MainState)
  | scanned (st : MainState)
deriving DecidableEq

/-- How `main` ends: it returns inside the argument loop; `strlen` is called
with the null pointer that `get_filename_ext` returned; the input cannot be
opened; the result of one of the solvers is returned; the version is illegal. -/
inductive MainResult where
  | usage (site : UsageExit) (code : Int)
  | null_extension
  | cannot_open (code : Int)
  | reactive (code : Int)
  | cadet2 (code : Int)
  | cadet1 (code : Int)
  | illegal_version
deriving DecidableEq, Repr

/-- The case `'v'` of the switch in `main`; the case `'p'` falls through into it. -/
def scan_verbosity (env : MainEnv) (rest : List String) (st : MainState) : ScanStep :=
  match rest with
  | [] => ScanStep.returned UsageExit.verbosity_number_missing 1 st
  | value :: _ =>
    let st := { st with verbosity := env.strtol value }
    if st.verbosity = 0 then
      ScanStep.next true { st with debug_verbosity := VERBOSITY.VERBOSITY_NONE }
    else if st.verbosity = 1 then
      ScanStep.next true { st with debug_verbosity := VERBOSITY.VERBOSITY_LOW }
    else if st.verbosity = 2 then
      ScanStep.next true { st with debug_verbosity := VERBOSITY.VERBOSITY_MEDIUM }
    else if st.verbosity = 3 then
      ScanStep.next true { st with debug_verbosity := VERBOSITY.VERBOSITY_HIGH }
    else if st.verbosity = 4 then
      ScanStep.next true { st with debug_verbosity := VERBOSITY.VERBOSITY_ALL }
    else ScanStep.returned UsageExit.illegal_verbosity_number 1 st

/-- The end of the case `'c'` of the switch in `main`, after the check of the
file name: case splits and CEGAR are switched off, and `i` is advanced. -/
def scan_certificate_accept (st : MainState) : ScanStep :=
  let st := if st.options.case_splits then
      { st with options := { st.options with case_splits := false } } else st
  let st := if st.options.cadet2cegar then
      { st with options := { st.options with cadet2cegar := false } } else st
  ScanStep.next true st

/-- The case `'c'` of the switch in `main`. -/
def scan_certificate (env : MainEnv) (rest : List String) (st : MainState) : ScanStep :=
  match rest with
  | [] => ScanStep.returned UsageExit.certificate_file_name_missing 1 st
  | name :: _ =>
    let st := { st with options := { st.options with
      certify_SAT := true, certify_UNSAT := true, certify_internally_UNSAT := false,
      certificate_file_name := some name } }
    if name ≠ "stdout" then
      match env.get_filename_ext name with
      | none => ScanStep.returned UsageExit.certificate_extension_missing 0 st
      | some ext =>
        if ext.length ≠ 3 then ScanStep.returned UsageExit.certificate_extension_missing 0 st
        else if ext = "aig" then
          scan_certificate_accept { st with options := { st.options with
            certificate_aiger_mode := aiger_mode.aiger_binary_mode } }
        else if ext = "aag" then
          scan_certificate_accept { st with options := { st.options with
            certificate_aiger_mode := aiger_mode.aiger_ascii_mode } }
        else ScanStep.returned UsageExit.certificate_extension_unknown 0 st
    else
      scan_certificate_accept { st with
        options := { st.options with certificate_aiger_mode := aiger_mode.aiger_ascii_mode },
        log_silent := true }

/-- The case `'-'` of the switch in `main`: the long arguments. -/
def scan_long (arg : String) (rest : List String) (st : MainState) : ScanStep :=
  if arg = "--stats" then
    ScanStep.next false { st with options := { st.options with print_statistics := true } }
  else if arg = "--disable-preprocessing" then
    ScanStep.next false { st with options := { st.options with preprocess := false } }
  else if arg = "--qbfcert" then
    ScanStep.next false { st with options := { st.options with certificate_type_QBFCERT := true } }
  else if arg = "--print" then
    ScanStep.next false { st with
      options := { st.options with preprocess := false, print_qdimacs := true },
      log_comment_prefix := true, log_colors := false }
  else if arg = "--no_colors" then ScanStep.next false { st with log_colors := false }
  else if arg = "--aiger_negated" then
    ScanStep.next false { st with options := { st.options with aiger_negated_encoding := true } }
  else if arg = "--reencode3QBF" then
    ScanStep.next false { st with options := { st.options with reencode3QBF := true } }
  else if arg = "--reencode_existentials" then
    ScanStep.next false { st with options := { st.options with
      reencode_existentials := ! st.options.reencode_existentials } }
  else if arg = "--aiger_controllable_inputs" then
    match rest with
    | [] => ScanStep.returned UsageExit.missing_controllable_inputs_string 1 st
    | value :: _ =>
      ScanStep.next true { st with options := { st.options with aiger_controllable_inputs := value } }
  else if arg = "--case_splits" then
    ScanStep.next false { st with options := { st.options with case_splits := ! st.options.case_splits } }
  else if arg = "--minimize_conflicts" then
    ScanStep.next false { st with options := { st.options with
      minimize_conflicts := ! st.options.minimize_conflicts } }
  else if arg = "--miniscoping" then
    ScanStep.next false { st with options := { st.options with miniscoping := ! st.options.miniscoping } }
  else if arg = "--miniscoping_info" then
    ScanStep.next false { st with options := { st.options with
      print_detailed_miniscoping_stats := ! st.options.print_detailed_miniscoping_stats } }
  else if arg = "--trace_learnt_clauses" then
    ScanStep.next false { st with options := { st.options with
      trace_learnt_clauses := ! st.options.trace_learnt_clauses } }
  else if arg = "--trace_for_visualization" then
    ScanStep.next false { st with
      options := { st.options with trace_for_visualization := true, trace_learnt_clauses := true },
      log_colors := false }
  else if arg = "--print_variable_names" then
    ScanStep.next false { st with options := { st.options with variable_names := some [] } }
  else if arg = "--cegar" then
    ScanStep.next false { st with options := { st.options with cadet2cegar := ! st.options.cadet2cegar } }
  else if arg = "--sat_by_qbf" then
    ScanStep.next false { st with options := { st.options with
      use_qbf_engine_also_for_propositional_problems :=
        ! st.options.use_qbf_engine_also_for_propositional_problems } }
  else if arg = "--delay_conflicts" then
    ScanStep.next false { st with options := { st.options with
      delay_conflict_checks := ! st.options.delay_conflict_checks } }
  else ScanStep.returned UsageExit.unknown_long_argument 1 st

/-- The switch on `argv[i][1]` for an argument that starts with `-`; `c` is
the character `argv[i][1]`. -/
def scan_switch (env : MainEnv) (c : Char) (arg : String) (rest : List String) (st : MainState) :
    ScanStep :=
  if c = 'r' then ScanStep.next false { st with options := { st.options with reactive := true } }
  else if c = 'c' then scan_certificate env rest st
  else if c = 'h' then ScanStep.returned UsageExit.help 0 st
  else if c = 'p' then
    scan_verbosity env rest
      { st with options := { st.options with easy_debugging_mode_c2 := false } }
  else if c = 'v' then scan_verbosity env rest st
  else if c = '1' then
    ScanStep.next false { st with options := { st.options with cadet_version := 1 } }
  else if c = '2' then
    ScanStep.next false { st with options := { st.options with cadet_version := 2 } }
  else if c = 's' then
    match rest with
    | [] => ScanStep.returned UsageExit.missing_seed_number 1 st
    | value :: _ => ScanStep.next true { st with seed := env.strtol value }
  else if c = '-' then scan_long arg rest st
  else ScanStep.returned UsageExit.unknown_argument 1 st

/-- The body of the argument loop of `main` for the argument `arg = argv[i]`,
`rest` being the arguments after it. -/
def scan_arg (env : MainEnv) (arg : String) (rest : List String) (st : MainState) : ScanStep :=
  match arg.data with
  | '-' :: tail => scan_switch env (tail.headD (Char.ofNat 0)) arg rest st
  | _ => ScanStep.stop { st with file_name := some arg }

/-- The argument loop of `main` over the arguments from `argv[i]` on. -/
def scan_args (env : MainEnv) : List String → MainState → ScanResult
  | [], st => ScanResult.scanned st
  | arg :: rest, st =>
    match scan_arg env arg rest st with
    | ScanStep.returned site code st => ScanResult.returned site code st
    | ScanStep.stop st => ScanResult.scanned st
    | ScanStep.next false st => scan_args env rest st
    | ScanStep.next true st =>
      match rest with
      | [] => ScanResult.scanned st
      | _ :: rest => scan_args env rest st

/-- The state of `main` before the argument loop. -/
def main_initial_state (env : MainEnv) : MainState :=
  { options := env.default_options
    file_name := none
    verbosity := 0
    seed := 0
    debug_verbosity := env.debug_verbosity
    log_silent := env.log_silent
    log_comment_prefix := env.log_comment_prefix
    log_colors := env.log_colors }

/-- The end of `main`: the call of the solver for the opened input. -/
def main_run (env : MainEnv) (st : MainState) : MainResult :=
  if st.options.reactive then MainResult.reactive (env.reactive st.file_name st.options)
  else if st.options.cadet_version = 2 then
    MainResult.cadet2 (env.c2_solve_qdimacs st.file_name st.options)
  else if st.options.cadet_version = 1 then
    MainResult.cadet1 (env.cadet_solve_qdimacs st.file_name st.options)
  else MainResult.illegal_version

/-- The part of `main` after the argument loop: open the input and call the
solver.  For a compressed file the command string is freed before it is
passed to `popen`; the outcome of that call is the one the environment gives. -/
def main_solve (env : MainEnv) (st : MainState) : MainResult :=
  match st.file_name with
  | none => main_run env st
  | some file_name =>
    match env.get_filename_ext file_name with
    | none => MainResult.null_extension
    | some ext =>
      if (ext.length = 2 ∧ ext = "gz") ∨ (ext.length = 4 ∧ ext = "gzip") then
        if env.popen file_name then main_run env st else MainResult.cannot_open 1
      else
        if env.fopen file_name then main_run env st else MainResult.cannot_open 1

/-- The function `main`; `argv[0]` is the name of the program. -/
def main (env : MainEnv) (argv : List String) : MainResult :=
  match scan_args env argv.tail (main_initial_state env) with
  | ScanResult.returned site code _ => MainResult.usage site code
  | ScanResult.scanned st => main_solve env st

/-- Whether `main` has called one of the solvers. -/
def MainResult.solving_started : MainResult → Bool
  | MainResult.reactive _ => true
  | MainResult.cadet2 _ => true
  | MainResult.cadet1 _ => true
  | _ => false

/-- The exit code of `main`, when it returns. -/
def MainResult.exit_code : MainResult → Option Int
  | MainResult.usage _ code => some code
  | MainResult.cannot_open code => some code
  | MainResult.reactive code => some code
  | MainResult.cadet2 code => some code
  | MainResult.cadet1 code => some code
  | MainResult.null_extension => none
  | MainResult.illegal_version => none

/-! ### A concrete environment -/

/-- The value of the leading decimal digits of a string. -/
def decimal_value (cs : List Char) : Nat :=
  (cs.takeWhile Char.isDigit).foldl (fun n c => 10 * n + (c.toNat - 48)) 0

/-- A stand-in for `strtol` with base 0 on decimal numerals with an optional
minus sign: the value of the leading digits, `0` when there are none. -/
def mini_strtol (s : String) : Int :=
  match s.data with
  | '-' :: cs => - (decimal_value cs : Int)
  | cs => (decimal_value cs : Int)

/-- A stand-in for `get_filename_ext`: the part of the name after its last
dot, the empty string when the name has no dot. -/
def mini_get_filename_ext (s : String) : Option String :=
  if s.data.contains '.' then some (String.mk (s.data.reverse.takeWhile (fun c => c != '.')).reverse)
  else some ""

/-- Default options of the concrete environment: version 2, everything else
switched off. -/
def mini_main_options : MainOptions :=
  { reactive := false, certify_SAT := false, certify_UNSAT := false,
    certify_internally_UNSAT := false, certificate_file_name := none,
    certificate_aiger_mode := aiger_mode.aiger_binary_mode, certificate_type_QBFCERT := false,
    case_splits := false, cadet2cegar := false, easy_debugging_mode_c2 := false,
    cadet_version := 2, print_statistics := false, preprocess := true, print_qdimacs := false,
    aiger_negated_encoding := false, reencode3QBF := false, reencode_existentials := false,
    aiger_controllable_inputs := "pi_", minimize_conflicts := false, miniscoping := false,
    print_detailed_miniscoping_stats := false, trace_learnt_clauses := false,
    trace_for_visualization := false, variable_names := none,
    use_qbf_engine_also_for_propositional_problems := false, delay_conflict_checks := false }

/-- The concrete environment: every file can be opened, and every solver
answers with exit code 10 for a file and with exit code 30 for the standard
input. -/
def mini_env : MainEnv :=
  { default_options := mini_main_options
    debug_verbosity := VERBOSITY.VERBOSITY_NONE
    log_silent := false
    log_comment_prefix := false
    log_colors := true
    get_filename_ext := mini_get_filename_ext
    strtol := mini_strtol
    fopen := fun _ => true
    popen := fun _ => true
    reactive := fun file _ => if file.isSome then 10 else 30
    c2_solve_qdimacs := fun file _ => if file.isSome then 10 else 30
    cadet_solve_qdimacs := fun file _ => if file.isSome then 10 else 30 }

/-- The exit code that the claim on usage errors expects for a `return`
inside the argument loop: `0` for the help option and `1` otherwise. -/
def expected_usage_exit_code (site : UsageExit) : Int :=
  if site = UsageExit.help then 0 else 1

/-- The exit code of a `return` inside the argument loop of `main`. -/
def usage_exit_code (site : UsageExit) : Int :=
  if site = UsageExit.help ∨ site = UsageExit.certificate_extension_missing
      ∨ site = UsageExit.certificate_extension_unknown then 0
  else 1

/-- Whenever the handling of an argument makes `main` return, the exit code is
`usage_exit_code`. -/
def StepCodeOk (step : ScanStep) : Prop :=
  ∀ site code st, step = ScanStep.returned site code st → code = usage_exit_code site

/-- The concrete environment with the easy-debugging configuration switched
on by default. -/
def easy_debugging_env : MainEnv :=
  { mini_env with default_options := { mini_main_options with easy_debugging_mode_c2 := true } }

/-! ## Further concrete engines -/

/-- The engine `three_vars_c2` with the activity factor 990 and stored
activities 1980, 4950 and 4950: its effective activities are 2, 5 and 5 as in
`three_vars_c2`, and its next decay rescales the stored values. -/
def rescale_due_c2 : C2 (List Int) :=
  { three_vars_c2 with
    activity_factor := 990
    qcnf := { mini_qcnf with
      vars := [no_var, mini_var 1 1980, mini_var 2 4950, mini_var 3 4950] } }

/-- The engine `conflict_c2` at decision level 1 in the state `C2_UNSAT`. -/
def unsat_level_c2 : C2 (List Int) := { conflict_c2 with state := C2_STATE.C2_UNSAT }

/-- The concrete instance with a Skolem domain that is conflicted right after
`skolem_init`. -/
def conflicted_init_ops : Ops (List Int) :=
  { mini_ops with
    skolem_init := fun _ _ =>
      { mini_skolem with
        state := SKOLEM_STATE.SKOLEM_STATE_CONSTANTS_CONLICT, conflict_var_id := 1 } }

/-! ## Engines for the phase and the variable of a decision -/

/-- The term that the clause at index 0 of a clause list contributes to the
Jeroslow-Wang formula: `2^-|c|` when it has at most 10 literals. -/
def first_clause_term (L : List Clause) : ℚ :=
  match L with
  | [] => 0
  | c :: _ => if c.size ≤ 10 then 1 / (2 : ℚ) ^ c.size else 0

/-- A clause with eleven literals, the first of which is `-1`. -/
def eleven_clause : Clause :=
  { occs := [-1, 2, 3, 4, 5, 6, 7, 8, 9, 10, 11], original := true, clause_idx := 1 }

/-- The existential variable 1 that occurs positively in the unit clause and
negatively in two clauses of eleven literals. -/
def jw_var : Var :=
  { var_id := 1, is_universal := false, c2_vd := { activity := 0 },
    pos_occs := [unit_clause], neg_occs := [eleven_clause, eleven_clause] }

/-- The engine `free_decision_c2` after three restarts, with the variable
`jw_var` as its only variable. -/
def jw_c2 : C2 (List Int) :=
  { free_decision_c2 with
    restarts := 3
    qcnf := { mini_qcnf with vars := [no_var, jw_var] } }

/-- The concrete instance with an external controller that answers `-1`. -/
def rl_answer_ops : Ops (List Int) := { mini_ops with c2_rl_get_decision := fun _ _ => -1 }

lemma unsigned_to_int_of_lt (u : Nat) (h : u < 2 ^ 31) : unsigned_to_int u = (u : Int) := by
  have h1 : u % 2 ^ 32 = u := Nat.mod_eq_of_lt (by omega)
  unfold unsigned_to_int
  rw [h1, if_pos h]

lemma int_to_unsigned_natCast (u : Nat) (h : u < 2 ^ 32) : int_to_unsigned (u : Int) = u := by
  unfold int_to_unsigned
  have : ((u : Int) % 2 ^ 32) = (u : Int) := Int.emod_eq_of_lt (by omega) (by exact_mod_cast h)
  rw [this]; simp

/-! ## The duplicate-removal loop -/

lemma int_vector_get_last (w : List Int) (a : Int) :
    int_vector_get (w ++ [a]) ((w ++ [a]).length - 1) = a := by
  simp [int_vector_get]

lemma int_vector_get_last_but_one (w : List Int) (b a : Int) :
    int_vector_get (w ++ [b, a]) ((w ++ [b, a]).length - 2) = b := by
  have h : (w ++ [b, a]).length - 2 = w.length := by simp
  rw [h, int_vector_get, List.getD_eq_getElem?_getD, List.getElem?_append_right (le_refl _)]
  simp

/-- What the loop leaves: nothing of an empty vector, one entry of a constant
vector, and otherwise a prefix whose last two entries differ, the removed
entries all being copies of the last one. -/
lemma remove_trailing_duplicates_shape (fuel : Nat) :
    ∀ v : List Int, v.length ≤ fuel →
      (remove_trailing_duplicates fuel v = [] ∧ v = []) ∨
      (∃ m k, remove_trailing_duplicates fuel v = [m] ∧ v = List.replicate (k + 1) m) ∨
      (∃ init b m k, remove_trailing_duplicates fuel v = init ++ [b, m] ∧ b ≠ m ∧
        v = init ++ b :: List.replicate (k + 1) m) := by
  induction fuel with
  | zero =>
    intro v hv
    have : v = [] := List.length_eq_zero.mp (Nat.le_zero.mp hv)
    subst this
    left; simp [remove_trailing_duplicates]
  | succ fuel ih =>
    intro v hv
    rcases List.eq_nil_or_concat v with rfl | ⟨w, a, rfl⟩
    · left; simp [remove_trailing_duplicates]
    rcases List.eq_nil_or_concat w with rfl | ⟨u, b, rfl⟩ <;>
      simp only [List.concat_eq_append] at hv ⊢
    · right; left
      exact ⟨a, 0, by simp [remove_trailing_duplicates], by simp⟩
    have hlen : (u ++ [b] ++ [a]).length ≥ 2 := by simp
    have hget1 : int_vector_get (u ++ [b] ++ [a]) ((u ++ [b] ++ [a]).length - 1) = a :=
      int_vector_get_last _ _
    have hget2 : int_vector_get (u ++ [b] ++ [a]) ((u ++ [b] ++ [a]).length - 2) = b := by
      have := int_vector_get_last_but_one u b a
      simpa using this
    by_cases hab : a = b
    · subst hab
      have hstep : remove_trailing_duplicates (fuel + 1) (u ++ [a] ++ [a])
          = remove_trailing_duplicates fuel (u ++ [a]) := by
        rw [remove_trailing_duplicates, if_pos ⟨hlen, by rw [hget1, hget2]⟩]
        simp
      rw [hstep]
      have hlen2 : (u ++ [a]).length ≤ fuel := by
        simp at hv ⊢; omega
      rcases ih (u ++ [a]) hlen2 with ⟨_, h0⟩ | ⟨m, k, h1, h2⟩ | ⟨init, b, m, k, h1, h2, h3⟩
      · simp at h0
      · right; left
        have hm : a = m := by
          have : a ∈ List.replicate (k + 1) m := by rw [← h2]; simp
          exact (List.mem_replicate.mp this).2
        subst hm
        refine ⟨a, k + 1, h1, ?_⟩
        rw [h2, ← List.replicate_succ']
      · right; right
        have hm : a = m := by
          have hmem : a ∈ init ++ b :: List.replicate (k + 1) m := by rw [← h3]; simp
          have hlast : (init ++ b :: List.replicate (k + 1) m).getLast? = some m := by
            rw [List.replicate_succ', ← List.cons_append, ← List.append_assoc]
            exact List.getLast?_concat _
          rw [← h3, List.getLast?_concat] at hlast
          exact Option.some.inj hlast
        subst hm
        refine ⟨init, b, a, k + 1, h1, h2, ?_⟩
        rw [h3, List.append_assoc, List.cons_append, ← List.replicate_succ']
    · right; right
      refine ⟨u, b, a, 0, ?_, fun h => hab h.symm, by simp⟩
      rw [remove_trailing_duplicates, if_neg]
      · simp
      · rw [hget1, hget2]; exact fun h => hab h.2

/-- The loop stops because its condition fails, not because the fuel is used
up: with fuel `|v|` the result no longer ends in two equal entries. -/
lemma remove_trailing_duplicates_exit (v : List Int) :
    let d := remove_trailing_duplicates v.length v
    ¬ (d.length ≥ 2 ∧ int_vector_get d (d.length - 1) = int_vector_get d (d.length - 2)) := by
  intro d
  rcases remove_trailing_duplicates_shape v.length v le_rfl with
    ⟨h, _⟩ | ⟨m, k, h, _⟩ | ⟨init, b, m, k, h, hne, _⟩
  · show ¬ _
    simp only [d, h]; simp
  · show ¬ _
    simp only [d, h]; simp
  · show ¬ _
    simp only [d, h]
    intro hc
    have h1 := int_vector_get_last (init ++ [b]) m
    have h2 := int_vector_get_last_but_one init b m
    simp only [List.append_assoc, List.singleton_append] at h1
    rw [h1, h2] at hc
    exact hne hc.2.symm

/-! ## C1: the backtracking level -/

/-- The level that the loop of `c2_determine_backtracking_lvl` reads for a
literal is `conflict_level`. -/
lemma read_level_eq_conflict_level (ops : Ops H) (c2 : C2 H) (lit : Lit) :
    (if c2.state = C2_STATE.C2_SKOLEM_CONFLICT then
        if ops.skolem_get_dlvl_for_constant c2.skolem (lit_to_var lit)
            < ops.skolem_get_decision_lvl c2.skolem (lit_to_var lit)
        then ops.skolem_get_dlvl_for_constant c2.skolem (lit_to_var lit)
        else ops.skolem_get_decision_lvl c2.skolem (lit_to_var lit)
      else ops.partial_assignment_get_decision_lvl
        (ops.examples_get_conflicted_assignment c2.examples) (lit_to_var lit))
      = conflict_level ops c2 lit := by
  unfold conflict_level
  by_cases hs : c2.state = C2_STATE.C2_SKOLEM_CONFLICT
  · rw [if_pos hs, hs]
    simp only
    split_ifs with h
    · exact (min_eq_right (le_of_lt h)).symm
    · exact (min_eq_left (not_lt.mp h)).symm
  · rw [if_neg hs]
    split
    · rename_i h; exact absurd h hs
    · rfl

/-- Sorting the levels and dropping the trailing duplicates leaves the
second-largest distinct level in the last place but one. -/
lemma second_largest_of_sorted (L : List Nat) (hL : ∀ x ∈ L, x < 2 ^ 31) :
    IsSecondLargestDistinct L
      (if (remove_trailing_duplicates (int_vector_sort (L.map Nat.cast)).length
            (int_vector_sort (L.map Nat.cast))).length > 1
       then int_to_unsigned (int_vector_get
          (remove_trailing_duplicates (int_vector_sort (L.map Nat.cast)).length
            (int_vector_sort (L.map Nat.cast)))
          ((remove_trailing_duplicates (int_vector_sort (L.map Nat.cast)).length
            (int_vector_sort (L.map Nat.cast))).length - 2))
       else 0) := by
  set S := int_vector_sort (L.map Nat.cast) with hS
  have hsorted : S.Sorted (fun a b => a ≤ b) := List.sorted_insertionSort _ _
  have hperm : S.Perm (L.map Nat.cast) := List.perm_insertionSort _ _
  have hmem : ∀ x : Int, x ∈ S ↔ ∃ n ∈ L, (n : Int) = x := by
    intro x; rw [hperm.mem_iff]; simp
  rcases remove_trailing_duplicates_shape S.length S le_rfl with
    ⟨h, hS0⟩ | ⟨m, k, h, hS1⟩ | ⟨init, b, m, k, h, hne, hS2⟩
  · rw [h]
    right
    have hLnil : L = [] := by
      have := hperm.length_eq
      rw [hS0] at this
      simpa using this.symm
    subst hLnil
    simp
  · rw [h]
    right
    refine ⟨?_, by simp⟩
    intro x hx y hy
    have hx1 : (x : Int) ∈ S := (hmem _).2 ⟨x, hx, rfl⟩
    have hy1 : (y : Int) ∈ S := (hmem _).2 ⟨y, hy, rfl⟩
    rw [hS1] at hx1 hy1
    have e1 := (List.mem_replicate.mp hx1).2
    have e2 := (List.mem_replicate.mp hy1).2
    exact_mod_cast e1.trans e2.symm
  · rw [h]
    have hlen : (init ++ [b, m]).length > 1 := by simp
    rw [if_pos hlen, int_vector_get_last_but_one]
    have hbS : b ∈ S := by rw [hS2]; simp
    have hmS : m ∈ S := by rw [hS2]; simp
    obtain ⟨n, hnL, rfl⟩ := (hmem b).1 hbS
    obtain ⟨M, hML, rfl⟩ := (hmem m).1 hmS
    rw [int_to_unsigned_natCast n (by have := hL n hnL; omega)]
    rw [hS2] at hsorted
    have hpw := List.pairwise_append.mp hsorted
    have hinit : ∀ x ∈ init, x ≤ (n : Int) := fun x hx => hpw.2.2 x hx _ (by simp)
    have hbm : (n : Int) ≤ M := List.rel_of_pairwise_cons hpw.2.1 (by simp)
    have hnM : n < M := by
      have : (n : Int) < M := lt_of_le_of_ne hbm hne
      exact_mod_cast this
    left
    refine ⟨M, hML, ?_, hnL, hnM, ?_⟩
    · intro x hx
      have hx1 : (x : Int) ∈ S := (hmem _).2 ⟨x, hx, rfl⟩
      rw [hS2] at hx1
      rcases List.mem_append.mp hx1 with h1 | h1
      · have := hinit _ h1; omega
      · rcases List.mem_cons.mp h1 with h2 | h2
        · omega
        · have := (List.mem_replicate.mp h2).2; omega
    · intro x hx hxM
      have hx1 : (x : Int) ∈ S := (hmem _).2 ⟨x, hx, rfl⟩
      rw [hS2] at hx1
      rcases List.mem_append.mp hx1 with h1 | h1
      · have := hinit _ h1; omega
      · rcases List.mem_cons.mp h1 with h2 | h2
        · omega
        · have := (List.mem_replicate.mp h2).2; omega

/-- The second-largest distinct level is unique. -/
lemma IsSecondLargestDistinct.unique {levels : List Nat} {s t : Nat}
    (hs : IsSecondLargestDistinct levels s) (ht : IsSecondLargestDistinct levels t) : s = t := by
  rcases hs with ⟨m, hm, hmax, hsl, hsm, hs2⟩ | ⟨hall, rfl⟩ <;>
    rcases ht with ⟨m', hm', hmax', htl, htm, ht2⟩ | ⟨hall', rfl⟩
  · have hmm : m = m' := le_antisymm (hmax' m hm) (hmax m' hm')
    subst hmm
    exact le_antisymm (ht2 s hsl hsm) (hs2 t htl htm)
  · exact absurd (hall' s hsl m hm) (ne_of_lt hsm)
  · exact absurd (hall t htl m' hm') (ne_of_lt htm)
  · rfl

/-- C1, amended: when every level read for a literal of the learnt clause is
below `2 ^ 31`, `c2_determine_backtracking_lvl` returns
`max restart_base_decision_lvl s`, where `s` is the second-largest distinct
level of the clause (`0` when fewer than two distinct levels occur).  The empty
and the one-literal clause are included; the level of a literal is
`conflict_level`. -/
theorem c2_determine_backtracking_lvl_spec (ops : Ops H) (c2 : C2 H) (conflict : Clause)
    (hrange : ∀ lit ∈ conflict.occs, conflict_level ops c2 lit < 2 ^ 31) :
    ∃ s, IsSecondLargestDistinct (conflict.occs.map (conflict_level ops c2)) s ∧
      c2_determine_backtracking_lvl ops c2 conflict = max c2.restart_base_decision_lvl s := by
  have hread : conflict.occs.map (fun lit =>
      unsigned_to_int
        (if c2.state = C2_STATE.C2_SKOLEM_CONFLICT then
          if ops.skolem_get_dlvl_for_constant c2.skolem (lit_to_var lit)
              < ops.skolem_get_decision_lvl c2.skolem (lit_to_var lit)
          then ops.skolem_get_dlvl_for_constant c2.skolem (lit_to_var lit)
          else ops.skolem_get_decision_lvl c2.skolem (lit_to_var lit)
        else ops.partial_assignment_get_decision_lvl
          (ops.examples_get_conflicted_assignment c2.examples) (lit_to_var lit)))
      = (conflict.occs.map (conflict_level ops c2)).map Nat.cast := by
    rw [List.map_map]
    apply List.map_congr_left
    intro lit hlit
    rw [read_level_eq_conflict_level]
    exact unsigned_to_int_of_lt _ (hrange lit hlit)
  have hL : ∀ x ∈ conflict.occs.map (conflict_level ops c2), x < 2 ^ 31 := by
    intro x hx
    obtain ⟨lit, hlit, rfl⟩ := List.mem_map.mp hx
    exact hrange lit hlit
  refine ⟨_, second_largest_of_sorted _ hL, ?_⟩
  unfold c2_determine_backtracking_lvl
  simp only [hread]
  split_ifs with h1 h2 h2
  · exact (max_eq_left (le_of_lt h2)).symm
  · exact (max_eq_right (not_lt.mp h2)).symm
  · exact (max_eq_left (le_of_lt h2)).symm
  · exact (max_eq_right (not_lt.mp h2)).symm

/-- C1, witness: the amended statement applied to a clause over the variables
1 and 2 with levels 0 and 1. -/
theorem c2_determine_backtracking_lvl_spec_witness :
    (∀ lit ∈ clause_1_2.occs,
        conflict_level mini_ops
          { high_level_c2 with skolem := { mini_skolem with hidden := [0, 0, 1] } } lit < 2 ^ 31) ∧
    ∃ s, IsSecondLargestDistinct
        (clause_1_2.occs.map (conflict_level mini_ops
          { high_level_c2 with skolem := { mini_skolem with hidden := [0, 0, 1] } })) s ∧
      c2_determine_backtracking_lvl mini_ops
          { high_level_c2 with skolem := { mini_skolem with hidden := [0, 0, 1] } } clause_1_2
        = max (0 : Nat) s :=
  ⟨by decide, c2_determine_backtracking_lvl_spec mini_ops _ clause_1_2 (by decide)⟩

/-- C1, counterexample: in a Skolem conflict whose clause has the levels 1 and
`2 ^ 31`, the second-largest distinct level is 1, but the function returns
`2 ^ 31`: the level `2 ^ 31` becomes negative in the `int` vector and is sorted
first. -/
theorem c2_determine_backtracking_lvl_counterexample :
    clause_1_2.occs.map (conflict_level mini_ops high_level_c2) = [1, 2147483648] ∧
    IsSecondLargestDistinct [1, 2147483648] 1 ∧
    high_level_c2.restart_base_decision_lvl = 0 ∧
    c2_determine_backtracking_lvl mini_ops high_level_c2 clause_1_2 = 2147483648 ∧
    c2_determine_backtracking_lvl mini_ops high_level_c2 clause_1_2
      ≠ max high_level_c2.restart_base_decision_lvl 1 := by
  refine ⟨by decide, ?_, rfl, by decide, by decide⟩
  left
  exact ⟨2147483648, by simp, by simp, by simp, by norm_num, by simp⟩

/-! ## C2: decisions involved -/

/-- The level that the loop of `c2_are_decisions_involved` reads for a literal
is `involved_level`. -/
lemma read_level_eq_involved_level (ops : Ops H) (c2 : C2 H) (lit : Lit) :
    (if c2.state = C2_STATE.C2_SKOLEM_CONFLICT then
        ops.skolem_get_decision_lvl c2.skolem (lit_to_var lit)
      else ops.partial_assignment_get_decision_lvl
        (ops.examples_get_conflicted_assignment c2.examples) (lit_to_var lit))
      = involved_level ops c2 lit := by
  unfold involved_level
  by_cases hs : c2.state = C2_STATE.C2_SKOLEM_CONFLICT
  · rw [if_pos hs, hs]
  · rw [if_neg hs]
    split
    · rename_i h; exact absurd h hs
    · rfl

/-- The maximal level that `c2_are_decisions_involved` computes is
`conflicted_domain_max_lvl`. -/
lemma read_max_eq_conflicted_domain_max_lvl (ops : Ops H) (c2 : C2 H) :
    (if c2.state = C2_STATE.C2_SKOLEM_CONFLICT then c2.skolem.decision_lvl
      else (ops.examples_get_conflicted_assignment c2.examples).decision_lvl)
      = conflicted_domain_max_lvl ops c2 := by
  unfold conflicted_domain_max_lvl
  by_cases hs : c2.state = C2_STATE.C2_SKOLEM_CONFLICT
  · rw [if_pos hs, hs]
  · rw [if_neg hs]
    split
    · rename_i h; exact absurd h hs
    · rfl

/-- The loop with early exit exceeds the base level exactly when its start
value does or some remaining literal has a level above the base, provided no
remaining literal lies above the maximal level. -/
lemma decisions_involved_loop_gt (ops : Ops H) (c2 : C2 H) (M base : Nat) :
    ∀ (lits : List Lit) (largest : Nat),
      (∀ lit ∈ lits, involved_level ops c2 lit ≤ M) →
      (decisions_involved_loop ops c2 M lits largest > base ↔
        (largest > base ∨ ∃ lit ∈ lits, involved_level ops c2 lit > base)) := by
  intro lits
  induction lits with
  | nil => intro largest _; simp [decisions_involved_loop]
  | cons lit rest ih =>
    intro largest hM
    have hlit : involved_level ops c2 lit ≤ M := hM lit (List.mem_cons_self _ _)
    have hrest : ∀ l ∈ rest, involved_level ops c2 l ≤ M :=
      fun l hl => hM l (List.mem_cons_of_mem _ hl)
    rw [decisions_involved_loop]
    simp only [read_level_eq_involved_level]
    set new := (if involved_level ops c2 lit > largest then involved_level ops c2 lit
      else largest) with hnew
    have hnew_gt : new > base ↔ (largest > base ∨ involved_level ops c2 lit > base) := by
      rw [hnew]; split_ifs with h <;> constructor <;> intro h' <;> omega
    by_cases hbreak : new = M
    · rw [if_pos hbreak]
      constructor
      · intro h
        rcases hnew_gt.mp h with h1 | h1
        · exact Or.inl h1
        · exact Or.inr ⟨lit, List.mem_cons_self _ _, h1⟩
      · rintro (h | ⟨l, hl, hgt⟩)
        · exact hnew_gt.mpr (Or.inl h)
        · have := hM l hl
          omega
    · rw [if_neg hbreak, ih new hrest, hnew_gt]
      constructor
      · rintro ((h | h) | ⟨l, hl, hgt⟩)
        · exact Or.inl h
        · exact Or.inr ⟨lit, List.mem_cons_self _ _, h⟩
        · exact Or.inr ⟨l, List.mem_cons_of_mem _ hl, hgt⟩
      · rintro (h | ⟨l, hl, hgt⟩)
        · exact Or.inl (Or.inl h)
        · rcases List.mem_cons.mp hl with rfl | hl'
          · exact Or.inl (Or.inr hgt)
          · exact Or.inr ⟨l, hl', hgt⟩

/-- The scan of the whole clause exceeds the base level exactly when its start
value does or some literal has a level above the base. -/
lemma full_scan_gt (ops : Ops H) (c2 : C2 H) (base : Nat) :
    ∀ (lits : List Lit) (largest : Nat),
      (lits.foldl (fun largest lit => max largest (involved_level ops c2 lit)) largest > base ↔
        (largest > base ∨ ∃ lit ∈ lits, involved_level ops c2 lit > base)) := by
  intro lits
  induction lits with
  | nil => intro largest; simp
  | cons lit rest ih =>
    intro largest
    rw [List.foldl_cons, ih]
    constructor
    · rintro (h | ⟨l, hl, hgt⟩)
      · rcases lt_max_iff.mp h with h1 | h1
        · exact Or.inl h1
        · exact Or.inr ⟨lit, List.mem_cons_self _ _, h1⟩
      · exact Or.inr ⟨l, List.mem_cons_of_mem _ hl, hgt⟩
    · rintro (h | ⟨l, hl, hgt⟩)
      · exact Or.inl (lt_max_iff.mpr (Or.inl h))
      · rcases List.mem_cons.mp hl with rfl | hl'
        · exact Or.inl (lt_max_iff.mpr (Or.inr hgt))
        · exact Or.inr ⟨l, hl', hgt⟩

/-- C2: for a clause whose literals all have a decision level at most the
maximal decision level of the conflicted domain, `c2_are_decisions_involved`
returns true exactly when some literal of the clause has a decision level
strictly above `restart_base_decision_lvl`, and its answer is the one obtained
by scanning the whole clause without the early exit. -/
theorem c2_are_decisions_involved_spec (ops : Ops H) (c2 : C2 H) (conflict : Clause)
    (hmax : ∀ lit ∈ conflict.occs,
      involved_level ops c2 lit ≤ conflicted_domain_max_lvl ops c2) :
    (c2_are_decisions_involved ops c2 conflict = true ↔
      ∃ lit ∈ conflict.occs, involved_level ops c2 lit > c2.restart_base_decision_lvl) ∧
    c2_are_decisions_involved ops c2 conflict
      = decide (full_scan_largest ops c2 conflict > c2.restart_base_decision_lvl) := by
  have key : c2_are_decisions_involved ops c2 conflict = true ↔
      ∃ lit ∈ conflict.occs, involved_level ops c2 lit > c2.restart_base_decision_lvl := by
    unfold c2_are_decisions_involved
    simp only [read_max_eq_conflicted_domain_max_lvl, decide_eq_true_eq]
    rw [decisions_involved_loop_gt ops c2 _ _ conflict.occs _ hmax]
    simp
  have full : full_scan_largest ops c2 conflict > c2.restart_base_decision_lvl ↔
      ∃ lit ∈ conflict.occs, involved_level ops c2 lit > c2.restart_base_decision_lvl := by
    unfold full_scan_largest
    rw [full_scan_gt]
    simp
  refine ⟨key, ?_⟩
  rw [Bool.eq_iff_iff, key, decide_eq_true_eq, full]

/-- C2, witness: a Skolem conflict at decision level 1 with a clause over a
variable of level 0 and a variable of level 1. -/
theorem c2_are_decisions_involved_spec_witness :
    (∀ lit ∈ clause_1_2.occs,
      involved_level mini_ops conflict_c2 lit ≤ conflicted_domain_max_lvl mini_ops conflict_c2) ∧
    ((c2_are_decisions_involved mini_ops conflict_c2 clause_1_2 = true ↔
      ∃ lit ∈ clause_1_2.occs,
        involved_level mini_ops conflict_c2 lit > conflict_c2.restart_base_decision_lvl) ∧
    c2_are_decisions_involved mini_ops conflict_c2 clause_1_2
      = decide (full_scan_largest mini_ops conflict_c2 clause_1_2
          > conflict_c2.restart_base_decision_lvl)) :=
  ⟨by decide, c2_are_decisions_involved_spec mini_ops conflict_c2 clause_1_2 (by decide)⟩

/-! ## C3: the most active nondeterministic variable -/

/-- The state of the scan after the slots `l`, visited in ascending order: the
slot picked is a candidate of maximal activity, the first among those of
maximal activity, and nothing is picked only if `l` holds no candidate. -/
lemma pick_scan_invariant (ops : Ops H) (c2 : C2 H)
    (hact : ∀ i, (var_vector_get c2.qcnf.vars i).var_id ≠ 0 → 0 ≤ slot_activity c2 i)
    (l : List Nat) (hl : l.Pairwise (fun a b => a < b)) :
    let cand := fun i => ops.skolem_is_deterministic c2.skolem i = false
      ∧ (var_vector_get c2.qcnf.vars i).var_id ≠ 0
    let st := l.foldl (pick_step ops c2) (none, -1)
    (st.1 = none → st.2 = -1 ∧ ∀ i ∈ l, ¬ cand i) ∧
    (∀ j, st.1 = some j → j ∈ l ∧ cand j ∧ st.2 = slot_activity c2 j ∧
      (∀ i ∈ l, cand i → slot_activity c2 i ≤ slot_activity c2 j) ∧
      (∀ i ∈ l, cand i → slot_activity c2 i = slot_activity c2 j → j ≤ i)) := by
  intro cand
  induction l using List.reverseRecOn with
  | nil => simp
  | append_singleton l a ih =>
    have hpw := List.pairwise_append.mp hl
    have hlt : ∀ i ∈ l, i < a := fun i hi => hpw.2.2 i hi a (by simp)
    obtain ⟨ihn, ihs⟩ := ih hpw.1
    rw [List.foldl_append, List.foldl_cons, List.foldl_nil]
    set st := l.foldl (pick_step ops c2) (none, -1) with hst
    by_cases hc : cand a
    · -- slot `a` is a candidate
      have hstep : pick_step ops c2 st a
          = if st.2 < slot_activity c2 a then (some a, slot_activity c2 a) else st := by
        unfold pick_step
        have h1 : ¬ (ops.skolem_is_deterministic c2.skolem a = true) := by simp [hc.1]
        rw [if_pos h1]
        simp only [slot_activity]
        rw [if_pos hc.2]
      rw [hstep]
      by_cases hlt2 : st.2 < slot_activity c2 a
      · rw [if_pos hlt2]
        refine ⟨by simp, ?_⟩
        intro j hj
        simp only [Option.some.injEq] at hj
        subst hj
        refine ⟨by simp, hc, rfl, ?_, ?_⟩
        · intro i hi hci
          rcases List.mem_append.mp hi with h1 | h1
          · cases hs : st.1 with
            | none => exact absurd hci ((ihn hs).2 i h1)
            | some j =>
              obtain ⟨_, _, e, hmaxj, _⟩ := ihs j hs
              have := hmaxj i h1 hci
              rw [← e] at this
              exact le_of_lt (lt_of_le_of_lt this hlt2)
          · simp at h1; subst h1; exact le_rfl
        · intro i hi hci heq
          rcases List.mem_append.mp hi with h1 | h1
          · exfalso
            cases hs : st.1 with
            | none => exact (ihn hs).2 i h1 hci
            | some j =>
              obtain ⟨_, _, e, hmaxj, _⟩ := ihs j hs
              have := hmaxj i h1 hci
              rw [← e, heq] at this
              exact absurd hlt2 (not_lt.mpr this)
          · simp at h1; subst h1; exact le_rfl
      · rw [if_neg hlt2]
        constructor
        · intro hs
          exfalso
          have h1 := (ihn hs).1
          have h2 := hact a hc.2
          rw [h1] at hlt2
          exact hlt2 (by linarith)
        · intro j hj
          obtain ⟨hjl, hcj, e, hmaxj, hfirst⟩ := ihs j hj
          refine ⟨List.mem_append_left _ hjl, hcj, e, ?_, ?_⟩
          · intro i hi hci
            rcases List.mem_append.mp hi with h1 | h1
            · exact hmaxj i h1 hci
            · simp at h1; subst h1; rw [← e]; exact not_lt.mp hlt2
          · intro i hi hci heq
            rcases List.mem_append.mp hi with h1 | h1
            · exact hfirst i h1 hci heq
            · simp at h1; subst h1; exact le_of_lt (hlt j hjl)
    · -- slot `a` is skipped
      have hstep : pick_step ops c2 st a = st := by
        unfold pick_step
        by_cases hd : ops.skolem_is_deterministic c2.skolem a = false
        · have hv : (var_vector_get c2.qcnf.vars a).var_id = 0 := by
            by_contra h; exact hc ⟨hd, h⟩
          simp [hd, hv]
        · simp only [Bool.not_eq_false] at hd
          simp [hd]
      rw [hstep]
      constructor
      · intro hs
        refine ⟨(ihn hs).1, ?_⟩
        intro i hi
        rcases List.mem_append.mp hi with h1 | h1
        · exact (ihn hs).2 i h1
        · simp at h1; subst h1; exact hc
      · intro j hj
        obtain ⟨hjl, hcj, e, hmaxj, hfirst⟩ := ihs j hj
        refine ⟨List.mem_append_left _ hjl, hcj, e, ?_, ?_⟩
        · intro i hi hci
          rcases List.mem_append.mp hi with h1 | h1
          · exact hmaxj i h1 hci
          · simp at h1; subst h1; exact absurd hci hc
        · intro i hi hci heq
          rcases List.mem_append.mp hi with h1 | h1
          · exact hfirst i h1 hci heq
          · simp at h1; subst h1; exact absurd hci hc

/-- C3: with non-negative effective activities of the existing variables,
`c2_pick_most_active_notdeterministic_variable` returns `NULL` exactly when no
existing variable with id at least 1 is nondeterministic; otherwise it returns
a nondeterministic existing variable of maximal effective activity, and among
those of maximal activity the one scanned first (the lowest slot). -/
theorem c2_pick_most_active_notdeterministic_variable_spec (ops : Ops H) (c2 : C2 H)
    (hact : ∀ i, (var_vector_get c2.qcnf.vars i).var_id ≠ 0 → 0 ≤ slot_activity c2 i) :
    (c2_pick_most_active_notdeterministic_variable ops c2 = none ↔
      ∀ i, ¬ IsNondeterministicVar ops c2 i) ∧
    (∀ j, c2_pick_most_active_notdeterministic_variable ops c2 = some j →
      IsNondeterministicVar ops c2 j ∧
      (∀ i, IsNondeterministicVar ops c2 i → slot_activity c2 i ≤ slot_activity c2 j) ∧
      (∀ i, IsNondeterministicVar ops c2 i → slot_activity c2 i = slot_activity c2 j → j ≤ i)) := by
  have hinv := pick_scan_invariant ops c2 hact
    (List.range' 1 (var_vector_count c2.qcnf.vars - 1)) (List.pairwise_lt_range' 1 _)
  simp only at hinv
  obtain ⟨hn, hs⟩ := hinv
  have hmem : ∀ i, i ∈ List.range' 1 (var_vector_count c2.qcnf.vars - 1)
      ↔ 1 ≤ i ∧ i < var_vector_count c2.qcnf.vars := by
    intro i; rw [List.mem_range'_1]; omega
  unfold c2_pick_most_active_notdeterministic_variable
  refine ⟨⟨?_, ?_⟩, ?_⟩
  · intro h i hi
    exact (hn h).2 i ((hmem i).2 ⟨hi.1, hi.2.1⟩) ⟨hi.2.2.1, hi.2.2.2⟩
  · intro h
    by_contra hne
    obtain ⟨j, hj⟩ := Option.ne_none_iff_exists'.mp hne
    obtain ⟨hjl, hcj, _⟩ := hs j hj
    exact h j ⟨((hmem j).1 hjl).1, ((hmem j).1 hjl).2, hcj.1, hcj.2⟩
  · intro j hj
    obtain ⟨hjl, hcj, _, hmaxj, hfirst⟩ := hs j hj
    refine ⟨⟨((hmem j).1 hjl).1, ((hmem j).1 hjl).2, hcj.1, hcj.2⟩, ?_, ?_⟩
    · intro i hi
      exact hmaxj i ((hmem i).2 ⟨hi.1, hi.2.1⟩) ⟨hi.2.2.1, hi.2.2.2⟩
    · intro i hi
      exact hfirst i ((hmem i).2 ⟨hi.1, hi.2.1⟩) ⟨hi.2.2.1, hi.2.2.2⟩

/-- The effective activities of the engine `three_vars_c2` are non-negative. -/
lemma three_vars_c2_activities (i : Nat)
    (_h : (var_vector_get three_vars_c2.qcnf.vars i).var_id ≠ 0) :
    0 ≤ slot_activity three_vars_c2 i := by
  have hf : three_vars_c2.activity_factor = 1 := rfl
  have hv : three_vars_c2.qcnf.vars = [no_var, mini_var 1 2, mini_var 2 5, mini_var 3 5] := rfl
  unfold slot_activity c2_get_activity
  rw [hf, hv]
  rcases i with _ | _ | _ | _ | i <;>
    simp [var_vector_get, no_var, mini_var, c2_initial_var_data]

/-- C3, witness: in `three_vars_c2` the variables 2 and 3 are nondeterministic
and share the maximal activity. -/
theorem c2_pick_most_active_notdeterministic_variable_spec_witness :
    (∀ i, (var_vector_get three_vars_c2.qcnf.vars i).var_id ≠ 0 →
      0 ≤ slot_activity three_vars_c2 i) ∧
    ((c2_pick_most_active_notdeterministic_variable mini_ops three_vars_c2 = none ↔
      ∀ i, ¬ IsNondeterministicVar mini_ops three_vars_c2 i) ∧
    (∀ j, c2_pick_most_active_notdeterministic_variable mini_ops three_vars_c2 = some j →
      IsNondeterministicVar mini_ops three_vars_c2 j ∧
      (∀ i, IsNondeterministicVar mini_ops three_vars_c2 i →
        slot_activity three_vars_c2 i ≤ slot_activity three_vars_c2 j) ∧
      (∀ i, IsNondeterministicVar mini_ops three_vars_c2 i →
        slot_activity three_vars_c2 i = slot_activity three_vars_c2 j → j ≤ i))) :=
  ⟨three_vars_c2_activities,
    c2_pick_most_active_notdeterministic_variable_spec mini_ops three_vars_c2
      three_vars_c2_activities⟩

/-- In `three_vars_c2` the scan picks variable 2, the first of the two most
active ones. -/
lemma three_vars_c2_pick :
    c2_pick_most_active_notdeterministic_variable mini_ops three_vars_c2 = some 2 := by
  simp [c2_pick_most_active_notdeterministic_variable, three_vars_c2, mini_c2, c2_init,
    var_vector_count, List.range', pick_step, mini_ops, mini_skolem, var_vector_get, mini_var,
    c2_get_activity, mini_qcnf]
  norm_num

/-! ## C4: backtracking -/

/-- The loop of `c2_backtrack_to_decision_lvl` started `n` levels above the
target: it performs `n` iterations, each one popping both domains once. -/
lemma backtrack_loop_spec (ops : Ops H) (L : Nat)
    (hsk_lvl : ∀ s : Skolem H, 0 < s.decision_lvl →
      (ops.skolem_pop s).decision_lvl + 1 = s.decision_lvl)
    (hsk_cnt : ∀ s : Skolem H, 0 < s.stack.push_count →
      (ops.skolem_pop s).stack.push_count + 1 = s.stack.push_count)
    (hex_cnt : ∀ e : Examples H, 0 < e.stack.push_count →
      (ops.examples_pop e).stack.push_count + 1 = e.stack.push_count) :
    ∀ (n : Nat) (c2 : C2 H), c2.skolem.decision_lvl = L + n →
      c2.skolem.stack.push_count = c2.skolem.decision_lvl →
      c2.examples.stack.push_count = c2.skolem.decision_lvl →
      (∀ fuel, n ≤ fuel → backtrack_loop ops fuel c2 L
        = .ok { c2 with skolem := ops.skolem_pop^[n] c2.skolem,
                        examples := ops.examples_pop^[n] c2.examples }) ∧
      (∀ fuel, fuel < n → backtrack_loop ops fuel c2 L = .error Failure.out_of_fuel) ∧
      (ops.skolem_pop^[n] c2.skolem).decision_lvl = L ∧
      (ops.skolem_pop^[n] c2.skolem).stack.push_count = L ∧
      (ops.examples_pop^[n] c2.examples).stack.push_count = L := by
  intro n
  induction n with
  | zero =>
    intro c2 hlvl hs he
    refine ⟨?_, ?_, ?_, ?_, ?_⟩
    · intro fuel _
      cases fuel <;> · rw [backtrack_loop, if_neg (by omega)]; rfl
    · intro fuel hf; omega
    · simpa using hlvl
    · simp only [Function.iterate_zero, id_eq]; omega
    · simp only [Function.iterate_zero, id_eq]; omega
  | succ n ih =>
    intro c2 hlvl hs he
    have hpos : 0 < c2.skolem.decision_lvl := by omega
    have h1 := hsk_lvl c2.skolem hpos
    have h2 := hsk_cnt c2.skolem (by omega)
    have h3 := hex_cnt c2.examples (by omega)
    obtain ⟨iok, ierr, ilvl, icnt, iex⟩ :=
      ih { c2 with skolem := ops.skolem_pop c2.skolem, examples := ops.examples_pop c2.examples }
        (by show (ops.skolem_pop c2.skolem).decision_lvl = L + n; omega)
        (by show (ops.skolem_pop c2.skolem).stack.push_count
              = (ops.skolem_pop c2.skolem).decision_lvl; omega)
        (by show (ops.examples_pop c2.examples).stack.push_count
              = (ops.skolem_pop c2.skolem).decision_lvl; omega)
    refine ⟨?_, ?_, ?_, ?_, ?_⟩
    · intro fuel hf
      obtain ⟨f, rfl⟩ : ∃ f, fuel = f + 1 := ⟨fuel - 1, by omega⟩
      rw [backtrack_loop, if_pos (by omega)]
      simp only
      rw [iok f (by omega)]
      simp only [Function.iterate_succ_apply]
    · intro fuel hf
      cases fuel with
      | zero => rw [backtrack_loop, if_pos (by omega)]
      | succ f =>
        rw [backtrack_loop, if_pos (by omega)]
        simp only
        exact ierr f (by omega)
    · rw [Function.iterate_succ_apply]; exact ilvl
    · rw [Function.iterate_succ_apply]; exact icnt
    · rw [Function.iterate_succ_apply]; exact iex

/-- C4: let the Skolem push count, the Examples push count and the decision
level be equal, and let each pop lower its push count (and, for Skolem, the
decision level) by one.  For a level `L` not above the current decision level
`d`, `c2_backtrack_to_decision_lvl` returns an engine whose decision level and
whose two stack depths equal `L`; it is reached by exactly `d - L` Skolem pops
and `d - L` Examples pops, the loop ending after `d - L` iterations (any bound
of at least `d - L` iterations gives the result, a smaller one does not). -/
theorem c2_backtrack_to_decision_lvl_spec (ops : Ops H) (c2 : C2 H) (L : Nat)
    (hL : L ≤ c2.skolem.decision_lvl)
    (hs : c2.skolem.stack.push_count = c2.skolem.decision_lvl)
    (he : c2.examples.stack.push_count = c2.skolem.decision_lvl)
    (hsk_lvl : ∀ s : Skolem H, 0 < s.decision_lvl →
      (ops.skolem_pop s).decision_lvl + 1 = s.decision_lvl)
    (hsk_cnt : ∀ s : Skolem H, 0 < s.stack.push_count →
      (ops.skolem_pop s).stack.push_count + 1 = s.stack.push_count)
    (hex_cnt : ∀ e : Examples H, 0 < e.stack.push_count →
      (ops.examples_pop e).stack.push_count + 1 = e.stack.push_count) :
    ∃ c2' : C2 H,
      (∀ fuel, c2.skolem.decision_lvl - L ≤ fuel →
        c2_backtrack_to_decision_lvl ops fuel c2 L = .ok c2') ∧
      (∀ fuel, fuel < c2.skolem.decision_lvl - L →
        c2_backtrack_to_decision_lvl ops fuel c2 L = .error Failure.out_of_fuel) ∧
      c2'.skolem.decision_lvl = L ∧
      c2'.skolem.stack.push_count = L ∧
      c2'.examples.stack.push_count = L ∧
      c2'.skolem = ops.skolem_pop^[c2.skolem.decision_lvl - L] c2.skolem ∧
      c2'.examples = ops.examples_pop^[c2.skolem.decision_lvl - L] c2.examples := by
  by_cases heq : L = c2.skolem.decision_lvl
  · refine ⟨c2, ?_, ?_, ?_, ?_, ?_, ?_, ?_⟩
    · intro fuel _
      rw [c2_backtrack_to_decision_lvl, if_pos heq]
    · intro fuel hf; omega
    · exact heq.symm
    · omega
    · omega
    · rw [heq]; simp
    · rw [heq]; simp
  · obtain ⟨iok, ierr, ilvl, icnt, iex⟩ :=
      backtrack_loop_spec ops L hsk_lvl hsk_cnt hex_cnt (c2.skolem.decision_lvl - L)
        { c2 with state := C2_STATE.C2_READY }
        (by show c2.skolem.decision_lvl = L + (c2.skolem.decision_lvl - L); omega) hs he
    refine ⟨{ c2 with
        state := C2_STATE.C2_READY
        skolem := ops.skolem_pop^[c2.skolem.decision_lvl - L] c2.skolem
        examples := ops.examples_pop^[c2.skolem.decision_lvl - L] c2.examples },
      ?_, ?_, ilvl, icnt, iex, rfl, rfl⟩
    · intro fuel hf
      rw [c2_backtrack_to_decision_lvl, if_neg heq]
      exact iok fuel hf
    · intro fuel hf
      rw [c2_backtrack_to_decision_lvl, if_neg heq]
      exact ierr fuel hf

/-- C4, witness: backtracking the engine `conflict_c2` from level 1 to level 0
with the pops of the concrete instance. -/
theorem c2_backtrack_to_decision_lvl_spec_witness :
    (0 ≤ conflict_c2.skolem.decision_lvl) ∧
    (conflict_c2.skolem.stack.push_count = conflict_c2.skolem.decision_lvl) ∧
    (conflict_c2.examples.stack.push_count = conflict_c2.skolem.decision_lvl) ∧
    (∀ s : Skolem (List Int), 0 < s.decision_lvl →
      (mini_ops.skolem_pop s).decision_lvl + 1 = s.decision_lvl) ∧
    (∀ s : Skolem (List Int), 0 < s.stack.push_count →
      (mini_ops.skolem_pop s).stack.push_count + 1 = s.stack.push_count) ∧
    (∀ e : Examples (List Int), 0 < e.stack.push_count →
      (mini_ops.examples_pop e).stack.push_count + 1 = e.stack.push_count) ∧
    ∃ c2' : C2 (List Int),
      (∀ fuel, conflict_c2.skolem.decision_lvl - 0 ≤ fuel →
        c2_backtrack_to_decision_lvl mini_ops fuel conflict_c2 0 = .ok c2') ∧
      (∀ fuel, fuel < conflict_c2.skolem.decision_lvl - 0 →
        c2_backtrack_to_decision_lvl mini_ops fuel conflict_c2 0 = .error Failure.out_of_fuel) ∧
      c2'.skolem.decision_lvl = 0 ∧
      c2'.skolem.stack.push_count = 0 ∧
      c2'.examples.stack.push_count = 0 ∧
      c2'.skolem = mini_ops.skolem_pop^[conflict_c2.skolem.decision_lvl - 0] conflict_c2.skolem ∧
      c2'.examples
        = mini_ops.examples_pop^[conflict_c2.skolem.decision_lvl - 0] conflict_c2.examples :=
  have h1 : ∀ s : Skolem (List Int), 0 < s.decision_lvl →
      (mini_ops.skolem_pop s).decision_lvl + 1 = s.decision_lvl :=
    fun s h => by show s.decision_lvl - 1 + 1 = s.decision_lvl; omega
  have h2 : ∀ s : Skolem (List Int), 0 < s.stack.push_count →
      (mini_ops.skolem_pop s).stack.push_count + 1 = s.stack.push_count :=
    fun s h => by show s.stack.push_count - 1 + 1 = s.stack.push_count; omega
  have h3 : ∀ e : Examples (List Int), 0 < e.stack.push_count →
      (mini_ops.examples_pop e).stack.push_count + 1 = e.stack.push_count :=
    fun e h => by show e.stack.push_count - 1 + 1 = e.stack.push_count; omega
  ⟨Nat.zero_le _, rfl, rfl, h1, h2, h3,
    c2_backtrack_to_decision_lvl_spec mini_ops conflict_c2 0 (Nat.zero_le _) rfl rfl h1 h2 h3⟩

/-! ## C5: stack depths and decision level at the head of the loop -/

/-- C5, the code at the failing input: the engine `decision_c2` is in state
`C2_READY` with both push counts and the decision level equal to 0.  One
iteration of the loop of `c2_run` takes a decision on variable 1, pushes both
domains, and finds the Examples domain conflicted; the loop goes on with an
engine in state `C2_READY` whose push counts are 1 while the Skolem decision
level is still 0. -/
theorem c2_run_iteration_decision_examples_conflicted :
    decision_c2.state = C2_STATE.C2_READY ∧
    decision_c2.skolem.stack.push_count = decision_c2.skolem.decision_lvl ∧
    decision_c2.examples.stack.push_count = decision_c2.skolem.decision_lvl ∧
    ∃ c2' : C2 (List Int),
      c2_run_iteration mini_ops 0 decision_c2 1 = .ok (RunStep.next c2' 1) ∧
      mini_ops.examples_is_conflicted c2'.examples = true ∧
      c2'.state = C2_STATE.C2_READY ∧
      c2'.skolem.stack.push_count = 1 ∧
      c2'.examples.stack.push_count = 1 ∧
      c2'.skolem.decision_lvl = 0 := by
  refine ⟨rfl, rfl, rfl, c2_run_take_decision mini_ops decision_c2 1 1, ?_,
    rfl, rfl, rfl, rfl, rfl⟩
  have hp : c2_propagate mini_ops decision_c2 = decision_c2 := rfl
  have hpick : c2_pick_most_active_notdeterministic_variable mini_ops decision_c2 = some 1 := by
    simp [c2_pick_most_active_notdeterministic_variable, decision_c2, mini_c2, c2_init,
      var_vector_count, List.range', pick_step, mini_ops, mini_skolem, var_vector_get, mini_var,
      c2_get_activity, mini_qcnf]
  have hcs : mini_ops.c2_casesplits_assume_single_lit decision_c2 = (decision_c2, false) := rfl
  have hcan : mini_ops.skolem_can_propagate decision_c2.skolem = false := rfl
  have hst : decision_c2.state = C2_STATE.C2_READY := rfl
  have hrl : decision_c2.options.reinforcement_learning = false := rfl
  unfold c2_run_iteration
  simp only [hp]
  rw [if_neg (by decide)]
  unfold c2_run_no_conflict
  simp [hcs, hcan, hst, hrl, hpick]

/-! ## C6: `current_conflict` and the engine state -/

/-- C6, counterexample: both directions of the equivalence fail.  (a) `c2_sat`
on an engine whose Skolem domain is conflicted in the initial propagation
returns `CADET_RESULT_UNSAT` with the engine in state `C2_UNSAT` and
`current_conflict` still non-null.  (b) When the case-split driver called in an
iteration of `c2_run` leaves the engine in state `C2_SKOLEM_CONFLICT`, the loop
goes on, so at the head of the next iteration the state is `C2_SKOLEM_CONFLICT`
and `current_conflict` is null. -/
theorem current_conflict_iff_counterexample :
    (∃ c2' : C2 (List Int),
      c2_sat mini_ops 0 constants_conflict_c2 = .ok (cadet_res.CADET_RESULT_UNSAT, c2') ∧
      c2'.current_conflict ≠ none ∧ c2'.state = C2_STATE.C2_UNSAT ∧
      ¬ (c2'.state = C2_STATE.C2_SKOLEM_CONFLICT ∨ c2'.state = C2_STATE.C2_EXAMPLES_CONFLICT)) ∧
    (mini_c2.state = C2_STATE.C2_READY ∧ mini_c2.current_conflict = none ∧
     ∃ c2' : C2 (List Int),
      c2_run_iteration casesplit_conflict_ops 0 mini_c2 1 = .ok (RunStep.next c2' 1) ∧
      c2'.state = C2_STATE.C2_SKOLEM_CONFLICT ∧ c2'.current_conflict = none) := by
  refine ⟨⟨{ constants_conflict_c2 with
      state := C2_STATE.C2_UNSAT, current_conflict := some [1] }, rfl, by simp, rfl, by simp⟩,
    rfl, rfl, (casesplit_conflict_ops.c2_casesplits_assume_single_lit mini_c2).1, rfl, rfl, rfl⟩

/-- A property kept by every step of a left fold is kept by the fold. -/
lemma foldl_keeps {α β : Type} (P : α → Prop) (f : α → β → α)
    (hf : ∀ a b, P a → P (f a b)) : ∀ (l : List β) (a : α), P a → P (l.foldl f a) := by
  intro l
  induction l with
  | nil => intro a h; exact h
  | cons b l ih => intro a h; exact ih _ (hf a b h)

lemma c2_set_activity_current_conflict (c2 : C2 H) (i : Nat) (a : ℚ) :
    (c2_set_activity c2 i a).current_conflict = c2.current_conflict := by
  unfold c2_set_activity; simp only; split_ifs <;> rfl

lemma c2_rescale_activity_values_current_conflict (c2 : C2 H) :
    (c2_rescale_activity_values c2).current_conflict = c2.current_conflict := by
  unfold c2_rescale_activity_values
  simp only
  exact foldl_keeps (fun c : C2 H => c.current_conflict = c2.current_conflict) _
    (by intro a b h; split_ifs <;> exact h) _ _ rfl

lemma c2_decay_activity_current_conflict (c2 : C2 H) :
    (c2_decay_activity c2).current_conflict = c2.current_conflict := by
  unfold c2_decay_activity
  simp only
  split_ifs
  · rfl
  · exact c2_rescale_activity_values_current_conflict c2

lemma c2_new_clause_current_conflict (ops : Ops H) (c2 : C2 H) (c : Clause) :
    (c2_new_clause ops c2 c).current_conflict = c2.current_conflict := by
  unfold c2_new_clause; simp only; split_ifs <;> rfl

lemma backtrack_loop_current_conflict (ops : Ops H) (L : Nat) :
    ∀ (fuel : Nat) (c2 c2' : C2 H), backtrack_loop ops fuel c2 L = .ok c2' →
      c2'.current_conflict = c2.current_conflict := by
  intro fuel
  induction fuel with
  | zero =>
    intro c2 c2' h
    rw [backtrack_loop] at h
    split_ifs at h
    cases h; rfl
  | succ fuel ih =>
    intro c2 c2' h
    rw [backtrack_loop] at h
    simp only at h
    split_ifs at h
    · have := ih _ _ h
      exact this
    · cases h; rfl

lemma c2_backtrack_to_decision_lvl_current_conflict (ops : Ops H) (fuel : Nat) (c2 c2' : C2 H)
    (L : Nat) (h : c2_backtrack_to_decision_lvl ops fuel c2 L = .ok c2') :
    c2'.current_conflict = c2.current_conflict := by
  unfold c2_backtrack_to_decision_lvl at h
  split_ifs at h
  · cases h; rfl
  · have := backtrack_loop_current_conflict ops L fuel _ _ h
    exact this

lemma c2_restart_heuristics_current_conflict (ops : Ops H) (hops : LeavesConflictAlone ops)
    (c2 : C2 H) (h : c2.current_conflict = none) :
    (c2_restart_heuristics ops c2).current_conflict = none := by
  obtain ⟨_, _, _, _, hbc, _, _, _⟩ := hops
  unfold c2_restart_heuristics
  simp only
  have h1 : (c2_rescale_activity_values
      { c2 with restarts_since_last_major := c2.restarts_since_last_major + 1,
                next_restart := float_to_unsigned
                  ((c2.next_restart : ℚ) * c2.magic.restart_factor) }).current_conflict = none := by
    rw [c2_rescale_activity_values_current_conflict]; exact h
  split_ifs
  · apply hbc
    exact foldl_keeps (fun c : C2 H => c.current_conflict = none) _
      (by
        intro a b ha
        split_ifs
        · show (c2_set_activity a b 0).current_conflict = none
          rw [c2_set_activity_current_conflict]; exact ha
        · exact ha) _ _ h1
  · exact foldl_keeps (fun c : C2 H => c.current_conflict = none) _
      (by
        intro a b ha
        split_ifs
        · show (c2_set_activity a b 0).current_conflict = none
          rw [c2_set_activity_current_conflict]; exact ha
        · exact ha) _ _ h1
  · exact hbc _ h1
  · exact h1

lemma cegar_rounds_current_conflict (ops : Ops H) (hops : LeavesConflictAlone ops) :
    ∀ (fuel : Nat) (c2 : C2 H) (i : Nat) (r : C2 H × Bool), c2.current_conflict = none →
      cegar_rounds ops fuel c2 i = .ok r → r.1.current_conflict = none := by
  obtain ⟨_, hcg, _⟩ := hops
  intro fuel
  induction fuel with
  | zero =>
    intro c2 i r hc h
    rw [cegar_rounds] at h
    split_ifs at h
    cases h; exact hc
  | succ fuel ih =>
    intro c2 i r hc h
    rw [cegar_rounds] at h
    simp only at h
    split_ifs at h
    · cases h; exact hcg c2 hc
    · cases h; exact hcg c2 hc
    · have := ih _ _ _ (by exact hcg c2 hc) h
      exact this
    · cases h; exact hcg c2 hc
    · cases h; exact hc

lemma c2_run_take_decision_current_conflict (ops : Ops H) (c2 : C2 H) (v : Nat) (phase : Int) :
    (c2_run_take_decision ops c2 v phase).current_conflict = c2.current_conflict := by
  unfold c2_run_take_decision
  simp only
  split_ifs <;> rfl

/-- On return from `c2_propagate` the relation holds if it held before: when
the function detects a conflict it sets a conflict state together with
`current_conflict`, and otherwise it changes neither. -/
lemma c2_propagate_invariant (ops : Ops H) (hops : LeavesConflictAlone ops) (c2 : C2 H)
    (hinv : ConflictInvariant c2) : ConflictInvariant (c2_propagate ops c2) := by
  obtain ⟨hA, _⟩ := hops
  unfold c2_propagate
  simp only
  split_ifs with h1 h2
  · intro _
    show c2_is_in_conflcit _ = true
    unfold c2_is_in_conflcit
    simp only [hA]
    simp
  · intro _
    show c2_is_in_conflcit _ = true
    unfold c2_is_in_conflcit
    simp only [hA]
    simp
  · exact hinv

lemma c2_run_register_learnt_clause_current_conflict (ops : Ops H) (c2 : C2 H) (c : Clause) :
    (c2_run_register_learnt_clause ops c2 c).1.current_conflict = none := by
  unfold c2_run_register_learnt_clause
  simp only
  split_ifs <;> rfl

lemma c2_run_update_examples_current_conflict (ops : Ops H) (c2 : C2 H) (b : Bool) :
    (c2_run_update_examples ops c2 b).1.current_conflict = c2.current_conflict := by
  unfold c2_run_update_examples
  simp only
  split_ifs
  · split
    · split_ifs <;> rfl
    · rfl
  · rfl

lemma c2_run_cegar_current_conflict (ops : Ops H) (hops : LeavesConflictAlone ops) (fuel : Nat)
    (c2 : C2 H) (b : Bool) (r : C2 H × Bool) (hc : c2.current_conflict = none)
    (h : c2_run_cegar ops fuel c2 b = .ok r) : r.1.current_conflict = none := by
  unfold c2_run_cegar at h
  split_ifs at h
  · exact cegar_rounds_current_conflict ops hops fuel c2 0 r hc h
  · cases h; exact hc

lemma c2_run_backtrack_current_conflict (ops : Ops H) (fuel : Nat) (c2 : C2 H) (c : Clause)
    (n : Nat) (step : RunStep H) (hc : c2.current_conflict = none)
    (h : c2_run_backtrack ops fuel c2 c n = .ok step) : step.engine.current_conflict = none := by
  unfold c2_run_backtrack at h
  simp only at h
  split at h
  · cases h
  · rename_i c2' hb
    have hb' := c2_backtrack_to_decision_lvl_current_conflict ops fuel c2 c2' _ hb
    have hfin : (c2_decay_activity (c2_new_clause ops
        { c2' with statistics := { c2'.statistics with
            lvls_backtracked := c2'.statistics.lvls_backtracked
              + unsigned_sub c2.skolem.decision_lvl c2'.skolem.decision_lvl } } c)).current_conflict
        = none := by
      rw [c2_decay_activity_current_conflict, c2_new_clause_current_conflict]
      show c2'.current_conflict = none
      rw [hb', hc]
    split_ifs at h <;> · cases h; exact hfin

/-- The conflict branch of an iteration of `c2_run` always ends with
`current_conflict` null. -/
lemma c2_run_conflict_current_conflict (ops : Ops H) (hops : LeavesConflictAlone ops)
    (fuel : Nat) (c2 : C2 H) (n : Nat) (step : RunStep H)
    (h : c2_run_conflict ops fuel c2 n = .ok step) : step.engine.current_conflict = none := by
  unfold c2_run_conflict at h
  simp only at h
  split at h
  · split_ifs at h
    cases h; rfl
  · rename_i learnt hl
    have hreg := c2_run_register_learnt_clause_current_conflict ops
      { c2 with qcnf := (ops.qcnf_close_clause
          ((c2.current_conflict.getD []).foldl (fun q lit => ops.qcnf_add_lit q (- lit))
            c2.qcnf)).1 } learnt
    split_ifs at h
    · cases h
      show (c2_run_update_examples ops _ _).1.current_conflict = none
      rw [c2_run_update_examples_current_conflict]; exact hreg
    · split at h
      · cases h
      · rename_i c2' hcg
        cases h
        exact c2_run_cegar_current_conflict ops hops fuel _ _ _
          (by rw [c2_run_update_examples_current_conflict]; exact hreg) hcg
      · rename_i c2' hcg
        have := c2_run_cegar_current_conflict ops hops fuel _ _ _
          (by rw [c2_run_update_examples_current_conflict]; exact hreg) hcg
        exact c2_run_backtrack_current_conflict ops fuel c2' _ _ step this h

/-- The branch without conflict of an iteration of `c2_run` leaves
`current_conflict` null. -/
lemma c2_run_no_conflict_current_conflict (ops : Ops H) (hops : LeavesConflictAlone ops)
    (c2 : C2 H) (n : Nat) (step : RunStep H) (hc : c2.current_conflict = none)
    (h : c2_run_no_conflict ops c2 n = .ok step) : step.engine.current_conflict = none := by
  obtain ⟨_, _, hcs, _⟩ := hops
  have hcs' := hcs c2 hc
  have htd : ∀ v phase, (c2_run_take_decision ops (ops.c2_casesplits_assume_single_lit c2).1
      v phase).current_conflict = none := by
    intro v phase
    rw [c2_run_take_decision_current_conflict]; exact hcs'
  unfold c2_run_no_conflict at h
  simp only at h
  split_ifs at h
  all_goals try split at h
  all_goals first
    | (cases h; first | exact hc | exact hcs' | exact htd _ _)
    | cases h

/-- Every iteration of the loop of `c2_run` ends with `current_conflict` null. -/
lemma c2_run_iteration_current_conflict (ops : Ops H) (hops : LeavesConflictAlone ops)
    (fuel : Nat) (c2 : C2 H) (n : Nat) (step : RunStep H) (hinv : ConflictInvariant c2)
    (h : c2_run_iteration ops fuel c2 n = .ok step) : step.engine.current_conflict = none := by
  unfold c2_run_iteration at h
  simp only at h
  have hp := c2_propagate_invariant ops hops c2 hinv
  split_ifs at h with hcf
  · exact c2_run_conflict_current_conflict ops hops fuel _ n step h
  · apply c2_run_no_conflict_current_conflict ops hops _ n step _ h
    by_contra hne
    exact hcf (hp hne)

lemma ConflictInvariant.of_null {c2 : C2 H} (h : c2.current_conflict = none) :
    ConflictInvariant c2 := fun hne => absurd h hne

lemma ConflictInvariant.null_of_not_in_conflict {c2 : C2 H} (hinv : ConflictInvariant c2)
    (h : c2_is_in_conflcit c2 = false) : c2.current_conflict = none := by
  by_contra hne
  have := hinv hne
  rw [h] at this
  exact Bool.noConfusion this

lemma c2_run_exit_eq (c2 c2' : C2 H) (h : c2_run_exit c2 = .ok c2') : c2' = c2 := by
  unfold c2_run_exit at h
  split at h
  · cases h
  · split_ifs at h
    cases h; rfl

/-- On return from `c2_run` the relation holds if it held on entry. -/
lemma c2_run_invariant (ops : Ops H) (hops : LeavesConflictAlone ops) :
    ∀ (fuel : Nat) (c2 : C2 H) (n : Nat) (c2' : C2 H), ConflictInvariant c2 →
      c2_run ops fuel c2 n = .ok c2' → ConflictInvariant c2' := by
  intro fuel
  induction fuel with
  | zero =>
    intro c2 n c2' hinv h
    rw [c2_run] at h
    split_ifs at h
    rw [c2_run_exit_eq _ _ h]; exact hinv
  | succ fuel ih =>
    intro c2 n c2' hinv h
    rw [c2_run] at h
    split_ifs at h
    · split at h
      · cases h
      · rename_i c hit
        cases h
        exact ConflictInvariant.of_null
          (c2_run_iteration_current_conflict ops hops fuel c2 n _ hinv hit)
      · rename_i c r hit
        exact ih c r c2' (ConflictInvariant.of_null
          (c2_run_iteration_current_conflict ops hops fuel c2 n _ hinv hit)) h
    · rw [c2_run_exit_eq _ _ h]; exact hinv

lemma assume_universals_constraints_frame (ops : Ops H) :
    ∀ (l : List Int) (c2 c2' : C2 H), assume_universals_constraints ops l c2 = .ok c2' →
      c2'.current_conflict = c2.current_conflict ∧ c2'.state = c2.state := by
  intro l
  induction l with
  | nil => intro c2 c2' h; rw [assume_universals_constraints] at h; cases h; exact ⟨rfl, rfl⟩
  | cons x rest ih =>
    intro c2 c2' h
    rw [assume_universals_constraints] at h
    simp only at h
    split_ifs at h
    have := ih _ _ h
    exact this

lemma c2_initial_propagation_invariant (ops : Ops H) (hops : LeavesConflictAlone ops)
    (c2 c2' : C2 H) (hinv : ConflictInvariant c2)
    (h : c2_initial_propagation ops c2 = .ok c2') : ConflictInvariant c2' := by
  unfold c2_initial_propagation at h
  simp only at h
  have hp := c2_propagate_invariant ops hops c2 hinv
  split_ifs at h with hcf
  · cases h; exact hp
  · split at h
    · cases h
    · rename_i c hc
      cases h
      apply c2_propagate_invariant ops hops
      obtain ⟨e1, e2⟩ := assume_universals_constraints_frame ops _ _ _ hc
      intro hne
      unfold c2_is_in_conflcit
      rw [e2]
      rw [e1] at hne
      exact hp hne

/-- After one round of the restart loop of `c2_sat` the relation holds if it
held before. -/
lemma c2_sat_round_invariant (ops : Ops H) (hops : LeavesConflictAlone ops) (fuel : Nat)
    (c2 c2' : C2 H) (hinv : ConflictInvariant c2) (h : c2_sat_round ops fuel c2 = .ok c2') :
    ConflictInvariant c2' := by
  obtain ⟨_, _, _, hclose, _, hsimp, _, _⟩ := id hops
  unfold c2_sat_round at h
  split at h
  · cases h
  rename_i c1 hrun
  have h1 : ConflictInvariant c1 := c2_run_invariant ops hops fuel c2 _ c1 hinv hrun
  simp only at h
  have h2 : ConflictInvariant
      (if c1.state = C2_STATE.C2_CLOSE_CASE then ops.c2_close_case c1 else c1) := by
    split_ifs with hs
    · apply ConflictInvariant.of_null
      apply hclose
      apply h1.null_of_not_in_conflict
      simp [c2_is_in_conflcit, hs]
    · exact h1
  set c1' := (if c1.state = C2_STATE.C2_CLOSE_CASE then ops.c2_close_case c1 else c1) with hc1'
  have key : ∀ c3 : C2 H,
      (if c1'.state = C2_STATE.C2_READY then
        match c2_backtrack_to_decision_lvl ops fuel c1' c1'.restart_base_decision_lvl with
        | .error e => .error e
        | .ok c2 =>
          .ok (if (c2_restart_heuristics ops { c2 with restarts := c2.restarts + 1 }
                ).options.minimize_conflicts
            then ops.c2_simplify (c2_restart_heuristics ops { c2 with restarts := c2.restarts + 1 })
            else c2_restart_heuristics ops { c2 with restarts := c2.restarts + 1 })
      else .ok c1') = Except.ok c3 → ConflictInvariant c3 := by
    intro c3 h3
    split_ifs at h3 with hs
    · have hn : c1'.current_conflict = none := by
        apply h2.null_of_not_in_conflict
        simp [c2_is_in_conflcit, hs]
      split at h3
      · cases h3
      · rename_i cb hb
        have hbn : cb.current_conflict = none := by
          rw [c2_backtrack_to_decision_lvl_current_conflict ops fuel c1' cb _ hb]; exact hn
        have hrn := c2_restart_heuristics_current_conflict ops hops
          { cb with restarts := cb.restarts + 1 } hbn
        cases h3
        apply ConflictInvariant.of_null
        split_ifs
        · exact hsimp _ hrn
        · exact hrn
    · cases h3; exact h2
  split at h
  · cases h
  · rename_i c3 h3
    have hc3 := key c3 h3
    split_ifs at h
    · cases h; exact hc3
    · cases h; exact hc3

/-- On leaving the restart loop of `c2_sat` the relation holds if it held on
entry. -/
lemma c2_sat_loop_invariant (ops : Ops H) (hops : LeavesConflictAlone ops) :
    ∀ (fuel : Nat) (c2 c2' : C2 H), ConflictInvariant c2 →
      c2_sat_loop ops fuel c2 = .ok c2' → ConflictInvariant c2' := by
  intro fuel
  induction fuel with
  | zero =>
    intro c2 c2' hinv h
    rw [c2_sat_loop] at h
    split_ifs at h
    cases h; exact hinv
  | succ fuel ih =>
    intro c2 c2' hinv h
    rw [c2_sat_loop] at h
    split_ifs at h
    · split at h
      · cases h
      · rename_i c hr
        exact ih c c2' (c2_sat_round_invariant ops hops fuel c2 c hinv hr) h
    · cases h; exact hinv

lemma c2_sat_return_result_eq (c2 : C2 H) (res : cadet_res) (c2' : C2 H)
    (h : c2_sat_return_result c2 = .ok (res, c2')) : c2' = c2 := by
  unfold c2_sat_return_result at h
  split at h
  · cases h
  · cases h; rfl

lemma c2_sat_search_invariant (ops : Ops H) (hops : LeavesConflictAlone ops) (fuel : Nat)
    (c2 : C2 H) (res : cadet_res) (c2' : C2 H) (hn : c2.current_conflict = none)
    (h : c2_sat_search ops fuel c2 = .ok (res, c2')) : ConflictInvariant c2' := by
  obtain ⟨_, _, _, _, _, _, hpart, hsolve⟩ := id hops
  have hmini : (if c2.options.miniscoping then
      ops.c2_analysis_determine_number_of_partitions c2 else c2).current_conflict = none := by
    split_ifs
    · exact hpart _ hn
    · exact hn
  unfold c2_sat_search at h
  generalize (if c2.options.miniscoping then
      ops.c2_analysis_determine_number_of_partitions c2 else c2) = c0 at h hmini
  simp only at h
  split_ifs at h
  · rw [c2_sat_return_result_eq _ _ _ h]
    exact ConflictInvariant.of_null (hsolve _ _ hmini)
  · split at h
    · cases h
    · rename_i c3 hl
      rw [c2_sat_return_result_eq _ _ _ h]
      exact c2_sat_loop_invariant ops hops fuel _ c3
        (ConflictInvariant.of_null (by exact hmini)) hl

/-- On return from `c2_sat` the relation holds if it held on entry. -/
lemma c2_sat_invariant (ops : Ops H) (hops : LeavesConflictAlone ops) (fuel : Nat)
    (c2 : C2 H) (res : cadet_res) (c2' : C2 H) (hinv : ConflictInvariant c2)
    (h : c2_sat ops fuel c2 = .ok (res, c2')) : ConflictInvariant c2' := by
  unfold c2_sat at h
  split_ifs at h with h1 h2 h3
  · cases h; exact hinv
  · rw [c2_sat_return_result_eq _ _ _ h]; exact hinv
  · split at h
    · cases h
    · rename_i c hip
      have hc : ConflictInvariant c := c2_initial_propagation_invariant ops hops c2 c hinv hip
      split_ifs at h with h4
      · rw [c2_sat_return_result_eq _ _ _ h]
        intro _
        simp [c2_is_in_conflcit]
      · exact c2_sat_search_invariant ops hops fuel c res c2'
          (hc.null_of_not_in_conflict (by simpa using h4)) h

/-- C6, amended: assume that the conflict analysis does not change the engine
state and that no other function outside `cadet2.c` creates a
`current_conflict` vector.  Then the assertion of `c2_is_in_conflcit` is an
invariant: after `c2_init`, on return from `c2_propagate`, on return from
`c2_run` and on return from `c2_sat`, a non-null `current_conflict` implies
that the engine state is `C2_SKOLEM_CONFLICT`, `C2_EXAMPLES_CONFLICT` or
`C2_UNSAT`; and every iteration of the loop of `c2_run` ends with
`current_conflict` null, so that it is null at the head of every following
iteration and when `c2_run` returns from within the loop. -/
theorem current_conflict_invariant (ops : Ops H) (hops : LeavesConflictAlone ops) :
    (∀ options, ConflictInvariant (c2_init ops options)) ∧
    (∀ c2, ConflictInvariant c2 → ConflictInvariant (c2_propagate ops c2)) ∧
    (∀ fuel c2 n step, ConflictInvariant c2 → c2_run_iteration ops fuel c2 n = .ok step →
      step.engine.current_conflict = none) ∧
    (∀ fuel c2 n c2', ConflictInvariant c2 → c2_run ops fuel c2 n = .ok c2' →
      ConflictInvariant c2') ∧
    (∀ fuel c2 res c2', ConflictInvariant c2 → c2_sat ops fuel c2 = .ok (res, c2') →
      ConflictInvariant c2') :=
  ⟨fun _ => ConflictInvariant.of_null rfl,
   fun c2 h => c2_propagate_invariant ops hops c2 h,
   fun fuel c2 n step h1 h2 => c2_run_iteration_current_conflict ops hops fuel c2 n step h1 h2,
   fun fuel c2 n c2' h1 h2 => c2_run_invariant ops hops fuel c2 n c2' h1 h2,
   fun fuel c2 res c2' h1 h2 => c2_sat_invariant ops hops fuel c2 res c2' h1 h2⟩

/-- The functions of the concrete instance leave `current_conflict` alone. -/
lemma mini_ops_leaves_conflict_alone : LeavesConflictAlone mini_ops :=
  ⟨fun _ _ _ _ => rfl, fun _ h => h, fun _ h => h, fun _ h => h, fun _ h => h, fun _ h => h,
    fun _ h => h, fun _ _ h => h⟩

/-- C6, witness: the amended statement for the concrete instance. -/
theorem current_conflict_invariant_witness :
    LeavesConflictAlone mini_ops ∧
    ((∀ options, ConflictInvariant (c2_init mini_ops options)) ∧
    (∀ c2, ConflictInvariant c2 → ConflictInvariant (c2_propagate mini_ops c2)) ∧
    (∀ fuel c2 n step, ConflictInvariant c2 → c2_run_iteration mini_ops fuel c2 n = .ok step →
      step.engine.current_conflict = none) ∧
    (∀ fuel c2 n c2', ConflictInvariant c2 → c2_run mini_ops fuel c2 n = .ok c2' →
      ConflictInvariant c2') ∧
    (∀ fuel c2 res c2', ConflictInvariant c2 → c2_sat mini_ops fuel c2 = .ok (res, c2') →
      ConflictInvariant c2')) :=
  ⟨mini_ops_leaves_conflict_alone, current_conflict_invariant mini_ops mini_ops_leaves_conflict_alone⟩

/-! ## Activities: reading and writing the variable vector -/

lemma var_vector_get_set (vars : List Var) (i j : Nat) (v : Var) :
    var_vector_get (vars.set i v) j
      = if i = j ∧ i < vars.length then v else var_vector_get vars j := by
  unfold var_vector_get
  rw [List.getD_eq_getElem?_getD, List.getD_eq_getElem?_getD, List.getElem?_set]
  by_cases hij : i = j
  · subst hij
    by_cases hlt : i < vars.length
    · simp [hlt]
    · simp [hlt, List.getElem?_eq_none (not_lt.mp hlt)]
  · simp [hij]

lemma var_vector_get_of_length_le (vars : List Var) (i : Nat) (h : vars.length ≤ i) :
    var_vector_get vars i = no_var := by
  unfold var_vector_get
  rw [List.getD_eq_getElem?_getD, List.getElem?_eq_none h]
  rfl

lemma var_exists_lt_length (c2 : C2 H) (i : Nat) (h : var_exists c2 i) :
    i < c2.qcnf.vars.length := by
  by_contra hge
  exact h (by rw [var_vector_get_of_length_le _ _ (not_lt.mp hge)]; rfl)

lemma store_activity_var_id (c2 : C2 H) (i j : Nat) (a : ℚ) :
    (var_vector_get (store_activity c2 i a).qcnf.vars j).var_id
      = (var_vector_get c2.qcnf.vars j).var_id := by
  show (var_vector_get (c2.qcnf.vars.set i _) j).var_id = _
  rw [var_vector_get_set]
  split_ifs with h
  · rw [h.1]
  · rfl

lemma store_activity_var_exists (c2 : C2 H) (i j : Nat) (a : ℚ) :
    var_exists (store_activity c2 i a) j ↔ var_exists c2 j := by
  unfold var_exists; rw [store_activity_var_id]

lemma store_activity_stored (c2 : C2 H) (i j : Nat) (a : ℚ) :
    stored_activity (store_activity c2 i a) j
      = if i = j ∧ i < c2.qcnf.vars.length then a else stored_activity c2 j := by
  show (var_vector_get (c2.qcnf.vars.set i _) j).c2_vd.activity = _
  rw [var_vector_get_set]
  split_ifs with h
  · rfl
  · rfl

lemma store_activity_length (c2 : C2 H) (i : Nat) (a : ℚ) :
    (store_activity c2 i a).qcnf.vars.length = c2.qcnf.vars.length := by
  show (c2.qcnf.vars.set i _).length = _
  simp

lemma store_activity_factor (c2 : C2 H) (i : Nat) (a : ℚ) :
    (store_activity c2 i a).activity_factor = c2.activity_factor := rfl

lemma store_activity_decay_rate (c2 : C2 H) (i : Nat) (a : ℚ) :
    (store_activity c2 i a).magic.decay_rate = c2.magic.decay_rate := rfl

/-- The loop of `c2_rescale_activity_values` over the first `k` slots with the
factor `rf`: the stored activity of every existing variable among them is
multiplied by `rf`, and nothing else that concerns activities changes. -/
lemma rescale_fold_spec (rf : ℚ) (c2 : C2 H) (k : Nat) :
    let r := (List.range k).foldl
      (fun (c : C2 H) i =>
        if (var_vector_get c.qcnf.vars i).var_id ≠ 0 then c2_scale_activity c i rf else c) c2
    r.activity_factor = c2.activity_factor ∧ r.magic.decay_rate = c2.magic.decay_rate ∧
    r.qcnf.vars.length = c2.qcnf.vars.length ∧
    (∀ j, (var_vector_get r.qcnf.vars j).var_id = (var_vector_get c2.qcnf.vars j).var_id) ∧
    (∀ j, j < k → var_exists c2 j → stored_activity r j = stored_activity c2 j * rf) ∧
    (∀ j, ¬ (j < k ∧ var_exists c2 j) → stored_activity r j = stored_activity c2 j) := by
  induction k with
  | zero => simp
  | succ k ih =>
    simp only at ih ⊢
    rw [List.range_succ, List.foldl_append, List.foldl_cons, List.foldl_nil]
    set r := (List.range k).foldl
      (fun (c : C2 H) i =>
        if (var_vector_get c.qcnf.vars i).var_id ≠ 0 then c2_scale_activity c i rf else c) c2
      with hr
    obtain ⟨hf, hd, hlen, hid, hst, hns⟩ := ih
    by_cases hk : (var_vector_get r.qcnf.vars k).var_id ≠ 0
    · rw [if_pos hk]
      have hk0 : var_exists c2 k := by unfold var_exists; rw [← hid]; exact hk
      have hklt : k < r.qcnf.vars.length := by
        rw [hlen]; exact var_exists_lt_length c2 k hk0
      unfold c2_scale_activity
      simp only
      refine ⟨hf, hd, ?_, ?_, ?_, ?_⟩
      · rw [store_activity_length]; exact hlen
      · intro j; rw [store_activity_var_id]; exact hid j
      · intro j hj hj0
        rw [store_activity_stored]
        by_cases hjk : k = j
        · subst hjk
          rw [if_pos ⟨rfl, hklt⟩]
          show stored_activity r k * rf = _
          rw [hns k (by omega)]
        · rw [if_neg (fun h => hjk h.1)]
          exact hst j (by omega) hj0
      · intro j hj
        rw [store_activity_stored]
        have hjk : k ≠ j := by
          rintro rfl
          exact hj ⟨Nat.lt_succ_self _, hk0⟩
        rw [if_neg (fun h => hjk h.1)]
        exact hns j (fun h => hj ⟨by omega, h.2⟩)
    · rw [if_neg hk]
      have hk0 : ¬ var_exists c2 k := by unfold var_exists; rw [← hid]; exact hk
      refine ⟨hf, hd, hlen, hid, ?_, ?_⟩
      · intro j hj hj0
        have hjk : j ≠ k := by rintro rfl; exact hk0 hj0
        exact hst j (by omega) hj0
      · intro j hj
        exact hns j (fun h => hj ⟨by omega, h.2⟩)

/-- The effect of `c2_rescale_activity_values`: the factor becomes 1 and the
stored activity of every existing variable is divided by the old factor. -/
lemma c2_rescale_activity_values_spec (c2 : C2 H) :
    (c2_rescale_activity_values c2).activity_factor = 1 ∧
    (c2_rescale_activity_values c2).magic.decay_rate = c2.magic.decay_rate ∧
    (∀ j, var_exists (c2_rescale_activity_values c2) j ↔ var_exists c2 j) ∧
    (∀ j, var_exists c2 j →
      stored_activity (c2_rescale_activity_values c2) j
        = stored_activity c2 j * (1 / c2.activity_factor)) ∧
    (∀ j, ¬ var_exists c2 j →
      stored_activity (c2_rescale_activity_values c2) j = stored_activity c2 j) := by
  obtain ⟨hf, hd, _, hid, hst, hns⟩ := rescale_fold_spec (1 / c2.activity_factor)
    { c2 with activity_factor := 1 } (var_vector_count c2.qcnf.vars)
  simp only at hf hd hid hst hns
  refine ⟨hf, hd, ?_, ?_, ?_⟩
  · intro j
    unfold var_exists
    exact Iff.of_eq (congrArg (fun n => n ≠ 0) (hid j))
  · intro j hj
    exact hst j (var_exists_lt_length c2 j hj) hj
  · intro j hj
    exact hns j (fun h => hj h.2)

lemma c2_get_activity_eq (c2 : C2 H) (v : Nat) :
    c2_get_activity c2 v = stored_activity c2 v / c2.activity_factor := rfl

/-- The two branches of `c2_decay_activity`: below 1000 only the factor is
divided by the decay rate; otherwise the values are rescaled and the factor
becomes the inverse of the decay rate. -/
lemma c2_decay_activity_effect (c2 : C2 H) (hf : 1 ≤ c2.activity_factor)
    (hr0 : 0 < c2.magic.decay_rate) :
    (c2.activity_factor / c2.magic.decay_rate < 1000 →
      (c2_decay_activity c2).activity_factor = c2.activity_factor / c2.magic.decay_rate ∧
      (∀ j, var_exists (c2_decay_activity c2) j ↔ var_exists c2 j) ∧
      (∀ j, stored_activity (c2_decay_activity c2) j = stored_activity c2 j)) ∧
    (1000 ≤ c2.activity_factor / c2.magic.decay_rate →
      (c2_decay_activity c2).activity_factor = 1 / c2.magic.decay_rate ∧
      (∀ j, var_exists (c2_decay_activity c2) j ↔ var_exists c2 j) ∧
      (∀ j, var_exists c2 j →
        stored_activity (c2_decay_activity c2) j = stored_activity c2 j / c2.activity_factor) ∧
      (∀ j, ¬ var_exists c2 j →
        stored_activity (c2_decay_activity c2) j = stored_activity c2 j)) := by
  have hr : c2.magic.decay_rate ≠ 0 := ne_of_gt hr0
  have hf0 : c2.activity_factor ≠ 0 := by
    intro h; rw [h] at hf; norm_num at hf
  constructor
  · intro hlt
    unfold c2_decay_activity
    simp only
    rw [if_pos ⟨hr, hf0, hlt⟩]
    exact ⟨rfl, fun _ => Iff.rfl, fun _ => rfl⟩
  · intro hge
    obtain ⟨h1, h2, h3, h4, h5⟩ := c2_rescale_activity_values_spec c2
    unfold c2_decay_activity
    simp only
    rw [if_neg (fun h => absurd h.2.2 (not_lt.mpr hge))]
    refine ⟨?_, h3, ?_, h5⟩
    · show (c2_rescale_activity_values c2).activity_factor
        * (1 / (c2_rescale_activity_values c2).magic.decay_rate) = _
      rw [h1, h2, one_mul]
    · intro j hj
      show stored_activity (c2_rescale_activity_values c2) j = _
      rw [h4 j hj, mul_one_div]

/-- The effective activity after `c2_decay_activity` is the decay rate times
the effective activity before, in both branches. -/
lemma c2_get_activity_decay (c2 : C2 H) (hf : 1 ≤ c2.activity_factor)
    (hr0 : 0 < c2.magic.decay_rate) (v : Nat) (hv : var_exists c2 v) :
    c2_get_activity (c2_decay_activity c2) v = c2.magic.decay_rate * c2_get_activity c2 v := by
  have hr : c2.magic.decay_rate ≠ 0 := ne_of_gt hr0
  have hf0 : c2.activity_factor ≠ 0 := by
    intro h; rw [h] at hf; norm_num at hf
  obtain ⟨hlazy, hresc⟩ := c2_decay_activity_effect c2 hf hr0
  rw [c2_get_activity_eq, c2_get_activity_eq]
  by_cases hlt : c2.activity_factor / c2.magic.decay_rate < 1000
  · obtain ⟨e1, _, e3⟩ := hlazy hlt
    rw [e1, e3 v]
    field_simp
    ring
  · obtain ⟨e1, _, e3, _⟩ := hresc (not_lt.mp hlt)
    rw [e1, e3 v hv]
    field_simp
    ring

/-- The effective activity of an existing variable is not changed by
`c2_rescale_activity_values`. -/
lemma c2_get_activity_rescale (c2 : C2 H) (v : Nat) (hv : var_exists c2 v) :
    c2_get_activity (c2_rescale_activity_values c2) v = c2_get_activity c2 v := by
  obtain ⟨h1, _, _, h4, _⟩ := c2_rescale_activity_values_spec c2
  rw [c2_get_activity_eq, c2_get_activity_eq, h1, h4 v hv]
  simp [div_eq_mul_inv]

/-! ## C7: non-negative stored activities and a factor of at least 1 -/

/-- C7, amended: the predicate `ActivityInvariant` holds after `c2_init` (the
fresh QCNF giving every variable the data of `c2_initial_var_data`) and is
preserved by `c2_set_activity` for every value `val ≥ 0`, by
`c2_increase_activity` for `val ≥ 0`, by `c2_scale_activity` for
`0 < factor < 1000`, by `c2_rescale_activity_values`, and by
`c2_decay_activity` for a decay rate in (0,1). -/
theorem activity_invariant_preserved (ops : Ops H) :
    (∀ options, (∀ v ∈ ops.qcnf_init.vars, v.c2_vd = c2_initial_var_data) →
      ActivityInvariant (c2_init ops options)) ∧
    (∀ (c2 : C2 H) var_id val, ActivityInvariant c2 → 0 ≤ val →
      ActivityInvariant (c2_set_activity c2 var_id val)) ∧
    (∀ (c2 : C2 H) var_id val, ActivityInvariant c2 → 0 ≤ val →
      ActivityInvariant (c2_increase_activity c2 var_id val)) ∧
    (∀ (c2 : C2 H) var_id factor, ActivityInvariant c2 → 0 < factor → factor < 1000 →
      ActivityInvariant (c2_scale_activity c2 var_id factor)) ∧
    (∀ (c2 : C2 H), ActivityInvariant c2 → ActivityInvariant (c2_rescale_activity_values c2)) ∧
    (∀ (c2 : C2 H), ActivityInvariant c2 → 0 < c2.magic.decay_rate → c2.magic.decay_rate < 1 →
      ActivityInvariant (c2_decay_activity c2)) := by
  refine ⟨?_, ?_, ?_, ?_, ?_, ?_⟩
  · intro options hinit
    refine ⟨?_, le_refl _⟩
    intro i _
    show 0 ≤ (var_vector_get ops.qcnf_init.vars i).c2_vd.activity
    by_cases hi : i < ops.qcnf_init.vars.length
    · have hmem : var_vector_get ops.qcnf_init.vars i ∈ ops.qcnf_init.vars := by
        unfold var_vector_get
        rw [List.getD_eq_getElem _ _ hi]
        exact List.getElem_mem _
      rw [hinit _ hmem]
      exact le_refl _
    · rw [var_vector_get_of_length_le _ _ (not_lt.mp hi)]
      exact le_refl _
  · intro c2 var_id val ⟨hst, hf⟩ hval
    unfold c2_set_activity
    simp only
    split_ifs with hv
    · refine ⟨?_, hf⟩
      intro j hj
      rw [store_activity_stored]
      split_ifs
      · exact mul_nonneg hval (by linarith)
      · exact hst j ((store_activity_var_exists _ _ _ _).mp hj)
    · exact ⟨hst, hf⟩
  · intro c2 var_id val ⟨hst, hf⟩ hval
    unfold c2_increase_activity
    simp only
    refine ⟨?_, hf⟩
    intro j hj
    have hj0 := (store_activity_var_exists _ _ _ _).mp hj
    rw [store_activity_stored]
    split_ifs with h
    · have := hst j hj0
      rw [← h.1] at this
      exact add_nonneg this (mul_nonneg hval (by linarith))
    · exact hst j hj0
  · intro c2 var_id factor ⟨hst, hf⟩ h0 _
    unfold c2_scale_activity
    simp only
    refine ⟨?_, hf⟩
    intro j hj
    have hj0 := (store_activity_var_exists _ _ _ _).mp hj
    rw [store_activity_stored]
    split_ifs with h
    · have := hst j hj0
      rw [← h.1] at this
      exact mul_nonneg this (le_of_lt h0)
    · exact hst j hj0
  · intro c2 ⟨hst, hf⟩
    obtain ⟨h1, _, h3, h4, _⟩ := c2_rescale_activity_values_spec c2
    refine ⟨?_, by rw [h1]⟩
    intro j hj
    have hj0 := (h3 j).mp hj
    rw [h4 j hj0]
    exact mul_nonneg (hst j hj0) (by positivity)
  · intro c2 ⟨hst, hf⟩ hr0 hr1
    obtain ⟨hlazy, hresc⟩ := c2_decay_activity_effect c2 hf hr0
    by_cases hlt : c2.activity_factor / c2.magic.decay_rate < 1000
    · obtain ⟨e1, e2, e3⟩ := hlazy hlt
      refine ⟨?_, ?_⟩
      · intro j hj
        rw [e3 j]
        exact hst j ((e2 j).mp hj)
      · rw [e1, le_div_iff₀ hr0]
        nlinarith
    · obtain ⟨e1, e2, e3, _⟩ := hresc (not_lt.mp hlt)
      refine ⟨?_, ?_⟩
      · intro j hj
        have hj0 := (e2 j).mp hj
        rw [e3 j hj0]
        exact div_nonneg (hst j hj0) (by linarith)
      · rw [e1, le_div_iff₀ hr0]
        linarith

lemma three_vars_c2_vars :
    three_vars_c2.qcnf.vars = [no_var, mini_var 1 2, mini_var 2 5, mini_var 3 5] := rfl

lemma three_vars_c2_invariant : ActivityInvariant three_vars_c2 := by
  refine ⟨?_, le_of_eq rfl⟩
  intro i _
  unfold stored_activity
  rw [three_vars_c2_vars]
  rcases i with _ | _ | _ | _ | i <;>
    simp [var_vector_get, no_var, mini_var, c2_initial_var_data]

lemma three_vars_c2_exists_1 : var_exists three_vars_c2 1 := by
  unfold var_exists
  rw [three_vars_c2_vars]
  simp [var_vector_get, mini_var]

lemma three_vars_c2_exists_2 : var_exists three_vars_c2 2 := by
  unfold var_exists
  rw [three_vars_c2_vars]
  simp [var_vector_get, mini_var]

/-- C7, counterexample: the value `-1/2000` passes the assertion
`val > -0.001` of `c2_set_activity`; setting it for the existing variable 1 of
`three_vars_c2`, where the predicate holds, stores a negative activity, so the
predicate no longer holds. -/
theorem activity_invariant_set_counterexample :
    ActivityInvariant three_vars_c2 ∧ (-1 / 2000 : ℚ) > -1 / 1000 ∧ var_exists three_vars_c2 1 ∧
    stored_activity (c2_set_activity three_vars_c2 1 (-1 / 2000)) 1 = -1 / 2000 ∧
    ¬ ActivityInvariant (c2_set_activity three_vars_c2 1 (-1 / 2000)) := by
  have hset : c2_set_activity three_vars_c2 1 (-1 / 2000)
      = store_activity three_vars_c2 1 (-1 / 2000 * three_vars_c2.activity_factor) := by
    unfold c2_set_activity
    exact if_pos three_vars_c2_exists_1
  have hstored : stored_activity (c2_set_activity three_vars_c2 1 (-1 / 2000)) 1 = -1 / 2000 := by
    rw [hset, store_activity_stored, three_vars_c2_vars]
    have hf : three_vars_c2.activity_factor = 1 := rfl
    rw [hf]
    norm_num
  refine ⟨three_vars_c2_invariant, by norm_num, three_vars_c2_exists_1, hstored, ?_⟩
  intro hinv
  have h1 : var_exists (c2_set_activity three_vars_c2 1 (-1 / 2000)) 1 := by
    rw [hset, store_activity_var_exists]; exact three_vars_c2_exists_1
  have := hinv.1 1 h1
  rw [hstored] at this
  norm_num at this

/-! ## C8: the two branches of the decay -/

/-- C8, amended: for an activity factor `f ≥ 1` and a decay rate `r` in (0,1),
in exact arithmetic: if `f / r` is below 1000, `c2_decay_activity` sets the
factor to `f / r` and leaves every stored activity unchanged; if `f / r` is at
least 1000, it replaces the stored activity of every existing variable by
`stored / f` and sets the factor to `1 / r`. -/
theorem c2_decay_activity_spec (c2 : C2 H) (hf : 1 ≤ c2.activity_factor)
    (hr0 : 0 < c2.magic.decay_rate) (hr1 : c2.magic.decay_rate < 1) :
    (c2.activity_factor / c2.magic.decay_rate < 1000 →
      (c2_decay_activity c2).activity_factor = c2.activity_factor / c2.magic.decay_rate ∧
      (∀ j, stored_activity (c2_decay_activity c2) j = stored_activity c2 j)) ∧
    (1000 ≤ c2.activity_factor / c2.magic.decay_rate →
      (c2_decay_activity c2).activity_factor = 1 / c2.magic.decay_rate ∧
      (∀ j, var_exists c2 j →
        stored_activity (c2_decay_activity c2) j = stored_activity c2 j / c2.activity_factor)) := by
  have _ := hr1
  obtain ⟨hlazy, hresc⟩ := c2_decay_activity_effect c2 hf hr0
  exact ⟨fun h => ⟨(hlazy h).1, (hlazy h).2.2⟩, fun h => ⟨(hresc h).1, (hresc h).2.2.1⟩⟩

/-- C8, witness: the engine `three_vars_c2` has factor 1 and decay rate 0.99. -/
theorem c2_decay_activity_spec_witness :
    (1 ≤ three_vars_c2.activity_factor) ∧ (0 < three_vars_c2.magic.decay_rate) ∧
    (three_vars_c2.magic.decay_rate < 1) ∧
    ((three_vars_c2.activity_factor / three_vars_c2.magic.decay_rate < 1000 →
      (c2_decay_activity three_vars_c2).activity_factor
        = three_vars_c2.activity_factor / three_vars_c2.magic.decay_rate ∧
      (∀ j, stored_activity (c2_decay_activity three_vars_c2) j
        = stored_activity three_vars_c2 j)) ∧
    (1000 ≤ three_vars_c2.activity_factor / three_vars_c2.magic.decay_rate →
      (c2_decay_activity three_vars_c2).activity_factor = 1 / three_vars_c2.magic.decay_rate ∧
      (∀ j, var_exists three_vars_c2 j →
        stored_activity (c2_decay_activity three_vars_c2) j
          = stored_activity three_vars_c2 j / three_vars_c2.activity_factor))) :=
  have h1 : 1 ≤ three_vars_c2.activity_factor := le_of_eq rfl
  have h2 : 0 < three_vars_c2.magic.decay_rate := by
    show (0 : ℚ) < 99 / 100; norm_num
  have h3 : three_vars_c2.magic.decay_rate < 1 := by
    show (99 / 100 : ℚ) < 1; norm_num
  ⟨h1, h2, h3, c2_decay_activity_spec three_vars_c2 h1 h2 h3⟩

/-- C8, counterexample: with factor 990 and decay rate 0.99 the quotient is
exactly 1000, which does not exceed 1000; `c2_decay_activity` nevertheless
rescales: the factor becomes `100/99` instead of 1000 and the stored activity
of variable 1 changes from 2 to `2/990`. -/
theorem c2_decay_activity_boundary_counterexample :
    1 ≤ boundary_c2.activity_factor ∧ 0 < boundary_c2.magic.decay_rate ∧
    boundary_c2.magic.decay_rate < 1 ∧
    boundary_c2.activity_factor / boundary_c2.magic.decay_rate = 1000 ∧
    (c2_decay_activity boundary_c2).activity_factor = 100 / 99 ∧
    (c2_decay_activity boundary_c2).activity_factor
      ≠ boundary_c2.activity_factor / boundary_c2.magic.decay_rate ∧
    stored_activity boundary_c2 1 = 2 ∧
    stored_activity (c2_decay_activity boundary_c2) 1 = 2 / 990 ∧
    stored_activity (c2_decay_activity boundary_c2) 1 ≠ stored_activity boundary_c2 1 := by
  have hf : boundary_c2.activity_factor = 990 := rfl
  have hr : boundary_c2.magic.decay_rate = 99 / 100 := rfl
  have hv : boundary_c2.qcnf.vars = [no_var, mini_var 1 2, mini_var 2 5, mini_var 3 5] := rfl
  have hq : boundary_c2.activity_factor / boundary_c2.magic.decay_rate = 1000 := by
    rw [hf, hr]; norm_num
  have hex : var_exists boundary_c2 1 := by
    unfold var_exists; rw [hv]; simp [var_vector_get, mini_var]
  have hs : stored_activity boundary_c2 1 = 2 := by
    unfold stored_activity; rw [hv]; simp [var_vector_get, mini_var]
  obtain ⟨e1, _, e3, _⟩ :=
    (c2_decay_activity_effect boundary_c2 (by rw [hf]; norm_num) (by rw [hr]; norm_num)).2
      (le_of_eq hq.symm)
  have e3' := e3 1 hex
  rw [hs, hf] at e3'
  rw [hr] at e1
  refine ⟨by rw [hf]; norm_num, by rw [hr]; norm_num, by rw [hr]; norm_num, hq, ?_, ?_, hs,
    e3', ?_⟩
  · rw [e1]; norm_num
  · rw [e1, hq]; norm_num
  · rw [e3', hs]; norm_num

/-! ## C9: the ranking by effective activity -/

/-- C9: for an activity factor of at least 1, a decay rate in (0,1) and two
existing variables `u` and `v`, in exact arithmetic: the effective activity of
`u` is at most that of `v` before `c2_decay_activity` (in either branch) if and
only if it is so after it, and the same holds for
`c2_rescale_activity_values`. -/
theorem activity_ranking_preserved (c2 : C2 H) (u v : Nat) (hf : 1 ≤ c2.activity_factor)
    (hr0 : 0 < c2.magic.decay_rate) (hr1 : c2.magic.decay_rate < 1)
    (hu : var_exists c2 u) (hv : var_exists c2 v) :
    (c2_get_activity c2 u ≤ c2_get_activity c2 v ↔
      c2_get_activity (c2_decay_activity c2) u ≤ c2_get_activity (c2_decay_activity c2) v) ∧
    (c2_get_activity c2 u ≤ c2_get_activity c2 v ↔
      c2_get_activity (c2_rescale_activity_values c2) u
        ≤ c2_get_activity (c2_rescale_activity_values c2) v) := by
  have _ := hr1
  constructor
  · rw [c2_get_activity_decay c2 hf hr0 u hu, c2_get_activity_decay c2 hf hr0 v hv]
    exact (mul_le_mul_left hr0).symm
  · rw [c2_get_activity_rescale c2 u hu, c2_get_activity_rescale c2 v hv]

/-- C9, witness: the variables 1 and 2 of `three_vars_c2`. -/
theorem activity_ranking_preserved_witness :
    (1 ≤ three_vars_c2.activity_factor) ∧ (0 < three_vars_c2.magic.decay_rate) ∧
    (three_vars_c2.magic.decay_rate < 1) ∧ var_exists three_vars_c2 1 ∧
    var_exists three_vars_c2 2 ∧
    ((c2_get_activity three_vars_c2 1 ≤ c2_get_activity three_vars_c2 2 ↔
      c2_get_activity (c2_decay_activity three_vars_c2) 1
        ≤ c2_get_activity (c2_decay_activity three_vars_c2) 2) ∧
    (c2_get_activity three_vars_c2 1 ≤ c2_get_activity three_vars_c2 2 ↔
      c2_get_activity (c2_rescale_activity_values three_vars_c2) 1
        ≤ c2_get_activity (c2_rescale_activity_values three_vars_c2) 2)) :=
  have h1 : 1 ≤ three_vars_c2.activity_factor := le_of_eq rfl
  have h2 : 0 < three_vars_c2.magic.decay_rate := by
    show (0 : ℚ) < 99 / 100; norm_num
  have h3 : three_vars_c2.magic.decay_rate < 1 := by
    show (99 / 100 : ℚ) < 1; norm_num
  ⟨h1, h2, h3, three_vars_c2_exists_1, three_vars_c2_exists_2,
    activity_ranking_preserved three_vars_c2 1 2 h1 h2 h3 three_vars_c2_exists_1
      three_vars_c2_exists_2⟩

/-! ## C10: reading an activity after setting it -/

/-- C10: for an existing variable `v`, a value `a` and an activity factor of at
least 1, in exact arithmetic: `c2_get_activity` called right after
`c2_set_activity(v, a)` returns `a`, and `c2_set_activity` changes neither the
activity factor nor the stored activity of any other variable.  (The statement
holds for every `a`, in particular for every `a ≥ 0`.) -/
theorem c2_get_activity_after_set (c2 : C2 H) (v : Nat) (a : ℚ) (hv : var_exists c2 v)
    (hf : 1 ≤ c2.activity_factor) :
    c2_get_activity (c2_set_activity c2 v a) v = a ∧
    (c2_set_activity c2 v a).activity_factor = c2.activity_factor ∧
    (∀ j, j ≠ v → stored_activity (c2_set_activity c2 v a) j = stored_activity c2 j) := by
  have hf0 : c2.activity_factor ≠ 0 := by
    intro h; rw [h] at hf; norm_num at hf
  have hset : c2_set_activity c2 v a = store_activity c2 v (a * c2.activity_factor) := by
    unfold c2_set_activity
    exact if_pos hv
  rw [hset]
  refine ⟨?_, rfl, ?_⟩
  · rw [c2_get_activity_eq, store_activity_stored, if_pos ⟨rfl, var_exists_lt_length c2 v hv⟩,
      store_activity_factor]
    field_simp
  · intro j hj
    rw [store_activity_stored, if_neg (fun h => hj h.1.symm)]

/-- C10, witness: setting the activity of variable 1 of `three_vars_c2` to 7. -/
theorem c2_get_activity_after_set_witness :
    var_exists three_vars_c2 1 ∧ (1 ≤ three_vars_c2.activity_factor) ∧
    (c2_get_activity (c2_set_activity three_vars_c2 1 7) 1 = 7 ∧
    (c2_set_activity three_vars_c2 1 7).activity_factor = three_vars_c2.activity_factor ∧
    (∀ j, j ≠ 1 →
      stored_activity (c2_set_activity three_vars_c2 1 7) j = stored_activity three_vars_c2 j)) :=
  ⟨three_vars_c2_exists_1, le_of_eq rfl,
    c2_get_activity_after_set three_vars_c2 1 7 three_vars_c2_exists_1 (le_of_eq rfl)⟩

/-! ## C11: activities after a major restart -/

/-- The loop of the major restart over the first `k` slots: the stored activity
of every existing variable among them becomes 0. -/
lemma zero_fold_spec (ops : Ops H) (hex : VarExistsAgrees ops) (c2 : C2 H) (k : Nat) :
    let r := (List.range k).foldl
      (fun (c : C2 H) i => if ops.qcnf_var_exists c.qcnf i then c2_set_activity c i 0 else c) c2
    r.activity_factor = c2.activity_factor ∧
    (∀ j, (var_vector_get r.qcnf.vars j).var_id = (var_vector_get c2.qcnf.vars j).var_id) ∧
    (∀ j, j < k → var_exists c2 j → stored_activity r j = 0) ∧
    (∀ j, ¬ (j < k ∧ var_exists c2 j) → stored_activity r j = stored_activity c2 j) := by
  induction k with
  | zero => simp
  | succ k ih =>
    simp only at ih ⊢
    rw [List.range_succ, List.foldl_append, List.foldl_cons, List.foldl_nil]
    set r := (List.range k).foldl
      (fun (c : C2 H) i => if ops.qcnf_var_exists c.qcnf i then c2_set_activity c i 0 else c) c2
      with hr
    obtain ⟨hf, hid, hst, hns⟩ := ih
    by_cases hk : (var_vector_get r.qcnf.vars k).var_id ≠ 0
    · have hk0 : var_exists c2 k := by unfold var_exists; rw [← hid]; exact hk
      have hklt : k < r.qcnf.vars.length := var_exists_lt_length r k hk
      have hstep : (if ops.qcnf_var_exists r.qcnf k = true then c2_set_activity r k 0 else r)
          = store_activity r k (0 * r.activity_factor) := by
        rw [if_pos ((hex r.qcnf k).mpr hk)]
        unfold c2_set_activity
        exact if_pos hk
      rw [hstep]
      refine ⟨hf, ?_, ?_, ?_⟩
      · intro j; rw [store_activity_var_id]; exact hid j
      · intro j hj hj0
        rw [store_activity_stored]
        by_cases hjk : k = j
        · rw [if_pos ⟨hjk, hklt⟩, zero_mul]
        · rw [if_neg (fun h => hjk h.1)]
          exact hst j (by omega) hj0
      · intro j hj
        rw [store_activity_stored]
        have hjk : k ≠ j := by
          rintro rfl
          exact hj ⟨Nat.lt_succ_self _, hk0⟩
        rw [if_neg (fun h => hjk h.1)]
        exact hns j (fun h => hj ⟨by omega, h.2⟩)
    · have hk0 : ¬ var_exists c2 k := by unfold var_exists; rw [← hid]; exact hk
      have hstep : (if ops.qcnf_var_exists r.qcnf k = true then c2_set_activity r k 0 else r)
          = r := by
        rw [if_neg (fun h => hk ((hex r.qcnf k).mp h))]
      rw [hstep]
      refine ⟨hf, hid, ?_, ?_⟩
      · intro j hj hj0
        have hjk : j ≠ k := by rintro rfl; exact hk0 hj0
        exact hst j (by omega) hj0
      · intro j hj
        exact hns j (fun h => hj ⟨by omega, h.2⟩)

/-- The function `c2_restart_heuristics` is the sequence of its three parts. -/
lemma c2_restart_heuristics_eq (ops : Ops H) (c2 : C2 H) :
    c2_restart_heuristics ops c2
      = restart_replenish ops
          (if (restart_begin c2).next_major_restart = (restart_begin c2).restarts_since_last_major
            then restart_major ops (restart_begin c2) else restart_begin c2) := rfl

/-- The function `c2_rescale_activity_values` changes only the variable vector
and the activity factor. -/
lemma c2_rescale_activity_values_frame (c2 : C2 H) :
    c2_rescale_activity_values c2
      = { c2 with
          activity_factor := 1
          qcnf := { c2.qcnf with vars := (c2_rescale_activity_values c2).qcnf.vars } } := by
  unfold c2_rescale_activity_values
  simp only
  exact foldl_keeps
    (fun c : C2 H => c = { c2 with
      activity_factor := 1, qcnf := { c2.qcnf with vars := c.qcnf.vars } }) _
    (by
      intro a b h
      split_ifs
      · show c2_scale_activity a b _ = _
        unfold c2_scale_activity store_activity
        simp only
        rw [h]
      · exact h) _ _ rfl

/-- The loop of the major restart changes only the variable vector. -/
lemma zero_fold_frame (ops : Ops H) (c2 : C2 H) (l : List Nat) :
    l.foldl (fun (c : C2 H) i => if ops.qcnf_var_exists c.qcnf i then c2_set_activity c i 0 else c)
        c2
      = { c2 with qcnf := { c2.qcnf with
          vars := (l.foldl (fun (c : C2 H) i =>
            if ops.qcnf_var_exists c.qcnf i then c2_set_activity c i 0 else c) c2).qcnf.vars } } := by
  exact foldl_keeps
    (fun c : C2 H => c = { c2 with qcnf := { c2.qcnf with vars := c.qcnf.vars } }) _
    (by
      intro a b h
      split_ifs
      · show c2_set_activity a b 0 = _
        unfold c2_set_activity
        simp only
        split_ifs
        · unfold store_activity
          simp only
          rw [h]
        · exact h
      · exact h) _ _ rfl

lemma restart_begin_activity_factor (c2 : C2 H) : (restart_begin c2).activity_factor = 1 :=
  (c2_rescale_activity_values_spec _).1

/-- The schedule counters after the first part of `c2_restart_heuristics`. -/
lemma restart_begin_schedule (c2 : C2 H) :
    (restart_begin c2).restarts_since_last_major = c2.restarts_since_last_major + 1 ∧
    (restart_begin c2).next_major_restart = c2.next_major_restart ∧
    (restart_begin c2).next_restart
      = float_to_unsigned ((c2.next_restart : ℚ) * c2.magic.restart_factor) ∧
    (restart_begin c2).major_restarts = c2.major_restarts ∧
    (restart_begin c2).magic = c2.magic ∧
    (restart_begin c2).restarts = c2.restarts := by
  unfold restart_begin
  simp only
  rw [c2_rescale_activity_values_frame]
  exact ⟨rfl, rfl, rfl, rfl, rfl, rfl⟩

/-- After the body of the major restart every existing variable has stored
activity 0 and the activity factor is unchanged. -/
lemma restart_major_activities (ops : Ops H) (hex : VarExistsAgrees ops) (c2 : C2 H) :
    (restart_major ops c2).activity_factor = c2.activity_factor ∧
    (∀ j, var_exists (restart_major ops c2) j ↔ var_exists c2 j) ∧
    (∀ j, var_exists c2 j → stored_activity (restart_major ops c2) j = 0) := by
  obtain ⟨hf, hid, hst, _⟩ := zero_fold_spec ops hex
    { c2 with
      major_restarts := c2.major_restarts + 1
      restarts_since_last_major := 0
      next_restart := c2.magic.initial_restart
      magic := { c2.magic with
        keeping_clauses_threshold := c2.magic.keeping_clauses_threshold + 1 } }
    (var_vector_count c2.qcnf.vars)
  simp only at hf hid hst
  refine ⟨hf, ?_, ?_⟩
  · intro j
    unfold var_exists
    exact Iff.of_eq (congrArg (fun n => n ≠ 0) (hid j))
  · intro j hj
    exact hst j (var_exists_lt_length c2 j hj) hj

/-- The last part of `c2_restart_heuristics` keeps the variable vector and the
activity factor when `c2_backtrack_casesplit` does. -/
lemma restart_replenish_activities (ops : Ops H) (hcs : CasesplitKeepsActivities ops)
    (c2 : C2 H) :
    (restart_replenish ops c2).qcnf.vars = c2.qcnf.vars ∧
    (restart_replenish ops c2).activity_factor = c2.activity_factor := by
  unfold restart_replenish
  split_ifs
  · exact hcs c2
  · exact ⟨rfl, rfl⟩

/-- C11: assume that `qcnf_var_exists` reports the slots with `var_id != 0` and
that `c2_backtrack_casesplit` changes neither the variable vector nor the
activity factor.  For every engine in which `c2_restart_heuristics` performs a
major restart (`restarts_since_last_major`, once incremented, equals
`next_major_restart`), after the call the activity factor is 1 and every
existing variable has stored activity 0 and effective activity 0. -/
theorem c2_restart_heuristics_major_activities (ops : Ops H) (c2 : C2 H)
    (hex : VarExistsAgrees ops) (hcs : CasesplitKeepsActivities ops)
    (hmajor : c2.next_major_restart = c2.restarts_since_last_major + 1) :
    (c2_restart_heuristics ops c2).activity_factor = 1 ∧
    (∀ i, var_exists (c2_restart_heuristics ops c2) i →
      stored_activity (c2_restart_heuristics ops c2) i = 0 ∧
      c2_get_activity (c2_restart_heuristics ops c2) i = 0) := by
  obtain ⟨hb1, hb2, _⟩ := restart_begin_schedule c2
  have hcond : (restart_begin c2).next_major_restart
      = (restart_begin c2).restarts_since_last_major := by rw [hb1, hb2, hmajor]
  rw [c2_restart_heuristics_eq, if_pos hcond]
  obtain ⟨hv, hf⟩ := restart_replenish_activities ops hcs (restart_major ops (restart_begin c2))
  obtain ⟨mf, mex, mst⟩ := restart_major_activities ops hex (restart_begin c2)
  have hfac : (restart_replenish ops (restart_major ops (restart_begin c2))).activity_factor = 1 := by
    rw [hf, mf, restart_begin_activity_factor]
  refine ⟨hfac, ?_⟩
  intro i hi
  have hst : stored_activity (restart_replenish ops (restart_major ops (restart_begin c2))) i
      = 0 := by
    have hi' : var_exists (restart_major ops (restart_begin c2)) i := by
      unfold var_exists at hi ⊢
      rw [hv] at hi
      exact hi
    have := mst i ((mex i).mp hi')
    unfold stored_activity at this ⊢
    rw [hv]
    exact this
  refine ⟨hst, ?_⟩
  rw [c2_get_activity_eq, hst, zero_div]

/-- The function `qcnf_var_exists` of the concrete instance reports the slots
with `var_id != 0`. -/
lemma mini_ops_var_exists_agrees : VarExistsAgrees mini_ops := by
  intro q i
  show decide ((q.vars.getD i no_var).var_id ≠ 0) = true ↔ _
  rw [decide_eq_true_eq]
  rfl

lemma mini_ops_casesplit_keeps_activities : CasesplitKeepsActivities mini_ops :=
  fun _ => ⟨rfl, rfl⟩

/-- C11, witness: the engine `major_due_c2` with the concrete instance. -/
theorem c2_restart_heuristics_major_activities_witness :
    VarExistsAgrees mini_ops ∧ CasesplitKeepsActivities mini_ops ∧
    major_due_c2.next_major_restart = major_due_c2.restarts_since_last_major + 1 ∧
    ((c2_restart_heuristics mini_ops major_due_c2).activity_factor = 1 ∧
    (∀ i, var_exists (c2_restart_heuristics mini_ops major_due_c2) i →
      stored_activity (c2_restart_heuristics mini_ops major_due_c2) i = 0 ∧
      c2_get_activity (c2_restart_heuristics mini_ops major_due_c2) i = 0)) :=
  ⟨mini_ops_var_exists_agrees, mini_ops_casesplit_keeps_activities, rfl,
    c2_restart_heuristics_major_activities mini_ops major_due_c2 mini_ops_var_exists_agrees
      mini_ops_casesplit_keeps_activities rfl⟩

/-! ## C12 and C13: the restart schedule -/

/-- Multiplying an `unsigned` value by 1.2 and casting back to `unsigned`. -/
lemma float_to_unsigned_mul_restart_factor (n : Nat) :
    float_to_unsigned ((n : ℚ) * (12 / 10)) = n * 12 / 10 := by
  unfold float_to_unsigned
  rw [Int.floor_toNat]
  have h : (n : ℚ) * (12 / 10) = ((n * 12 : ℕ) : ℚ) / ((10 : ℕ) : ℚ) := by
    push_cast; ring
  rw [h, Nat.floor_div_eq_div]

/-- The schedule counters after the body of the major restart. -/
lemma restart_major_schedule (ops : Ops H) (c2 : C2 H) :
    (restart_major ops c2).major_restarts = c2.major_restarts + 1 ∧
    (restart_major ops c2).restarts_since_last_major = 0 ∧
    (restart_major ops c2).next_restart = c2.magic.initial_restart ∧
    (restart_major ops c2).magic = { c2.magic with
      keeping_clauses_threshold := c2.magic.keeping_clauses_threshold + 1 } ∧
    (restart_major ops c2).next_major_restart
      = float_to_unsigned ((c2.next_major_restart : ℚ) * c2.magic.restart_factor) ∧
    (restart_major ops c2).restarts = c2.restarts := by
  unfold restart_major
  simp only
  rw [zero_fold_frame]
  exact ⟨rfl, rfl, rfl, rfl, rfl, rfl⟩

/-- A call of `c2_restart_heuristics` without major restart and without
replenishing is the first part alone. -/
lemma c2_restart_heuristics_minor (ops : Ops H) (c2 : C2 H)
    (hnm : c2.next_major_restart ≠ c2.restarts_since_last_major + 1)
    (hrep : c2.restarts % c2.magic.replenish_frequency ≠ c2.magic.replenish_frequency - 1) :
    c2_restart_heuristics ops c2 = restart_begin c2 := by
  obtain ⟨h1, h2, _, _, h5, h6⟩ := restart_begin_schedule c2
  rw [c2_restart_heuristics_eq, if_neg (by rw [h1, h2]; exact hnm)]
  unfold restart_replenish
  rw [if_neg (by rw [h5, h6]; exact hrep)]

/-- A call of `c2_restart_heuristics` with major restart and without
replenishing is the first part followed by the body of the major restart. -/
lemma c2_restart_heuristics_major (ops : Ops H) (c2 : C2 H)
    (hm : c2.next_major_restart = c2.restarts_since_last_major + 1)
    (hrep : c2.restarts % c2.magic.replenish_frequency ≠ c2.magic.replenish_frequency - 1) :
    c2_restart_heuristics ops c2 = restart_major ops (restart_begin c2) := by
  obtain ⟨h1, h2, _, _, h5, h6⟩ := restart_begin_schedule c2
  obtain ⟨_, _, _, m4, _, m6⟩ := restart_major_schedule ops (restart_begin c2)
  rw [c2_restart_heuristics_eq, if_pos (by rw [h1, h2]; exact hm)]
  unfold restart_replenish
  rw [if_neg (by rw [m4, m6, h5, h6]; exact hrep)]

/-- The schedule during the first 14 calls of `c2_restart_heuristics` after
`c2_init`: no major restart, and the intervals follow `restart_interval`. -/
lemma schedule_before_major (ops : Ops H) (options : Options) :
    ∀ k, k ≤ 14 →
      (after_restarts ops (c2_init ops options) k).next_restart = restart_interval k ∧
      (after_restarts ops (c2_init ops options) k).restarts_since_last_major = k ∧
      (after_restarts ops (c2_init ops options) k).next_major_restart = 15 ∧
      (after_restarts ops (c2_init ops options) k).major_restarts = 0 ∧
      (after_restarts ops (c2_init ops options) k).magic = (c2_init ops options).magic ∧
      (after_restarts ops (c2_init ops options) k).restarts = 0 := by
  intro k
  induction k with
  | zero => intro _; exact ⟨rfl, rfl, rfl, rfl, rfl, rfl⟩
  | succ k ih =>
    intro hk
    obtain ⟨i1, i2, i3, i4, i5, i6⟩ := ih (by omega)
    have hmagic_f : (c2_init ops options).magic.restart_factor = 12 / 10 := rfl
    have hmagic_r : (c2_init ops options).magic.replenish_frequency = 100 := rfl
    have hstep : after_restarts ops (c2_init ops options) (k + 1)
        = restart_begin (after_restarts ops (c2_init ops options) k) := by
      unfold after_restarts
      rw [Function.iterate_succ_apply']
      apply c2_restart_heuristics_minor
      · show (after_restarts ops (c2_init ops options) k).next_major_restart
          ≠ (after_restarts ops (c2_init ops options) k).restarts_since_last_major + 1
        rw [i2, i3]; omega
      · show (after_restarts ops (c2_init ops options) k).restarts
            % (after_restarts ops (c2_init ops options) k).magic.replenish_frequency
          ≠ (after_restarts ops (c2_init ops options) k).magic.replenish_frequency - 1
        rw [i5, i6, hmagic_r]; decide
    obtain ⟨h1, h2, h3, h4, h5, h6⟩ :=
      restart_begin_schedule (after_restarts ops (c2_init ops options) k)
    rw [hstep]
    refine ⟨?_, by rw [h1, i2], by rw [h2, i3], by rw [h4, i4], by rw [h5, i5], by rw [h6, i6]⟩
    rw [h3, i1, i5, hmagic_f, float_to_unsigned_mul_restart_factor]
    rfl

/-- C12, amended: starting from the values set by `c2_init`, `next_restart` at
initialization followed by its value after each of the first nine calls of
`c2_restart_heuristics` is 6, 7, 8, 9, 10, 12, 14, 16, 19, 22, each obtained
from the previous one by multiplying with the restart factor 1.2 and taking
the floor. -/
theorem restart_intervals (ops : Ops H) (options : Options) :
    (List.range 10).map (fun k => (after_restarts ops (c2_init ops options) k).next_restart)
      = [6, 7, 8, 9, 10, 12, 14, 16, 19, 22] ∧
    (∀ k, k < 9 →
      (after_restarts ops (c2_init ops options) (k + 1)).next_restart
        = ⌊((after_restarts ops (c2_init ops options) k).next_restart : ℚ)
            * (after_restarts ops (c2_init ops options) k).magic.restart_factor⌋₊) := by
  have hs := schedule_before_major ops options
  constructor
  · simp only [List.range, List.range.loop, List.map]
    rw [(hs 0 (by omega)).1, (hs 1 (by omega)).1, (hs 2 (by omega)).1, (hs 3 (by omega)).1,
      (hs 4 (by omega)).1, (hs 5 (by omega)).1, (hs 6 (by omega)).1, (hs 7 (by omega)).1,
      (hs 8 (by omega)).1, (hs 9 (by omega)).1]
    decide
  · intro k hk
    obtain ⟨a1, _, _, _, a5, _⟩ := hs k (by omega)
    obtain ⟨b1, _⟩ := hs (k + 1) (by omega)
    have hmagic_f : (c2_init ops options).magic.restart_factor = 12 / 10 := rfl
    rw [b1, a1, a5, hmagic_f]
    have h : (restart_interval k : ℚ) * (12 / 10)
        = ((restart_interval k * 12 : ℕ) : ℚ) / ((10 : ℕ) : ℚ) := by
      push_cast; ring
    rw [h, Nat.floor_div_eq_div]
    rfl

/-- C12, counterexample: after the ninth call of `c2_restart_heuristics` the
interval is 22 (the floor of 19 * 1.2 = 22.8), not 23. -/
theorem restart_intervals_counterexample :
    (after_restarts mini_ops (c2_init mini_ops mini_options) 8).next_restart = 19 ∧
    (after_restarts mini_ops (c2_init mini_ops mini_options) 9).next_restart = 22 ∧
    (List.range 10).map
        (fun k => (after_restarts mini_ops (c2_init mini_ops mini_options) k).next_restart)
      ≠ [6, 7, 8, 9, 10, 12, 14, 16, 19, 23] := by
  have hs := schedule_before_major mini_ops mini_options
  have h8 := (hs 8 (by omega)).1
  have h9 := (hs 9 (by omega)).1
  have e8 : restart_interval 8 = 19 := by decide
  have e9 : restart_interval 9 = 22 := by decide
  rw [e8] at h8
  rw [e9] at h9
  refine ⟨h8, h9, ?_⟩
  intro h
  have hlast := congrArg (fun l => l.getD 9 0) h
  simp only [List.range, List.range.loop, List.map, List.getD_cons_succ, List.getD_cons_zero]
    at hlast
  rw [h9] at hlast
  exact absurd hlast (by decide)

/-- C13: starting from the state set by `c2_init`, none of the first 14 calls
of `c2_restart_heuristics` performs a major restart and the 15th does: it
resets `next_restart` to `initial_restart` (6) and `restarts_since_last_major`
to 0, adds 1 to `keeping_clauses_threshold` and to `major_restarts`, and
multiplies `next_major_restart` by the restart factor (floored: 18). -/
theorem major_restart_at_15 (ops : Ops H) (options : Options) :
    (∀ k, k < 15 → (after_restarts ops (c2_init ops options) k).major_restarts = 0) ∧
    (∀ k, k < 14 →
      (after_restarts ops (c2_init ops options) k).next_major_restart
        ≠ (after_restarts ops (c2_init ops options) k).restarts_since_last_major + 1) ∧
    (after_restarts ops (c2_init ops options) 14).next_major_restart
      = (after_restarts ops (c2_init ops options) 14).restarts_since_last_major + 1 ∧
    (after_restarts ops (c2_init ops options) 15).major_restarts
      = (after_restarts ops (c2_init ops options) 14).major_restarts + 1 ∧
    (after_restarts ops (c2_init ops options) 15).major_restarts = 1 ∧
    (after_restarts ops (c2_init ops options) 15).next_restart
      = (c2_init ops options).magic.initial_restart ∧
    (after_restarts ops (c2_init ops options) 15).next_restart = 6 ∧
    (after_restarts ops (c2_init ops options) 15).restarts_since_last_major = 0 ∧
    (after_restarts ops (c2_init ops options) 15).magic.keeping_clauses_threshold
      = (after_restarts ops (c2_init ops options) 14).magic.keeping_clauses_threshold + 1 ∧
    (after_restarts ops (c2_init ops options) 15).next_major_restart
      = ⌊((after_restarts ops (c2_init ops options) 14).next_major_restart : ℚ)
          * (after_restarts ops (c2_init ops options) 14).magic.restart_factor⌋₊ ∧
    (after_restarts ops (c2_init ops options) 15).next_major_restart = 18 := by
  have hs := schedule_before_major ops options
  obtain ⟨_, a2, a3, a4, a5, a6⟩ := hs 14 (le_refl _)
  have hmagic_f : (c2_init ops options).magic.restart_factor = 12 / 10 := rfl
  have hmagic_r : (c2_init ops options).magic.replenish_frequency = 100 := rfl
  have hmagic_i : (c2_init ops options).magic.initial_restart = 6 := rfl
  have hdue : (after_restarts ops (c2_init ops options) 14).next_major_restart
      = (after_restarts ops (c2_init ops options) 14).restarts_since_last_major + 1 := by
    rw [a2, a3]
  have hstep : after_restarts ops (c2_init ops options) 15
      = restart_major ops (restart_begin (after_restarts ops (c2_init ops options) 14)) := by
    show (c2_restart_heuristics ops)^[14 + 1] (c2_init ops options) = _
    rw [Function.iterate_succ_apply']
    apply c2_restart_heuristics_major ops _ hdue
    show (after_restarts ops (c2_init ops options) 14).restarts
          % (after_restarts ops (c2_init ops options) 14).magic.replenish_frequency
        ≠ (after_restarts ops (c2_init ops options) 14).magic.replenish_frequency - 1
    rw [a5, a6, hmagic_r]; decide
  obtain ⟨b1, b2, _, b4, b5, _⟩ :=
    restart_begin_schedule (after_restarts ops (c2_init ops options) 14)
  obtain ⟨m1, m2, m3, m4, m5, _⟩ :=
    restart_major_schedule ops (restart_begin (after_restarts ops (c2_init ops options) 14))
  have hfloor : float_to_unsigned (((15 : ℕ) : ℚ) * (12 / 10)) = 18 := by
    rw [float_to_unsigned_mul_restart_factor]
  have hfloor' : ⌊((15 : ℕ) : ℚ) * (12 / 10)⌋₊ = 18 := by
    have h : ((15 : ℕ) : ℚ) * (12 / 10) = ((15 * 12 : ℕ) : ℚ) / ((10 : ℕ) : ℚ) := by
      push_cast; ring
    rw [h, Nat.floor_div_eq_div]
  refine ⟨fun k hk => (hs k (by omega)).2.2.2.1, ?_, hdue, ?_, ?_, ?_, ?_, ?_, ?_, ?_, ?_⟩
  · intro k hk
    obtain ⟨_, k2, k3, _⟩ := hs k (by omega)
    rw [k2, k3]; omega
  · rw [hstep, m1, b4]
  · rw [hstep, m1, b4, a4]
  · rw [hstep, m3, b5, a5]
  · rw [hstep, m3, b5, a5, hmagic_i]
  · rw [hstep, m2]
  · rw [hstep, m4, b5]
  · rw [hstep, m5, b2, b5, a3, a5, hmagic_f, hfloor, hfloor']
  · rw [hstep, m5, b2, b5, a3, a5, hmagic_f, hfloor]

/-! ## C14: the Jeroslow-Wang weight -/

/-- A loop over the indices of a list that handles the entry at each index is
the fold over the list. -/
lemma foldl_range_get {α β : Type} (f : β → α → β) (step : β → Nat → β) (l : List α)
    (hstep : ∀ acc i, ∀ hi : i < l.length, step acc i = f acc (l.get ⟨i, hi⟩)) (b : β) :
    (List.range l.length).foldl step b = l.foldl f b := by
  induction l using List.reverseRecOn generalizing b with
  | nil => rfl
  | append_singleton l a ih =>
    rw [List.length_append, List.length_singleton, List.range_succ, List.foldl_append,
      List.foldl_append, List.foldl_cons, List.foldl_nil, List.foldl_cons, List.foldl_nil]
    have hlast : l.length < (l ++ [a]).length := by simp
    rw [hstep _ l.length hlast]
    have hget : (l ++ [a]).get ⟨l.length, hlast⟩ = a := by simp
    rw [hget]
    congr 1
    apply ih
    intro acc i hi
    have hi' : i < (l ++ [a]).length := by simp; omega
    rw [hstep acc i hi']
    congr 1
    simp [List.getElem_append_left hi]

/-- Adding up `2^-|c|` for the short clauses, one clause after the other. -/
lemma foldl_weight_eq_sum (l : List Clause) (w : ℚ) :
    l.foldl (fun (weight : ℚ) c => if c.size ≤ 10 then weight + 1 / (2 : ℚ) ^ c.size else weight) w
      = w + ((l.filter (fun c => decide (c.size ≤ 10))).map
          (fun c => 1 / (2 : ℚ) ^ c.size)).sum := by
  induction l generalizing w with
  | nil => simp
  | cons c l ih =>
    rw [List.foldl_cons, ih]
    by_cases hc : c.size ≤ 10
    · simp [hc, List.filter_cons, add_assoc]
    · simp [hc, List.filter_cons]

/-- What `c2_Jeroslow_Wang_log_weight` computes: the clause at index 0 is left
out of the sum and counted in the length. -/
lemma c2_Jeroslow_Wang_log_weight_cons (c : Clause) (rest : List Clause) :
    c2_Jeroslow_Wang_log_weight (c :: rest)
      = ((rest.filter (fun c => decide (c.size ≤ 10))).map (fun c => 1 / (2 : ℚ) ^ c.size)).sum
        + (5 / 100) * ((rest.length : ℚ) + 1) := by
  unfold c2_Jeroslow_Wang_log_weight
  simp only [List.length_cons, Nat.add_sub_cancel]
  have hshift : (List.range' 1 rest.length).foldl
      (fun (weight : ℚ) i =>
        match (c :: rest).get? i with
        | some c => if c.size ≤ 10 then weight + 1 / (2 : ℚ) ^ c.size else weight
        | none => weight) 0
      = (List.range rest.length).foldl
      (fun (weight : ℚ) i =>
        match rest.get? i with
        | some c => if c.size ≤ 10 then weight + 1 / (2 : ℚ) ^ c.size else weight
        | none => weight) 0 := by
    rw [List.range'_eq_map_range, List.foldl_map]
    apply List.foldl_ext
    intro acc i _
    simp [List.get?_eq_getElem?, Nat.add_comm]
  have hfold : (List.range rest.length).foldl
      (fun (weight : ℚ) i =>
        match rest.get? i with
        | some c => if c.size ≤ 10 then weight + 1 / (2 : ℚ) ^ c.size else weight
        | none => weight) 0
      = rest.foldl
        (fun (weight : ℚ) c => if c.size ≤ 10 then weight + 1 / (2 : ℚ) ^ c.size else weight) 0 := by
    apply foldl_range_get
    intro acc i hi
    simp [List.get?_eq_getElem?, List.getElem?_eq_getElem hi]
  rw [hshift, hfold, foldl_weight_eq_sum]
  push_cast
  ring

/-- C14, the code against the formula: for every non-empty clause list the
function returns the formula's value minus the term `2^-|c|` of the first
clause `c` whenever `|c| ≤ 10`, because its loop starts at index 1; for the
list with one unit clause it returns `0.05` where the formula gives `0.55`. -/
theorem c2_Jeroslow_Wang_log_weight_skips_first :
    (∀ (c : Clause) (rest : List Clause),
      c2_Jeroslow_Wang_log_weight (c :: rest)
        = Jeroslow_Wang_formula (c :: rest) - (if c.size ≤ 10 then 1 / (2 : ℚ) ^ c.size else 0)) ∧
    c2_Jeroslow_Wang_log_weight [unit_clause] = 5 / 100 ∧
    Jeroslow_Wang_formula [unit_clause] = 55 / 100 ∧
    c2_Jeroslow_Wang_log_weight [unit_clause] ≠ Jeroslow_Wang_formula [unit_clause] := by
  have hgen : ∀ (c : Clause) (rest : List Clause),
      c2_Jeroslow_Wang_log_weight (c :: rest)
        = Jeroslow_Wang_formula (c :: rest)
          - (if c.size ≤ 10 then 1 / (2 : ℚ) ^ c.size else 0) := by
    intro c rest
    rw [c2_Jeroslow_Wang_log_weight_cons]
    unfold Jeroslow_Wang_formula
    by_cases hc : c.size ≤ 10
    · simp only [List.filter_cons, hc, decide_True, if_true, List.map_cons, List.sum_cons,
        List.length_cons]
      push_cast
      ring
    · simp only [List.filter_cons, hc, decide_False, if_false, List.length_cons]
      push_cast
      ring
  have hcode : c2_Jeroslow_Wang_log_weight [unit_clause] = 5 / 100 := by
    rw [c2_Jeroslow_Wang_log_weight_cons]
    simp
  have hform : Jeroslow_Wang_formula [unit_clause] = 55 / 100 := by
    unfold Jeroslow_Wang_formula
    simp [unit_clause, Clause.size]
    norm_num
  refine ⟨hgen, hcode, hform, ?_⟩
  rw [hcode, hform]
  norm_num

/-! ## C15: the phase of a decision -/

/-- The decision of `c2_run` is `c2_run_decide` on the literal made of the
phase `c2_run_decision_phase` and the id of the decision variable. -/
lemma c2_run_take_decision_eq (ops : Ops H) (c2 : C2 H) (decision_var : Nat) (phase : Int) :
    c2_run_take_decision ops c2 decision_var phase
      = c2_run_decide ops c2 (var_vector_get c2.qcnf.vars decision_var).var_id
          (c2_run_decision_phase c2 decision_var phase
            * ((var_vector_get c2.qcnf.vars decision_var).var_id : Int)) := rfl

/-- The Skolem domain after `c2_run_decide`: pushed only when the Examples
domain became conflicted, and otherwise the result of `skolem_decision` called
with the literal on the pushed domain with raised decision level. -/
lemma c2_run_decide_skolem (ops : Ops H) (c2 : C2 H) (var_id : Nat) (lit : Lit) :
    (c2_run_decide ops c2 var_id lit).skolem
      = if ops.examples_is_conflicted
            (ops.examples_decision_consistent_with_skolem (ops.examples_push c2.examples)
              (ops.skolem_push c2.skolem) lit) then ops.skolem_push c2.skolem
        else ops.skolem_decision
          (ops.skolem_increase_decision_lvl (ops.skolem_push c2.skolem)) lit := by
  unfold c2_run_decide
  simp only
  split_ifs with h1 h2 h3
  all_goals first
    | rfl
    | exact absurd h1 h2
    | exact absurd h2 h1
    | exact absurd h1 h3
    | exact absurd h3 h1

/-- The branch without conflict of `c2_run` when it comes to a decision by
activity outside reinforcement learning. -/
lemma c2_run_no_conflict_activity_decision (ops : Ops H) (c2 : C2 H) (n picked : Nat)
    (hcan : ops.skolem_can_propagate c2.skolem = false)
    (hstate : (ops.c2_casesplits_assume_single_lit c2).1.state = C2_STATE.C2_READY)
    (hprog : (ops.c2_casesplits_assume_single_lit c2).2 = false)
    (hpick : c2_pick_most_active_notdeterministic_variable ops
      (ops.c2_casesplits_assume_single_lit c2).1 = some picked)
    (hrl : (ops.c2_casesplits_assume_single_lit c2).1.options.reinforcement_learning = false) :
    c2_run_no_conflict ops c2 n
      = .ok (RunStep.next
          (c2_run_take_decision ops (ops.c2_casesplits_assume_single_lit c2).1 picked 1) n) := by
  unfold c2_run_no_conflict
  simp [hcan, hstate, hprog, hpick, hrl]

/-- The phase computed by `c2_run_decision_phase` outside reinforcement
learning. -/
lemma c2_run_decision_phase_cases (c2 : C2 H) (v : Nat)
    (hrl : c2.options.reinforcement_learning = false) :
    (c2.restarts < c2.magic.num_restarts_before_Jeroslow_Wang →
      c2_run_decision_phase c2 v 1 = 1) ∧
    (c2.magic.num_restarts_before_Jeroslow_Wang ≤ c2.restarts →
      (c2_run_decision_phase c2 v 1 = 1 ↔
        c2_Jeroslow_Wang_log_weight (var_vector_get c2.qcnf.vars v).pos_occs
          > c2_Jeroslow_Wang_log_weight (var_vector_get c2.qcnf.vars v).neg_occs) ∧
      (c2_run_decision_phase c2 v 1 = -1 ↔
        ¬ c2_Jeroslow_Wang_log_weight (var_vector_get c2.qcnf.vars v).pos_occs
          > c2_Jeroslow_Wang_log_weight (var_vector_get c2.qcnf.vars v).neg_occs)) := by
  constructor
  · intro hlt
    unfold c2_run_decision_phase
    simp only
    rw [if_neg (fun h => absurd h.1 (not_le.mpr hlt))]
  · intro hge
    unfold c2_run_decision_phase
    simp only
    rw [if_pos ⟨hge, by simp [hrl]⟩]
    by_cases hw : c2_Jeroslow_Wang_log_weight (var_vector_get c2.qcnf.vars v).pos_occs
        > c2_Jeroslow_Wang_log_weight (var_vector_get c2.qcnf.vars v).neg_occs
    · rw [if_pos hw]
      exact ⟨⟨fun _ => hw, fun _ => rfl⟩, ⟨fun h => absurd h (by decide), fun h => absurd hw h⟩⟩
    · rw [if_neg hw]
      exact ⟨⟨fun h => absurd h (by decide), fun h => absurd h hw⟩, ⟨fun _ => hw, fun _ => rfl⟩⟩

/-- When an iteration of `c2_run` comes to a decision outside
reinforcement learning (no pending propagation, the case-split driver leaves
state `C2_READY` without progress, a variable `picked` is found), it decides
with the literal `phase * var_id` of the picked variable, where the phase is 1
whenever fewer than `num_restarts_before_Jeroslow_Wang` restarts have happened,
and otherwise 1 if and only if the value of `c2_Jeroslow_Wang_log_weight` for
the positive occurrences is strictly greater than its value for the negative
occurrences, and -1 if not (so also when the two values are equal). -/
lemma c2_run_decision_phase_rule (ops : Ops H) (c2 : C2 H) (n picked : Nat)
    (hcan : ops.skolem_can_propagate c2.skolem = false)
    (hstate : (ops.c2_casesplits_assume_single_lit c2).1.state = C2_STATE.C2_READY)
    (hprog : (ops.c2_casesplits_assume_single_lit c2).2 = false)
    (hpick : c2_pick_most_active_notdeterministic_variable ops
      (ops.c2_casesplits_assume_single_lit c2).1 = some picked)
    (hrl : (ops.c2_casesplits_assume_single_lit c2).1.options.reinforcement_learning = false) :
    c2_run_no_conflict ops c2 n
      = .ok (RunStep.next
          (c2_run_decide ops (ops.c2_casesplits_assume_single_lit c2).1
            (var_vector_get (ops.c2_casesplits_assume_single_lit c2).1.qcnf.vars picked).var_id
            (c2_run_decision_phase (ops.c2_casesplits_assume_single_lit c2).1 picked 1
              * ((var_vector_get
                  (ops.c2_casesplits_assume_single_lit c2).1.qcnf.vars picked).var_id : Int))) n) ∧
    ((ops.c2_casesplits_assume_single_lit c2).1.restarts
        < (ops.c2_casesplits_assume_single_lit c2).1.magic.num_restarts_before_Jeroslow_Wang →
      c2_run_decision_phase (ops.c2_casesplits_assume_single_lit c2).1 picked 1 = 1) ∧
    ((ops.c2_casesplits_assume_single_lit c2).1.magic.num_restarts_before_Jeroslow_Wang
        ≤ (ops.c2_casesplits_assume_single_lit c2).1.restarts →
      (c2_run_decision_phase (ops.c2_casesplits_assume_single_lit c2).1 picked 1 = 1 ↔
        c2_Jeroslow_Wang_log_weight
            (var_vector_get (ops.c2_casesplits_assume_single_lit c2).1.qcnf.vars picked).pos_occs
          > c2_Jeroslow_Wang_log_weight
            (var_vector_get (ops.c2_casesplits_assume_single_lit c2).1.qcnf.vars picked).neg_occs) ∧
      (c2_run_decision_phase (ops.c2_casesplits_assume_single_lit c2).1 picked 1 = -1 ↔
        ¬ c2_Jeroslow_Wang_log_weight
            (var_vector_get (ops.c2_casesplits_assume_single_lit c2).1.qcnf.vars picked).pos_occs
          > c2_Jeroslow_Wang_log_weight
            (var_vector_get
              (ops.c2_casesplits_assume_single_lit c2).1.qcnf.vars picked).neg_occs)) := by
  refine ⟨?_, (c2_run_decision_phase_cases _ picked hrl).1,
    (c2_run_decision_phase_cases _ picked hrl).2⟩
  rw [c2_run_no_conflict_activity_decision ops c2 n picked hcan hstate hprog hpick hrl,
    c2_run_take_decision_eq]

/-- What `c2_Jeroslow_Wang_log_weight` computes for every clause list: the
value of the Jeroslow-Wang formula without the term of the clause at index 0. -/
lemma c2_Jeroslow_Wang_log_weight_eq_formula (L : List Clause) :
    c2_Jeroslow_Wang_log_weight L = Jeroslow_Wang_formula L - first_clause_term L := by
  cases L with
  | nil =>
    unfold c2_Jeroslow_Wang_log_weight Jeroslow_Wang_formula first_clause_term
    simp
  | cons c rest =>
    rw [c2_Jeroslow_Wang_log_weight_cons]
    unfold Jeroslow_Wang_formula first_clause_term
    by_cases hc : c.size ≤ 10
    · simp only [List.filter_cons, hc, decide_True, if_true, List.map_cons, List.sum_cons,
        List.length_cons]
      push_cast
      ring
    · simp only [List.filter_cons, hc, decide_False, if_false, List.length_cons]
      push_cast
      ring

/-- In `jw_c2` the scan picks variable 1. -/
lemma jw_c2_pick :
    c2_pick_most_active_notdeterministic_variable mini_ops jw_c2 = some 1 := by
  with_unfolding_all rfl

/-- The values of `c2_Jeroslow_Wang_log_weight` for the occurrences of `jw_var`. -/
lemma jw_var_code_weights :
    c2_Jeroslow_Wang_log_weight jw_var.pos_occs = 5 / 100
      ∧ c2_Jeroslow_Wang_log_weight jw_var.neg_occs = 10 / 100 := by
  constructor
  · show c2_Jeroslow_Wang_log_weight [unit_clause] = 5 / 100
    rw [c2_Jeroslow_Wang_log_weight_cons]
    simp
  · show c2_Jeroslow_Wang_log_weight [eleven_clause, eleven_clause] = 10 / 100
    rw [c2_Jeroslow_Wang_log_weight_cons]
    simp [eleven_clause, Clause.size]
    norm_num

/-- The values of the Jeroslow-Wang formula for the occurrences of `jw_var`. -/
lemma jw_var_formula_weights :
    Jeroslow_Wang_formula jw_var.pos_occs = 55 / 100
      ∧ Jeroslow_Wang_formula jw_var.neg_occs = 10 / 100 := by
  constructor
  · show Jeroslow_Wang_formula [unit_clause] = 55 / 100
    unfold Jeroslow_Wang_formula
    simp [unit_clause, Clause.size]
    norm_num
  · show Jeroslow_Wang_formula [eleven_clause, eleven_clause] = 10 / 100
    unfold Jeroslow_Wang_formula
    simp [eleven_clause, Clause.size]
    norm_num

/-- The phase of the decision of `jw_c2` on variable 1 is `-1`. -/
lemma jw_c2_phase : c2_run_decision_phase jw_c2 1 1 = -1 := by
  have hrl : jw_c2.options.reinforcement_learning = false := rfl
  have hge : jw_c2.magic.num_restarts_before_Jeroslow_Wang ≤ jw_c2.restarts := by decide
  refine (((c2_run_decision_phase_cases jw_c2 1 hrl).2 hge).2).2 ?_
  show ¬ c2_Jeroslow_Wang_log_weight jw_var.pos_occs
      > c2_Jeroslow_Wang_log_weight jw_var.neg_occs
  rw [jw_var_code_weights.1, jw_var_code_weights.2]
  norm_num

/-- Claim C15.  Outside reinforcement learning a decision of `c2_run` is taken
on the literal `phase * var_id`, and the phase is 1 whenever fewer than
`num_restarts_before_Jeroslow_Wang` restarts have happened, as claimed.  Once
that many restarts have happened, the phase is 1 if and only if the value of
`c2_Jeroslow_Wang_log_weight` for the positive occurrences is strictly greater
than its value for the negative occurrences, and -1 otherwise; but that value
is the Jeroslow-Wang weight without the term of the first clause of the list.
So the phase does not follow the Jeroslow-Wang weights: the engine `jw_c2`
(three restarts; variable 1 occurs positively in one unit clause, weight
`0.5 + 0.05`, and negatively in two clauses of eleven literals, weight `0.10`)
decides with the literal `-1` although the weight of the positive occurrences
is strictly greater. -/
theorem c2_run_decision_phase_ignores_first_clause :
    (∀ (ops : Ops H) (c2 : C2 H) (n picked : Nat),
      ops.skolem_can_propagate c2.skolem = false →
      (ops.c2_casesplits_assume_single_lit c2).1.state = C2_STATE.C2_READY →
      (ops.c2_casesplits_assume_single_lit c2).2 = false →
      c2_pick_most_active_notdeterministic_variable ops
        (ops.c2_casesplits_assume_single_lit c2).1 = some picked →
      (ops.c2_casesplits_assume_single_lit c2).1.options.reinforcement_learning = false →
      c2_run_no_conflict ops c2 n
        = .ok (RunStep.next
            (c2_run_decide ops (ops.c2_casesplits_assume_single_lit c2).1
              (var_vector_get (ops.c2_casesplits_assume_single_lit c2).1.qcnf.vars picked).var_id
              (c2_run_decision_phase (ops.c2_casesplits_assume_single_lit c2).1 picked 1
                * ((var_vector_get
                    (ops.c2_casesplits_assume_single_lit c2).1.qcnf.vars picked).var_id : Int)))
            n) ∧
      ((ops.c2_casesplits_assume_single_lit c2).1.restarts
          < (ops.c2_casesplits_assume_single_lit c2).1.magic.num_restarts_before_Jeroslow_Wang →
        c2_run_decision_phase (ops.c2_casesplits_assume_single_lit c2).1 picked 1 = 1) ∧
      ((ops.c2_casesplits_assume_single_lit c2).1.magic.num_restarts_before_Jeroslow_Wang
          ≤ (ops.c2_casesplits_assume_single_lit c2).1.restarts →
        (c2_run_decision_phase (ops.c2_casesplits_assume_single_lit c2).1 picked 1 = 1 ↔
          Jeroslow_Wang_formula
              (var_vector_get (ops.c2_casesplits_assume_single_lit c2).1.qcnf.vars picked).pos_occs
            - first_clause_term
              (var_vector_get (ops.c2_casesplits_assume_single_lit c2).1.qcnf.vars picked).pos_occs
          > Jeroslow_Wang_formula
              (var_vector_get (ops.c2_casesplits_assume_single_lit c2).1.qcnf.vars picked).neg_occs
            - first_clause_term
              (var_vector_get
                (ops.c2_casesplits_assume_single_lit c2).1.qcnf.vars picked).neg_occs) ∧
        (c2_run_decision_phase (ops.c2_casesplits_assume_single_lit c2).1 picked 1 = -1 ↔
          ¬ Jeroslow_Wang_formula
              (var_vector_get (ops.c2_casesplits_assume_single_lit c2).1.qcnf.vars picked).pos_occs
            - first_clause_term
              (var_vector_get (ops.c2_casesplits_assume_single_lit c2).1.qcnf.vars picked).pos_occs
          > Jeroslow_Wang_formula
              (var_vector_get (ops.c2_casesplits_assume_single_lit c2).1.qcnf.vars picked).neg_occs
            - first_clause_term
              (var_vector_get
                (ops.c2_casesplits_assume_single_lit c2).1.qcnf.vars picked).neg_occs))) ∧
    jw_c2.options.reinforcement_learning = false ∧
    jw_c2.magic.num_restarts_before_Jeroslow_Wang ≤ jw_c2.restarts ∧
    (var_vector_get jw_c2.qcnf.vars 1).pos_occs = [unit_clause] ∧
    (var_vector_get jw_c2.qcnf.vars 1).neg_occs = [eleven_clause, eleven_clause] ∧
    Jeroslow_Wang_formula (var_vector_get jw_c2.qcnf.vars 1).pos_occs = 55 / 100 ∧
    Jeroslow_Wang_formula (var_vector_get jw_c2.qcnf.vars 1).neg_occs = 10 / 100 ∧
    Jeroslow_Wang_formula (var_vector_get jw_c2.qcnf.vars 1).pos_occs
      > Jeroslow_Wang_formula (var_vector_get jw_c2.qcnf.vars 1).neg_occs ∧
    c2_Jeroslow_Wang_log_weight (var_vector_get jw_c2.qcnf.vars 1).pos_occs = 5 / 100 ∧
    c2_Jeroslow_Wang_log_weight (var_vector_get jw_c2.qcnf.vars 1).neg_occs = 10 / 100 ∧
    c2_run_decision_phase jw_c2 1 1 = -1 ∧
    c2_run_no_conflict mini_ops jw_c2 1
      = .ok (RunStep.next (c2_run_decide mini_ops jw_c2 1 (-1)) 1) := by
  refine ⟨?_, rfl, by decide, rfl, rfl, jw_var_formula_weights.1, jw_var_formula_weights.2, ?_,
    jw_var_code_weights.1, jw_var_code_weights.2, jw_c2_phase, ?_⟩
  · intro ops c2 n picked hcan hstate hprog hpick hrl
    obtain ⟨h1, h2, h3⟩ := c2_run_decision_phase_rule ops c2 n picked hcan hstate hprog hpick hrl
    refine ⟨h1, h2, fun hge => ?_⟩
    have h := h3 hge
    rw [c2_Jeroslow_Wang_log_weight_eq_formula, c2_Jeroslow_Wang_log_weight_eq_formula] at h
    exact h
  · show Jeroslow_Wang_formula jw_var.pos_occs > Jeroslow_Wang_formula jw_var.neg_occs
    rw [jw_var_formula_weights.1, jw_var_formula_weights.2]
    norm_num
  · have h : c2_run_no_conflict mini_ops jw_c2 1
        = .ok (RunStep.next
            (c2_run_decide mini_ops jw_c2 1 (c2_run_decision_phase jw_c2 1 1 * 1)) 1) :=
      (c2_run_decision_phase_rule mini_ops jw_c2 1 1 rfl rfl rfl jw_c2_pick rfl).1
    rw [h, jw_c2_phase]
    rfl

/-! ## C16: the variable of a decision -/

lemma lit_to_var_phase_mul (phase : Int) (v : Nat) (h : phase = 1 ∨ phase = -1) :
    lit_to_var (phase * (v : Int)) = v := by
  unfold lit_to_var
  rcases h with rfl | rfl <;> simp

/-- In `rl_c2` the scan finds a variable also with the instance `rl_answer_ops`. -/
lemma rl_answer_pick :
    c2_pick_most_active_notdeterministic_variable rl_answer_ops rl_c2 = some 1 := by
  with_unfolding_all rfl

/-- The conflict branch of `c2_run` when `qcnf_close_clause` returns no clause:
the program aborts when the SAT solver reports SAT, and `c2_run` returns in
state `C2_CLOSE_CASE` otherwise. -/
lemma c2_run_conflict_no_clause (ops : Ops H) (fuel : Nat) (c2 : C2 H) (n : Nat)
    (hnone : (c2_run_closed_clause ops c2).2 = none) :
    c2_run_conflict ops fuel c2 n =
      if (ops.satsolver_sat c2.skolem).2 = sat_res.SATSOLVER_SAT then
        .error (Failure.abort Abort.conflict_clause_could_not_be_created)
      else .ok (RunStep.done (c2_run_close_case ops c2)) := by
  unfold c2_run_closed_clause at hnone
  unfold c2_run_conflict
  simp only [hnone]
  rfl

/-- The call of `c2_run` whose first iteration runs into a conflict without a
learnt clause. -/
lemma c2_run_no_clause (ops : Ops H) (fuel : Nat) (c2 : C2 H) (n : Nat) (hn : 0 < n)
    (hconf : c2_is_in_conflcit (c2_propagate ops c2) = true)
    (hnone : (c2_run_closed_clause ops (c2_propagate ops c2)).2 = none) :
    c2_run ops (fuel + 1) c2 n =
      if (ops.satsolver_sat (c2_propagate ops c2).skolem).2 = sat_res.SATSOLVER_SAT then
        .error (Failure.abort Abort.conflict_clause_could_not_be_created)
      else .ok (c2_run_close_case ops (c2_propagate ops c2)) := by
  rw [c2_run, if_pos hn]
  unfold c2_run_iteration
  simp only [hconf, if_true]
  rw [c2_run_conflict_no_clause ops fuel _ n hnone]
  split_ifs <;> rfl

/-- The restart loop stops with the engine of a round that does not end in
state `C2_READY`. -/
lemma c2_sat_loop_stops (ops : Ops H) (fuel : Nat) (c2 c3 : C2 H)
    (hready : c2.state = C2_STATE.C2_READY) (hround : c2_sat_round ops fuel c2 = .ok c3)
    (hne : c3.state ≠ C2_STATE.C2_READY) :
    c2_sat_loop ops (fuel + 1) c2 = .ok c3 := by
  rw [c2_sat_loop, if_pos hready, hround]
  cases fuel with
  | zero => simp only [c2_sat_loop]; rw [if_neg hne]
  | succ k => simp only [c2_sat_loop]; rw [if_neg hne]

/-- A round of the restart loop whose call of `c2_run` returns the engine `c1`
in a state other than `C2_READY` and `C2_CLOSE_CASE` ends in that state. -/
lemma c2_sat_round_other_state (ops : Ops H) (fuel : Nat) (c2 c1 : C2 H)
    (hrun : c2_run ops fuel c2 c2.next_restart = .ok c1)
    (hcc : c1.state ≠ C2_STATE.C2_CLOSE_CASE) (hne : c1.state ≠ C2_STATE.C2_READY) :
    ∃ c3, c2_sat_round ops fuel c2 = .ok c3 ∧ c3.state = c1.state := by
  unfold c2_sat_round
  rw [hrun]
  simp only [if_neg hcc, if_neg hne]
  split_ifs
  · exact ⟨_, rfl, rfl⟩
  · exact ⟨_, rfl, rfl⟩

/-- A round of the restart loop whose call of `c2_run` returns the engine `c1`
in state `C2_CLOSE_CASE` calls `c2_close_case`; when that does not lead to
state `C2_READY`, the round ends in the state that `c2_close_case` leaves. -/
lemma c2_sat_round_close_case (ops : Ops H) (fuel : Nat) (c2 c1 : C2 H)
    (hrun : c2_run ops fuel c2 c2.next_restart = .ok c1)
    (hcc : c1.state = C2_STATE.C2_CLOSE_CASE)
    (hne : (ops.c2_close_case c1).state ≠ C2_STATE.C2_READY) :
    ∃ c3, c2_sat_round ops fuel c2 = .ok c3 ∧ c3.state = (ops.c2_close_case c1).state := by
  unfold c2_sat_round
  rw [hrun]
  simp only [if_pos hcc, if_neg hne]
  split_ifs
  · exact ⟨_, rfl, rfl⟩
  · exact ⟨_, rfl, rfl⟩

/-- Claim C17 (amended).  In `c2_run`, when the engine is in a conflict after
`c2_propagate` and closing the learnt clause yields no clause: if the SAT solver
of the Skolem domain reports SAT, the program aborts ("Conflict clause could
not be created"); if it does not report SAT, `c2_run` clears
`current_conflict`, moves to `C2_CLOSE_CASE` and returns.  The restart loop of
`c2_sat` then calls `c2_close_case`, and when that leaves a state other than
`C2_READY` the loop ends in that state, which decides the result. -/
theorem c2_run_no_learnt_clause (ops : Ops H) (fuel : Nat) (c2 : C2 H) (n : Nat) (hn : 0 < n)
    (hconf : c2_is_in_conflcit (c2_propagate ops c2) = true)
    (hnone : (c2_run_closed_clause ops (c2_propagate ops c2)).2 = none) :
    ((ops.satsolver_sat (c2_propagate ops c2).skolem).2 = sat_res.SATSOLVER_SAT →
      c2_run ops (fuel + 1) c2 n
        = .error (Failure.abort Abort.conflict_clause_could_not_be_created)) ∧
    ((ops.satsolver_sat (c2_propagate ops c2).skolem).2 ≠ sat_res.SATSOLVER_SAT →
      c2_run ops (fuel + 1) c2 n = .ok (c2_run_close_case ops (c2_propagate ops c2))
      ∧ (c2_run_close_case ops (c2_propagate ops c2)).current_conflict = none
      ∧ (c2_run_close_case ops (c2_propagate ops c2)).state = C2_STATE.C2_CLOSE_CASE
      ∧ (c2.state = C2_STATE.C2_READY → n = c2.next_restart →
          (ops.c2_close_case (c2_run_close_case ops (c2_propagate ops c2))).state
            ≠ C2_STATE.C2_READY →
          ∃ c3, c2_sat_loop ops (fuel + 2) c2 = .ok c3 ∧
            c3.state = (ops.c2_close_case (c2_run_close_case ops (c2_propagate ops c2))).state
            ∧ c2_sat_return_result c3 = (c2_result c3).map (fun res => (res, c3)))) := by
  have hrun := c2_run_no_clause ops fuel c2 n hn hconf hnone
  refine ⟨fun hsat => ?_, fun hsat => ⟨?_, rfl, rfl, ?_⟩⟩
  · rw [hrun, if_pos hsat]
  · rw [hrun, if_neg hsat]
  · intro hready hnr hne
    rw [if_neg hsat, hnr] at hrun
    obtain ⟨c3, hround, hstate⟩ := c2_sat_round_close_case ops (fuel + 1) c2 _ hrun rfl hne
    refine ⟨c3, c2_sat_loop_stops ops (fuel + 1) c2 c3 hready hround ?_, hstate, ?_⟩
    · rw [hstate]; exact hne
    · unfold c2_sat_return_result
      cases c2_result c3 <;> rfl

/-- The hypotheses of claim C17 hold for `after_decision_c2`, and its SAT
solver does not report SAT with `no_clause_unsat_ops`; the result of the loop
is `CADET_RESULT_SAT`. -/
theorem c2_run_no_learnt_clause_witness :
    (0 < 6 ∧ c2_is_in_conflcit (c2_propagate no_clause_unsat_ops after_decision_c2) = true
      ∧ (c2_run_closed_clause no_clause_unsat_ops
          (c2_propagate no_clause_unsat_ops after_decision_c2)).2 = none) ∧
    (c2_run no_clause_unsat_ops 1 after_decision_c2 6
        = .ok (c2_run_close_case no_clause_unsat_ops
            (c2_propagate no_clause_unsat_ops after_decision_c2))
      ∧ ∃ c3, c2_sat_loop no_clause_unsat_ops 2 after_decision_c2 = .ok c3 ∧
          c3.state = C2_STATE.C2_SAT) :=
  have h := (c2_run_no_learnt_clause no_clause_unsat_ops 0 after_decision_c2 6 (by decide)
    (by with_unfolding_all rfl) (by with_unfolding_all rfl)).2 (by with_unfolding_all decide)
  ⟨⟨by decide, by with_unfolding_all rfl, by with_unfolding_all rfl⟩, h.1,
    (h.2.2.2 (by with_unfolding_all rfl) (by with_unfolding_all rfl)
      (by with_unfolding_all decide)).imp (fun _ hc => ⟨hc.1, hc.2.1⟩)⟩

/-- Claim C17 (counterexample).  With a conflict analysis that returns the
empty conflict, the engine after the decision on variable 1 is in a conflict
and closing the learnt clause yields no clause.  When the SAT solver reports
SAT, `c2_run` and `c2_sat` abort instead of moving to `C2_CLOSE_CASE`; when the
SAT solver reports UNSAT, `c2_run` returns in state `C2_CLOSE_CASE` and `c2_sat`
reports `CADET_RESULT_SAT`, the state that `c2_close_case` leaves, not
`CADET_RESULT_UNSAT`. -/
theorem c2_run_no_learnt_clause_counterexample :
    c2_is_in_conflcit (c2_propagate no_clause_sat_ops after_decision_c2) = true
    ∧ (c2_run_closed_clause no_clause_sat_ops
        (c2_propagate no_clause_sat_ops after_decision_c2)).2 = none
    ∧ (no_clause_sat_ops.satsolver_sat (c2_propagate no_clause_sat_ops after_decision_c2).skolem).2
        = sat_res.SATSOLVER_SAT
    ∧ c2_run no_clause_sat_ops 1 after_decision_c2 6
        = .error (Failure.abort Abort.conflict_clause_could_not_be_created)
    ∧ c2_sat no_clause_sat_ops 3 free_decision_c2
        = .error (Failure.abort Abort.conflict_clause_could_not_be_created)
    ∧ (no_clause_unsat_ops.satsolver_sat
        (c2_propagate no_clause_unsat_ops after_decision_c2).skolem).2 = sat_res.SATSOLVER_UNSAT
    ∧ (c2_run no_clause_unsat_ops 1 after_decision_c2 6).map (fun c => c.state)
        = .ok C2_STATE.C2_CLOSE_CASE
    ∧ (c2_sat no_clause_unsat_ops 3 free_decision_c2).map (fun r => r.1)
        = .ok cadet_res.CADET_RESULT_SAT := by
  refine ⟨?_, ?_, ?_, ?_, ?_, ?_, ?_, ?_⟩ <;> with_unfolding_all rfl

/-! ## C18: the external abort in reinforcement-learning mode -/

/-- In reinforcement-learning mode, the branch without conflict returns in
state `C2_ABORT_RL` when the external decision is `0`. -/
lemma c2_run_no_conflict_rl_abort (ops : Ops H) (c2 : C2 H) (n picked : Nat)
    (hcan : ops.skolem_can_propagate c2.skolem = false)
    (hstate : (ops.c2_casesplits_assume_single_lit c2).1.state = C2_STATE.C2_READY)
    (hprog : (ops.c2_casesplits_assume_single_lit c2).2 = false)
    (hpick : c2_pick_most_active_notdeterministic_variable ops
      (ops.c2_casesplits_assume_single_lit c2).1 = some picked)
    (hrl : (ops.c2_casesplits_assume_single_lit c2).1.options.reinforcement_learning = true)
    (hd : ops.c2_rl_get_decision (ops.c2_casesplits_assume_single_lit c2).1 n = 0) :
    c2_run_no_conflict ops c2 n
      = .ok (RunStep.done
          { (ops.c2_casesplits_assume_single_lit c2).1 with state := C2_STATE.C2_ABORT_RL }) := by
  unfold c2_run_no_conflict
  simp [hcan, hstate, hprog, hpick, hrl, hd]

/-- The function `c2_result` aborts in state `C2_ABORT_RL`. -/
lemma c2_sat_return_result_abort_rl (c2 : C2 H) (h : c2.state = C2_STATE.C2_ABORT_RL) :
    c2_sat_return_result c2
      = .error (Failure.abort Abort.c2_result_called_in_illegal_state) := by
  unfold c2_sat_return_result c2_result
  rw [h]

/-- Claim C18.  In reinforcement-learning mode, when the external decision
callback returns `0` at a decision point (no conflict after `c2_propagate`,
nothing to propagate, no case split, a nondeterministic variable exists),
`c2_run` moves the engine to state `C2_ABORT_RL` and returns without taking a
decision: the engine it returns differs from the one at the decision point only
in its state.  The restart loop of `c2_sat` then ends with that engine, and the
result is not `CADET_RESULT_UNKNOWN`: `c2_result` has no case for
`C2_ABORT_RL` and the program aborts. -/
theorem c2_sat_external_abort (ops : Ops H) (fuel : Nat) (c2 : C2 H) (picked : Nat)
    (hn : 0 < c2.next_restart) (hready : c2.state = C2_STATE.C2_READY)
    (hconf : c2_is_in_conflcit (c2_propagate ops c2) = false)
    (hcan : ops.skolem_can_propagate (c2_propagate ops c2).skolem = false)
    (hstate : (ops.c2_casesplits_assume_single_lit (c2_propagate ops c2)).1.state
      = C2_STATE.C2_READY)
    (hprog : (ops.c2_casesplits_assume_single_lit (c2_propagate ops c2)).2 = false)
    (hpick : c2_pick_most_active_notdeterministic_variable ops
      (ops.c2_casesplits_assume_single_lit (c2_propagate ops c2)).1 = some picked)
    (hrl : (ops.c2_casesplits_assume_single_lit
      (c2_propagate ops c2)).1.options.reinforcement_learning = true)
    (hd : ops.c2_rl_get_decision (ops.c2_casesplits_assume_single_lit (c2_propagate ops c2)).1
      c2.next_restart = 0) :
    c2_run ops (fuel + 1) c2 c2.next_restart
      = .ok { (ops.c2_casesplits_assume_single_lit (c2_propagate ops c2)).1 with
              state := C2_STATE.C2_ABORT_RL }
    ∧ ∃ c3, c2_sat_loop ops (fuel + 2) c2 = .ok c3 ∧ c3.state = C2_STATE.C2_ABORT_RL
        ∧ c2_sat_return_result c3
          = .error (Failure.abort Abort.c2_result_called_in_illegal_state) := by
  have hrun : c2_run ops (fuel + 1) c2 c2.next_restart
      = .ok { (ops.c2_casesplits_assume_single_lit (c2_propagate ops c2)).1 with
              state := C2_STATE.C2_ABORT_RL } := by
    rw [c2_run, if_pos hn]
    unfold c2_run_iteration
    simp only [hconf]
    rw [if_neg (by simp),
      c2_run_no_conflict_rl_abort ops _ _ picked hcan hstate hprog hpick hrl hd]
  refine ⟨hrun, ?_⟩
  obtain ⟨c3, hround, hst⟩ := c2_sat_round_other_state ops (fuel + 1) c2 _ hrun
    (by simp) (by simp)
  have hst3 : c3.state = C2_STATE.C2_ABORT_RL := hst
  refine ⟨c3, c2_sat_loop_stops ops (fuel + 1) c2 c3 hready hround ?_, hst3,
    c2_sat_return_result_abort_rl c3 hst3⟩
  rw [hst3]; simp

/-- The pick of the scan on the engine `rl_c2`. -/
lemma rl_c2_pick :
    c2_pick_most_active_notdeterministic_variable mini_ops rl_c2 = some 1 := by
  with_unfolding_all rfl

/-- Claim C18, on the engine `rl_c2` with one nondeterministic variable, whose
controller answers `0`: `c2_run` returns in state `C2_ABORT_RL` and `c2_sat`
aborts in `c2_result`. -/
theorem c2_sat_external_abort_witness :
    (0 < rl_c2.next_restart ∧ rl_c2.state = C2_STATE.C2_READY
      ∧ c2_is_in_conflcit (c2_propagate mini_ops rl_c2) = false
      ∧ mini_ops.skolem_can_propagate (c2_propagate mini_ops rl_c2).skolem = false
      ∧ (mini_ops.c2_casesplits_assume_single_lit (c2_propagate mini_ops rl_c2)).1.state
        = C2_STATE.C2_READY
      ∧ (mini_ops.c2_casesplits_assume_single_lit (c2_propagate mini_ops rl_c2)).2 = false
      ∧ c2_pick_most_active_notdeterministic_variable mini_ops
        (mini_ops.c2_casesplits_assume_single_lit (c2_propagate mini_ops rl_c2)).1 = some 1
      ∧ (mini_ops.c2_casesplits_assume_single_lit
        (c2_propagate mini_ops rl_c2)).1.options.reinforcement_learning = true
      ∧ mini_ops.c2_rl_get_decision
        (mini_ops.c2_casesplits_assume_single_lit (c2_propagate mini_ops rl_c2)).1
        rl_c2.next_restart = 0) ∧
    (c2_run mini_ops 1 rl_c2 rl_c2.next_restart
      = .ok { (mini_ops.c2_casesplits_assume_single_lit (c2_propagate mini_ops rl_c2)).1 with
              state := C2_STATE.C2_ABORT_RL }
    ∧ ∃ c3, c2_sat_loop mini_ops 2 rl_c2 = .ok c3 ∧ c3.state = C2_STATE.C2_ABORT_RL
        ∧ c2_sat_return_result c3
          = .error (Failure.abort Abort.c2_result_called_in_illegal_state)) ∧
    c2_sat mini_ops 2 rl_c2 = .error (Failure.abort Abort.c2_result_called_in_illegal_state) :=
  ⟨⟨by decide, rfl, rfl, rfl, rfl, rfl, rl_c2_pick, rfl, rfl⟩,
    c2_sat_external_abort mini_ops 0 rl_c2 1 (by decide) rfl rfl rfl rfl rfl rl_c2_pick rfl rfl,
    by with_unfolding_all rfl⟩

/-! ## C19: formulas that are neither 2QBF nor propositional -/

/-- Claim C19.  For every engine whose formula is neither a 2QBF nor
propositional, `c2_sat` returns `CADET_RESULT_UNKNOWN` and leaves the engine as
it was: every component of the engine (state, Skolem domain with its decision
level, clauses, activities, statistics, restart counters) is the one before
the call, whatever the bound on the number of loop iterations. -/
theorem c2_sat_not_2QBF (ops : Ops H) (fuel : Nat) (c2 : C2 H)
    (h2 : ops.qcnf_is_2QBF c2.qcnf = false) (hp : ops.qcnf_is_propositional c2.qcnf = false) :
    c2_sat ops fuel c2 = .ok (cadet_res.CADET_RESULT_UNKNOWN, c2) := by
  unfold c2_sat
  simp [h2, hp]

/-- Claim C19, on the engine `three_vars_c2` with a formula that is neither
2QBF nor propositional. -/
theorem c2_sat_not_2QBF_witness :
    (not_2QBF_ops.qcnf_is_2QBF three_vars_c2.qcnf = false
      ∧ not_2QBF_ops.qcnf_is_propositional three_vars_c2.qcnf = false) ∧
    c2_sat not_2QBF_ops 0 three_vars_c2 = .ok (cadet_res.CADET_RESULT_UNKNOWN, three_vars_c2) :=
  ⟨⟨rfl, rfl⟩, c2_sat_not_2QBF not_2QBF_ops 0 three_vars_c2 rfl rfl⟩

/-! ## C20: the refuting assignment -/

/-- A loop over the variables `0, ..., n - 1` that appends the literal `f i`
for every listed variable `i`: every listed variable below `n` has exactly one
entry, and every entry is the literal of a listed variable below `n`. -/
lemma listing_fold_spec (listed : Nat → Prop) [DecidablePred listed] (f : Nat → Int)
    (hf : ∀ i, listed i → lit_to_var (f i) = i) (n : Nat) :
    (∀ l ∈ (List.range n).foldl (fun a i => if listed i then a ++ [f i] else a) [],
        lit_to_var l < n ∧ listed (lit_to_var l) ∧ l = f (lit_to_var l)) ∧
    (∀ v, v < n → listed v →
      ((List.range n).foldl (fun a i => if listed i then a ++ [f i] else a) []).countP
        (fun l => decide (lit_to_var l = v)) = 1) := by
  induction n with
  | zero =>
    refine ⟨?_, ?_⟩
    · intro l hl
      simp at hl
    · intro v hv
      exact absurd hv (Nat.not_lt_zero v)
  | succ n ih =>
    obtain ⟨ihA, ihB⟩ := ih
    rw [List.range_succ, List.foldl_append]
    simp only [List.foldl_cons, List.foldl_nil]
    by_cases hn : listed n
    · rw [if_pos hn]
      refine ⟨?_, ?_⟩
      · intro l hl
        rcases List.mem_append.1 hl with h | h
        · obtain ⟨h1, h2, h3⟩ := ihA l h
          exact ⟨Nat.lt_succ_of_lt h1, h2, h3⟩
        · have hl' : l = f n := by simpa using h
          have hv : lit_to_var l = n := by rw [hl']; exact hf n hn
          rw [hv]
          exact ⟨Nat.lt_succ_self n, hn, hl'⟩
      · intro v hv hlisted
        rw [List.countP_append]
        rcases Nat.lt_succ_iff_lt_or_eq.1 hv with hlt | heq
        · rw [ihB v hlt hlisted]
          have hne : ¬ lit_to_var (f n) = v := by
            rw [hf n hn]
            exact fun h => absurd (h ▸ hlt) (Nat.lt_irrefl _)
          simp [List.countP_cons, hne]
        · subst heq
          have h0 : ((List.range v).foldl (fun a i => if listed i then a ++ [f i] else a)
              []).countP (fun l => decide (lit_to_var l = v)) = 0 := by
            rw [List.countP_eq_zero]
            intro l hl
            have := (ihA l hl).1
            simp only [decide_eq_true_eq]
            exact fun h => absurd (h ▸ this) (Nat.lt_irrefl _)
          rw [h0]
          simp [List.countP_cons, hf v hn]
    · rw [if_neg hn]
      refine ⟨?_, ?_⟩
      · intro l hl
        obtain ⟨h1, h2, h3⟩ := ihA l hl
        exact ⟨Nat.lt_succ_of_lt h1, h2, h3⟩
      · intro v hv hlisted
        rcases Nat.lt_succ_iff_lt_or_eq.1 hv with hlt | heq
        · exact ihB v hlt hlisted
        · subst heq
          exact absurd hlisted hn

/-- A literal is its variable or the negation of its variable. -/
lemma lit_eq_var_or_neg (l : Lit) : l = (lit_to_var l : Int) ∨ l = - (lit_to_var l : Int) := by
  unfold lit_to_var
  rcases Int.natAbs_eq l with h | h
  · exact Or.inl h
  · exact Or.inr h

/-- Claim C20 (amended).  Let the engine be in state `C2_UNSAT` with at most
`2 ^ 31` variable slots, let `cegar_get_val` return `1` or `-1` and
`skolem_get_value_for_conflict_analysis` return `1`, `-1` or `0`.  Then
`c2_refuting_assignment` returns a vector that contains exactly one literal for
every listed variable and no other entry, and the entry of a variable `v` is
`value * v`, so it is `v` or `-v`.  Listed are the existing original universal
variables when the solver `exists_solver` is in state UNSAT, and otherwise
those of them whose value in the Skolem domain is not `0`. -/
theorem c2_refuting_assignment_spec (ops : Ops H) (c2 : C2 H)
    (hstate : c2.state = C2_STATE.C2_UNSAT)
    (hsize : var_vector_count c2.qcnf.vars ≤ 2 ^ 31)
    (hcegar : ∀ lit, ops.cegar_get_val c2.skolem lit = 1 ∨ ops.cegar_get_val c2.skolem lit = -1)
    (hskolem : ∀ lit, ops.skolem_get_value_for_conflict_analysis c2.skolem lit = 1
      ∨ ops.skolem_get_value_for_conflict_analysis c2.skolem lit = -1
      ∨ ops.skolem_get_value_for_conflict_analysis c2.skolem lit = 0) :
    ∃ a, c2_refuting_assignment ops c2 = .ok a ∧
      (∀ v, RefutingListed ops c2 v → a.countP (fun l => decide (lit_to_var l = v)) = 1) ∧
      (∀ l ∈ a, RefutingListed ops c2 (lit_to_var l)
        ∧ l = refuting_value ops c2 (lit_to_var l) * (lit_to_var l : Int)
        ∧ (l = (lit_to_var l : Int) ∨ l = - (lit_to_var l : Int))) := by
  classical
  have hval : ∀ i, RefutingListed ops c2 i →
      refuting_value ops c2 i = 1 ∨ refuting_value ops c2 i = -1 := by
    intro i hi
    by_cases hu : ops.satsolver_state_exists_solver c2.cs = sat_res.SATSOLVER_UNSAT
    · unfold refuting_value
      rw [if_pos hu]
      exact hcegar _
    · have hne := hi.2.2 hu
      unfold refuting_value at hne ⊢
      rw [if_neg hu] at hne ⊢
      rcases hskolem (unsigned_to_int i) with h | h | h
      · exact Or.inl h
      · exact Or.inr h
      · exact absurd h hne
  have hf : ∀ i, RefutingListed ops c2 i →
      lit_to_var (refuting_value ops c2 i * (i : Int)) = i :=
    fun i hi => lit_to_var_phase_mul _ i (hval i hi)
  have hfold : c2_refuting_assignment ops c2
      = .ok ((List.range (var_vector_count c2.qcnf.vars)).foldl
          (fun a i => if RefutingListed ops c2 i then a ++ [refuting_value ops c2 i * (i : Int)]
            else a) []) := by
    unfold c2_refuting_assignment
    rw [if_neg (by simp [hstate])]
    by_cases hu : ops.satsolver_state_exists_solver c2.cs = sat_res.SATSOLVER_UNSAT
    · rw [if_pos hu]
      congr 1
      apply List.foldl_ext
      intro a i hi
      have hlt : i < var_vector_count c2.qcnf.vars := List.mem_range.1 hi
      have hcast := unsigned_to_int_of_lt i (lt_of_lt_of_le hlt hsize)
      unfold refuting_step_cegar
      by_cases he : refuting_eligible ops c2 i = true
      · have hl : RefutingListed ops c2 i := ⟨hlt, he, fun h => absurd hu h⟩
        rw [if_pos he, if_pos hl]
        simp only [refuting_value, if_pos hu, hcast]
      · have hl : ¬ RefutingListed ops c2 i := fun h => he h.2.1
        rw [if_neg he, if_neg hl]
    · rw [if_neg hu]
      congr 1
      apply List.foldl_ext
      intro a i hi
      have hlt : i < var_vector_count c2.qcnf.vars := List.mem_range.1 hi
      have hcast := unsigned_to_int_of_lt i (lt_of_lt_of_le hlt hsize)
      unfold refuting_step_skolem
      by_cases he : refuting_eligible ops c2 i = true
      · rw [if_pos he]
        by_cases hz : ops.skolem_get_value_for_conflict_analysis c2.skolem (unsigned_to_int i) = 0
        · have hl : ¬ RefutingListed ops c2 i := by
            intro h
            have := h.2.2 hu
            unfold refuting_value at this
            rw [if_neg hu] at this
            exact this hz
          rw [if_neg hl]
          simp only [hz, ne_eq, not_true_eq_false, if_false]
        · have hl : RefutingListed ops c2 i := by
            refine ⟨hlt, he, fun _ => ?_⟩
            unfold refuting_value
            rw [if_neg hu]
            exact hz
          rw [if_pos hl]
          simp only [ne_eq, refuting_value, if_neg hu, hcast]
          rw [hcast] at hz
          rw [if_pos hz]
      · have hl : ¬ RefutingListed ops c2 i := fun h => he h.2.1
        rw [if_neg he, if_neg hl]
  obtain ⟨hA, hB⟩ := listing_fold_spec (RefutingListed ops c2)
    (fun i => refuting_value ops c2 i * (i : Int)) hf (var_vector_count c2.qcnf.vars)
  refine ⟨_, hfold, fun v hv => hB v hv.1 hv, fun l hl => ?_⟩
  obtain ⟨_, h2, h3⟩ := hA l hl
  exact ⟨h2, h3, lit_eq_var_or_neg l⟩

/-- Claim C20, on the engine `refuting_c2` with the solver `exists_solver` in
state UNSAT: the refuting assignment is the literal `1` of the universal
variable 1. -/
theorem c2_refuting_assignment_spec_witness :
    (refuting_c2.state = C2_STATE.C2_UNSAT ∧ var_vector_count refuting_c2.qcnf.vars ≤ 2 ^ 31
      ∧ (∀ lit, cegar_unsat_ops.cegar_get_val refuting_c2.skolem lit = 1
          ∨ cegar_unsat_ops.cegar_get_val refuting_c2.skolem lit = -1)
      ∧ (∀ lit, cegar_unsat_ops.skolem_get_value_for_conflict_analysis refuting_c2.skolem lit = 1
          ∨ cegar_unsat_ops.skolem_get_value_for_conflict_analysis refuting_c2.skolem lit = -1
          ∨ cegar_unsat_ops.skolem_get_value_for_conflict_analysis refuting_c2.skolem lit = 0)) ∧
    c2_refuting_assignment cegar_unsat_ops refuting_c2 = .ok [1] ∧
    (∃ a, c2_refuting_assignment cegar_unsat_ops refuting_c2 = .ok a ∧
      (∀ v, RefutingListed cegar_unsat_ops refuting_c2 v →
        a.countP (fun l => decide (lit_to_var l = v)) = 1) ∧
      (∀ l ∈ a, RefutingListed cegar_unsat_ops refuting_c2 (lit_to_var l)
        ∧ l = refuting_value cegar_unsat_ops refuting_c2 (lit_to_var l) * (lit_to_var l : Int)
        ∧ (l = (lit_to_var l : Int) ∨ l = - (lit_to_var l : Int)))) :=
  ⟨⟨rfl, by decide, fun _ => Or.inl rfl, fun _ => Or.inr (Or.inr rfl)⟩, rfl,
    c2_refuting_assignment_spec cegar_unsat_ops refuting_c2 rfl (by decide)
      (fun _ => Or.inl rfl) (fun _ => Or.inr (Or.inr rfl))⟩

/-- Claim C20 (counterexample).  The engine `refuting_c2` is in state
`C2_UNSAT`, its variable 1 exists, is universal and is original, the solver
`exists_solver` is not in state UNSAT and the value of the variable in the
Skolem domain is `0`: the refuting assignment is empty, so it holds no literal
of variable 1. -/
theorem c2_refuting_assignment_counterexample :
    refuting_c2.state = C2_STATE.C2_UNSAT
    ∧ refuting_eligible mini_ops refuting_c2 1 = true
    ∧ mini_ops.satsolver_state_exists_solver refuting_c2.cs ≠ sat_res.SATSOLVER_UNSAT
    ∧ mini_ops.skolem_get_value_for_conflict_analysis refuting_c2.skolem 1 = 0
    ∧ c2_refuting_assignment mini_ops refuting_c2 = .ok []
    ∧ ∀ a, c2_refuting_assignment mini_ops refuting_c2 = .ok a →
        a.countP (fun l => decide (lit_to_var l = 1)) = 0 := by
  have h : c2_refuting_assignment mini_ops refuting_c2 = .ok [] := rfl
  refine ⟨rfl, by decide, by decide, rfl, h, ?_⟩
  intro a ha
  rw [h] at ha
  cases ha
  rfl

lemma StepCodeOk.ite {c : Prop} [Decidable c] {a b : ScanStep} (ha : StepCodeOk a)
    (hb : StepCodeOk b) : StepCodeOk (if c then a else b) := by
  split_ifs <;> assumption

lemma StepCodeOk.next (skip : Bool) (st : MainState) : StepCodeOk (ScanStep.next skip st) := by
  intro site code st' h
  cases h

lemma StepCodeOk.stop (st : MainState) : StepCodeOk (ScanStep.stop st) := by
  intro site code st' h
  cases h

lemma StepCodeOk.returned (site : UsageExit) (code : Int) (st : MainState)
    (h : code = usage_exit_code site) : StepCodeOk (ScanStep.returned site code st) := by
  intro site' code' st' h'
  cases h'
  exact h

/-- The case `'v'` returns with exit code 1. -/
lemma scan_verbosity_exit_code (env : MainEnv) (rest : List String) (st : MainState) :
    StepCodeOk (scan_verbosity env rest st) := by
  unfold scan_verbosity
  cases rest with
  | nil => exact StepCodeOk.returned _ _ _ rfl
  | cons value rest =>
    simp only
    repeat' apply StepCodeOk.ite
    all_goals first
      | exact StepCodeOk.next _ _
      | exact StepCodeOk.returned _ _ _ rfl

lemma scan_certificate_accept_exit_code (st : MainState) :
    StepCodeOk (scan_certificate_accept st) := StepCodeOk.next _ _

/-- The case `'c'` returns with exit code 1 when the file name is missing and
with exit code 0 when the extension is rejected. -/
lemma scan_certificate_exit_code (env : MainEnv) (rest : List String) (st : MainState) :
    StepCodeOk (scan_certificate env rest st) := by
  unfold scan_certificate
  cases rest with
  | nil => exact StepCodeOk.returned _ _ _ rfl
  | cons name rest =>
    simp only
    apply StepCodeOk.ite
    · cases env.get_filename_ext name with
      | none => exact StepCodeOk.returned _ _ _ rfl
      | some ext =>
        simp only
        repeat' apply StepCodeOk.ite
        all_goals first
          | exact scan_certificate_accept_exit_code _
          | exact StepCodeOk.returned _ _ _ rfl
    · exact scan_certificate_accept_exit_code _

/-- The long arguments return with exit code 1. -/
lemma scan_long_exit_code (arg : String) (rest : List String) (st : MainState) :
    StepCodeOk (scan_long arg rest st) := by
  unfold scan_long
  repeat' apply StepCodeOk.ite
  all_goals first
    | exact StepCodeOk.next _ _
    | exact StepCodeOk.returned _ _ _ rfl
    | (cases rest
       · exact StepCodeOk.returned _ _ _ rfl
       · exact StepCodeOk.next _ _)

/-- The body of the argument loop returns with the exit code `usage_exit_code`. -/
lemma scan_arg_exit_code (env : MainEnv) (arg : String) (rest : List String) (st : MainState) :
    StepCodeOk (scan_arg env arg rest st) := by
  unfold scan_arg
  split
  · unfold scan_switch
    repeat' apply StepCodeOk.ite
    all_goals first
      | exact StepCodeOk.next _ _
      | exact StepCodeOk.returned _ _ _ rfl
      | exact scan_certificate_exit_code _ _ _
      | exact scan_verbosity_exit_code _ _ _
      | exact scan_long_exit_code _ _ _
      | (cases rest
         · exact StepCodeOk.returned _ _ _ rfl
         · exact StepCodeOk.next _ _)
  · exact StepCodeOk.stop _

/-- The argument loop returns with the exit code `usage_exit_code`. -/
lemma scan_args_exit_code (env : MainEnv) :
    ∀ (n : Nat) (args : List String), args.length ≤ n → ∀ (st st' : MainState)
      (site : UsageExit) (code : Int),
      scan_args env args st = ScanResult.returned site code st' → code = usage_exit_code site := by
  intro n
  induction n with
  | zero =>
    intro args hlen st st' site code h
    have : args = [] := List.length_eq_zero.mp (Nat.le_zero.mp hlen)
    subst this
    simp [scan_args] at h
  | succ n ih =>
    intro args hlen st st' site code h
    cases args with
    | nil => simp [scan_args] at h
    | cons arg rest =>
      have hrest : rest.length ≤ n := by simpa using hlen
      rw [scan_args] at h
      have hok := scan_arg_exit_code env arg rest st
      generalize scan_arg env arg rest st = step at h hok
      cases step with
      | returned site1 code1 st1 =>
        simp only at h
        cases h
        exact hok _ _ _ rfl
      | stop st1 => simp at h
      | next skip st1 =>
        cases skip with
        | false => exact ih rest hrest st1 st' site code h
        | true =>
          cases rest with
          | nil => simp at h
          | cons value rest2 =>
            simp only at h
            exact ih rest2 (by simp at hrest; omega) st1 st' site code h

/-- The call of the solver is not a `return` inside the argument loop. -/
lemma main_run_ne_usage (env : MainEnv) (st : MainState) (site : UsageExit) (code : Int) :
    main_run env st ≠ MainResult.usage site code := by
  unfold main_run
  split_ifs <;> simp

/-- The part of `main` after the argument loop does not end with a `return`
inside the argument loop. -/
lemma main_solve_ne_usage (env : MainEnv) (st : MainState) (site : UsageExit) (code : Int) :
    main_solve env st ≠ MainResult.usage site code := by
  unfold main_solve
  split
  · exact main_run_ne_usage env st site code
  · split
    · simp
    · split_ifs
      all_goals first
        | exact main_run_ne_usage env st site code
        | simp

/-- A `return` inside the argument loop is the result of `main`. -/
lemma main_usage_iff (env : MainEnv) (argv : List String) (site : UsageExit) (code : Int) :
    main env argv = MainResult.usage site code ↔
      ∃ st, scan_args env argv.tail (main_initial_state env)
        = ScanResult.returned site code st := by
  unfold main
  constructor
  · intro h
    split at h
    · rename_i site1 code1 st1 hscan
      cases h
      exact ⟨st1, hscan⟩
    · exact absurd h (main_solve_ne_usage env _ site code)
  · rintro ⟨st, h⟩
    rw [h]

/-- Claim C21.  Every `return` of `main` inside its argument loop happens
before the input is opened, so no solver is started, and its exit code is 1
for an unknown short or long option, for a missing value after `-c`, `-v`,
`-s` or `--aiger_controllable_inputs` and for a verbosity number outside 0..4.
For a certificate file name whose extension is missing or is not `aig` or
`aag` the exit code is 0, not 1: `cadet -c cert.txt` and `cadet -c cert`
return 0. -/
theorem main_usage_error_exit_code :
    (∀ (env : MainEnv) (argv : List String) (site : UsageExit) (code : Int),
      main env argv = MainResult.usage site code →
        code = usage_exit_code site ∧ (main env argv).solving_started = false) ∧
    (∀ (env : MainEnv) (name : String) (rest : List String) (st : MainState),
      name ≠ "stdout" →
      (∀ ext, env.get_filename_ext name = some ext → ext ≠ "aig" ∧ ext ≠ "aag") →
      ∃ site st', scan_args env ("-c" :: name :: rest) st = ScanResult.returned site 0 st'
        ∧ (site = UsageExit.certificate_extension_missing
          ∨ site = UsageExit.certificate_extension_unknown)) ∧
    main mini_env ["cadet", "-c", "cert.txt"]
      = MainResult.usage UsageExit.certificate_extension_unknown 0 ∧
    main mini_env ["cadet", "-c", "cert"]
      = MainResult.usage UsageExit.certificate_extension_missing 0 ∧
    usage_exit_code UsageExit.certificate_extension_unknown
      ≠ expected_usage_exit_code UsageExit.certificate_extension_unknown ∧
    usage_exit_code UsageExit.certificate_extension_missing
      ≠ expected_usage_exit_code UsageExit.certificate_extension_missing ∧
    (∀ site, site ≠ UsageExit.certificate_extension_unknown →
      site ≠ UsageExit.certificate_extension_missing →
      usage_exit_code site = expected_usage_exit_code site) ∧
    main mini_env ["cadet", "-x"] = MainResult.usage UsageExit.unknown_argument 1 ∧
    main mini_env ["cadet", "--unknown"] = MainResult.usage UsageExit.unknown_long_argument 1 ∧
    main mini_env ["cadet", "-c"] = MainResult.usage UsageExit.certificate_file_name_missing 1 ∧
    main mini_env ["cadet", "-v"] = MainResult.usage UsageExit.verbosity_number_missing 1 ∧
    main mini_env ["cadet", "-s"] = MainResult.usage UsageExit.missing_seed_number 1 ∧
    main mini_env ["cadet", "--aiger_controllable_inputs"]
      = MainResult.usage UsageExit.missing_controllable_inputs_string 1 ∧
    main mini_env ["cadet", "-v", "5"] = MainResult.usage UsageExit.illegal_verbosity_number 1 ∧
    main mini_env ["cadet", "-v", "-1"]
      = MainResult.usage UsageExit.illegal_verbosity_number 1 := by
  refine ⟨?_, ?_, by decide, by decide, by decide, by decide, ?_, by decide, by decide, by decide,
    by decide, by decide, by decide, by decide, by decide⟩
  · intro env argv site code h
    obtain ⟨st, hscan⟩ := (main_usage_iff env argv site code).1 h
    refine ⟨scan_args_exit_code env _ _ le_rfl _ st site code hscan, ?_⟩
    rw [h]
    rfl
  · intro env name rest st hname hext
    have hstep : ∃ site st', scan_arg env "-c" (name :: rest) st = ScanStep.returned site 0 st'
        ∧ (site = UsageExit.certificate_extension_missing
          ∨ site = UsageExit.certificate_extension_unknown) := by
      have hc : scan_arg env "-c" (name :: rest) st = scan_certificate env (name :: rest) st := rfl
      rw [hc]
      unfold scan_certificate
      simp only
      rw [if_pos hname]
      cases hget : env.get_filename_ext name with
      | none => exact ⟨_, _, rfl, Or.inl rfl⟩
      | some ext =>
        obtain ⟨h1, h2⟩ := hext ext hget
        simp only
        rw [if_neg h1, if_neg h2]
        by_cases hl : ext.length ≠ 3
        · rw [if_pos hl]
          exact ⟨_, _, rfl, Or.inl rfl⟩
        · rw [if_neg hl]
          exact ⟨_, _, rfl, Or.inr rfl⟩
    obtain ⟨site, st', hs, hsite⟩ := hstep
    refine ⟨site, st', ?_, hsite⟩
    rw [scan_args, hs]
  · intro site h1 h2
    cases site <;> first | rfl | exact absurd rfl h1 | exact absurd rfl h2

/-! ## C22: the option `-p` -/

/-- The case `'v'` with a verbosity number from 0 to 4 stores the number, sets
`debug_verbosity` and advances over the number. -/
lemma scan_verbosity_accepts (env : MainEnv) (value : String) (rest : List String)
    (st : MainState) (h0 : 0 ≤ env.strtol value) (h4 : env.strtol value ≤ 4) :
    ∃ dv, scan_verbosity env (value :: rest) st
      = ScanStep.next true { st with verbosity := env.strtol value, debug_verbosity := dv } := by
  unfold scan_verbosity
  simp only
  have hcases : env.strtol value = 0 ∨ env.strtol value = 1 ∨ env.strtol value = 2
      ∨ env.strtol value = 3 ∨ env.strtol value = 4 := by omega
  rcases hcases with h | h | h | h | h <;> rw [h] <;> exact ⟨_, rfl⟩

/-- The case `'v'` with a verbosity number outside 0..4 makes `main` return 1. -/
lemma scan_verbosity_rejects (env : MainEnv) (value : String) (rest : List String)
    (st : MainState) (h : ¬ (0 ≤ env.strtol value ∧ env.strtol value ≤ 4)) :
    scan_verbosity env (value :: rest) st
      = ScanStep.returned UsageExit.illegal_verbosity_number 1
          { st with verbosity := env.strtol value } := by
  unfold scan_verbosity
  simp only
  rw [if_neg (by omega), if_neg (by omega), if_neg (by omega), if_neg (by omega),
    if_neg (by omega)]

/-- The case `'p'` clears the easy-debugging flag and goes on with the case `'v'`. -/
lemma scan_arg_p (env : MainEnv) (rest : List String) (st : MainState) :
    scan_arg env "-p" rest st
      = scan_verbosity env rest
          { st with options := { st.options with easy_debugging_mode_c2 := false } } := rfl

/-- The case `'v'`. -/
lemma scan_arg_v (env : MainEnv) (rest : List String) (st : MainState) :
    scan_arg env "-v" rest st = scan_verbosity env rest st := rfl

/-- Claim C22.  The case `'p'` of the switch in `main` assigns `false` to
`easy_debugging_mode_c2` and has no `break`: it falls through into the case
`'v'`.  So `-p` is handled as `-v` is: as the last argument it makes `main`
return 1 ("Verbosity number missing"), and otherwise the argument that follows
it is consumed as the verbosity number, which makes `main` return 1 when the
number is outside 0..4.  With `cadet -p formula.qdimacs` the file name is
consumed and the solver reads the standard input; and the easy-debugging
configuration is off after `-p` even when it was on by default. -/
theorem main_option_p_falls_through :
    (∀ (env : MainEnv) (rest : List String) (st : MainState),
      scan_args env ("-p" :: rest) st
        = scan_args env ("-v" :: rest)
            { st with options := { st.options with easy_debugging_mode_c2 := false } }) ∧
    (∀ (env : MainEnv) (name : String),
      main env [name, "-p"] = MainResult.usage UsageExit.verbosity_number_missing 1) ∧
    (∀ (env : MainEnv) (value : String) (rest : List String) (st : MainState),
      0 ≤ env.strtol value → env.strtol value ≤ 4 →
      ∃ st', scan_args env ("-p" :: value :: rest) st = scan_args env rest st'
        ∧ st'.options.easy_debugging_mode_c2 = false ∧ st'.verbosity = env.strtol value
        ∧ st'.file_name = st.file_name) ∧
    (∀ (env : MainEnv) (value : String) (rest : List String) (st : MainState),
      ¬ (0 ≤ env.strtol value ∧ env.strtol value ≤ 4) →
      ∃ st', scan_args env ("-p" :: value :: rest) st
        = ScanResult.returned UsageExit.illegal_verbosity_number 1 st') ∧
    main mini_env ["cadet", "-p"] = MainResult.usage UsageExit.verbosity_number_missing 1 ∧
    main mini_env ["cadet"] = MainResult.cadet2 30 ∧
    main mini_env ["cadet", "-p", "formula.qdimacs"] = MainResult.cadet2 30 ∧
    main mini_env ["cadet", "formula.qdimacs"] = MainResult.cadet2 10 ∧
    main mini_env ["cadet", "-p", "7", "formula.qdimacs"]
      = MainResult.usage UsageExit.illegal_verbosity_number 1 ∧
    (main_initial_state easy_debugging_env).options.easy_debugging_mode_c2 = true ∧
    (∃ st, scan_args easy_debugging_env ["-p", "0"] (main_initial_state easy_debugging_env)
        = ScanResult.scanned st ∧ st.options.easy_debugging_mode_c2 = false) := by
  refine ⟨?_, ?_, ?_, ?_, by decide, by decide, by decide, by decide, by decide, rfl,
    ⟨_, rfl, rfl⟩⟩
  · intro env rest st
    rw [scan_args, scan_args, scan_arg_p, scan_arg_v]
  · intro env name
    rfl
  · intro env value rest st h0 h4
    obtain ⟨dv, hv⟩ := scan_verbosity_accepts env value rest
      { st with options := { st.options with easy_debugging_mode_c2 := false } } h0 h4
    refine ⟨{ st with
      options := { st.options with easy_debugging_mode_c2 := false },
      verbosity := env.strtol value, debug_verbosity := dv }, ?_, rfl, rfl, rfl⟩
    rw [scan_args, scan_arg_p, hv]
  · intro env value rest st h
    refine ⟨{ st with
      options := { st.options with easy_debugging_mode_c2 := false },
      verbosity := env.strtol value }, ?_⟩
    rw [scan_args, scan_arg_p, scan_verbosity_rejects env value rest _ h]

/-! ## C23: the decay through `c2_get_activity` -/

/-- Claim C23.  For an activity factor of at least 1 and a decay rate `r` in
(0,1), in exact arithmetic, `c2_decay_activity` multiplies the effective
activity `c2_get_activity(v)` of every existing variable `v` by `r`: in the
lazy branch, where only the factor changes, and in the rescaling branch, where
the stored values change.  Hence two engines with the same decay rate, in
whichever branches, that agree on the effective activity of a variable before
the decay agree on it after the decay. -/
theorem c2_get_activity_after_decay (c2 c2' : C2 H) (v v' : Nat)
    (hf : 1 ≤ c2.activity_factor) (hr0 : 0 < c2.magic.decay_rate)
    (hr1 : c2.magic.decay_rate < 1) (hv : var_exists c2 v)
    (hf' : 1 ≤ c2'.activity_factor) (hr0' : 0 < c2'.magic.decay_rate)
    (hr1' : c2'.magic.decay_rate < 1) (hv' : var_exists c2' v') :
    c2_get_activity (c2_decay_activity c2) v = c2.magic.decay_rate * c2_get_activity c2 v ∧
    (c2.activity_factor / c2.magic.decay_rate < 1000 →
      (c2_decay_activity c2).activity_factor = c2.activity_factor / c2.magic.decay_rate
      ∧ stored_activity (c2_decay_activity c2) v = stored_activity c2 v
      ∧ c2_get_activity (c2_decay_activity c2) v
        = c2.magic.decay_rate * c2_get_activity c2 v) ∧
    (1000 ≤ c2.activity_factor / c2.magic.decay_rate →
      (c2_decay_activity c2).activity_factor = 1 / c2.magic.decay_rate
      ∧ stored_activity (c2_decay_activity c2) v = stored_activity c2 v / c2.activity_factor
      ∧ c2_get_activity (c2_decay_activity c2) v
        = c2.magic.decay_rate * c2_get_activity c2 v) ∧
    (c2'.magic.decay_rate = c2.magic.decay_rate →
      c2_get_activity c2' v' = c2_get_activity c2 v →
      c2_get_activity (c2_decay_activity c2') v'
        = c2_get_activity (c2_decay_activity c2) v) := by
  have _ := hr1
  have _ := hr1'
  have hget := c2_get_activity_decay c2 hf hr0 v hv
  have hget' := c2_get_activity_decay c2' hf' hr0' v' hv'
  obtain ⟨hlazy, hresc⟩ := c2_decay_activity_effect c2 hf hr0
  refine ⟨hget, fun h => ⟨(hlazy h).1, (hlazy h).2.2 v, hget⟩,
    fun h => ⟨(hresc h).1, (hresc h).2.2.1 v hv, hget⟩, fun hr hact => ?_⟩
  rw [hget, hget', hr, hact]

/-- The variable 1 exists in `rescale_due_c2`. -/
lemma rescale_due_c2_exists_1 : var_exists rescale_due_c2 1 := by
  unfold var_exists
  simp [rescale_due_c2, var_vector_get, mini_var]

/-- Claim C23, on the engine `three_vars_c2`, whose decay takes the lazy
branch, and the engine `rescale_due_c2`, whose decay takes the rescaling
branch: variable 1 has the effective activity 2 in both before the decay and
`0.99 * 2` in both after it. -/
theorem c2_get_activity_after_decay_witness :
    (1 ≤ three_vars_c2.activity_factor ∧ 0 < three_vars_c2.magic.decay_rate
      ∧ three_vars_c2.magic.decay_rate < 1 ∧ var_exists three_vars_c2 1
      ∧ 1 ≤ rescale_due_c2.activity_factor ∧ 0 < rescale_due_c2.magic.decay_rate
      ∧ rescale_due_c2.magic.decay_rate < 1 ∧ var_exists rescale_due_c2 1) ∧
    three_vars_c2.activity_factor / three_vars_c2.magic.decay_rate < 1000 ∧
    1000 ≤ rescale_due_c2.activity_factor / rescale_due_c2.magic.decay_rate ∧
    c2_get_activity (c2_decay_activity three_vars_c2) 1
      = three_vars_c2.magic.decay_rate * c2_get_activity three_vars_c2 1 ∧
    c2_get_activity (c2_decay_activity rescale_due_c2) 1
      = c2_get_activity (c2_decay_activity three_vars_c2) 1 :=
  have h1 : 1 ≤ three_vars_c2.activity_factor := le_of_eq rfl
  have h2 : 0 < three_vars_c2.magic.decay_rate := by
    show (0 : ℚ) < 99 / 100; norm_num
  have h3 : three_vars_c2.magic.decay_rate < 1 := by
    show (99 / 100 : ℚ) < 1; norm_num
  have h1' : 1 ≤ rescale_due_c2.activity_factor := by
    show (1 : ℚ) ≤ 990; norm_num
  have h2' : 0 < rescale_due_c2.magic.decay_rate := by
    show (0 : ℚ) < 99 / 100; norm_num
  have h3' : rescale_due_c2.magic.decay_rate < 1 := by
    show (99 / 100 : ℚ) < 1; norm_num
  have hlazy : three_vars_c2.activity_factor / three_vars_c2.magic.decay_rate < 1000 := by
    show (1 : ℚ) / (99 / 100) < 1000; norm_num
  have hresc : 1000 ≤ rescale_due_c2.activity_factor / rescale_due_c2.magic.decay_rate := by
    show (1000 : ℚ) ≤ 990 / (99 / 100); norm_num
  have hsame : c2_get_activity rescale_due_c2 1 = c2_get_activity three_vars_c2 1 := by
    show (1980 : ℚ) / 990 = 2 / 1; norm_num
  have h := c2_get_activity_after_decay three_vars_c2 rescale_due_c2 1 1 h1 h2 h3
    three_vars_c2_exists_1 h1' h2' h3' rescale_due_c2_exists_1
  ⟨⟨h1, h2, h3, three_vars_c2_exists_1, h1', h2', h3', rescale_due_c2_exists_1⟩, hlazy, hresc,
    h.1, h.2.2.2 rfl hsame⟩

/-! ## C24: the range of the backtracking level -/

/-- Casting an `unsigned` value to `int` and back gives the value again. -/
lemma int_to_unsigned_unsigned_to_int (u : Nat) :
    int_to_unsigned (unsigned_to_int u) = u % 2 ^ 32 := by
  unfold int_to_unsigned unsigned_to_int
  have hlt : u % 2 ^ 32 < 2 ^ 32 := Nat.mod_lt _ (by norm_num)
  norm_num at hlt ⊢
  split_ifs with h
  · omega
  · omega

/-- The loop that removes trailing duplicates leaves entries of the vector. -/
lemma remove_trailing_duplicates_subset (fuel : Nat) :
    ∀ (v : List Int) (x : Int), x ∈ remove_trailing_duplicates fuel v → x ∈ v := by
  induction fuel with
  | zero =>
    intro v x h
    simpa [remove_trailing_duplicates] using h
  | succ fuel ih =>
    intro v x h
    rw [remove_trailing_duplicates] at h
    split_ifs at h
    · exact List.mem_of_mem_dropLast (ih _ _ h)
    · exact h

/-- Reading inside the bounds gives an entry of the vector. -/
lemma int_vector_get_mem (v : List Int) (i : Nat) (h : i < v.length) :
    int_vector_get v i ∈ v := by
  unfold int_vector_get
  rw [List.getD_eq_getElem _ _ h]
  exact List.getElem_mem h

/-- The last entry but one of a vector of casts of levels, cast back to
`unsigned`, is at most any bound on the levels. -/
lemma second_entry_le (D : List Int) (levels : List Nat) (d : Nat)
    (hD : ∀ e ∈ D, ∃ x ∈ levels, unsigned_to_int x = e) (h : ∀ x ∈ levels, x ≤ d) :
    (if D.length > 1 then int_to_unsigned (int_vector_get D (D.length - 2)) else 0) ≤ d := by
  split_ifs with hlen
  · obtain ⟨x, hx, hxe⟩ := hD _ (int_vector_get_mem D (D.length - 2) (by omega))
    rw [← hxe, int_to_unsigned_unsigned_to_int]
    exact le_trans (Nat.mod_le _ _) (h x hx)
  · exact Nat.zero_le d

/-- The second-largest entry that `c2_determine_backtracking_lvl` reads from
the sorted vector of levels is at most any bound on the levels. -/
lemma second_largest_le (levels : List Nat) (d : Nat) (h : ∀ x ∈ levels, x ≤ d) :
    (if (remove_trailing_duplicates (int_vector_sort (levels.map unsigned_to_int)).length
          (int_vector_sort (levels.map unsigned_to_int))).length > 1 then
        int_to_unsigned (int_vector_get
          (remove_trailing_duplicates (int_vector_sort (levels.map unsigned_to_int)).length
            (int_vector_sort (levels.map unsigned_to_int)))
          ((remove_trailing_duplicates (int_vector_sort (levels.map unsigned_to_int)).length
            (int_vector_sort (levels.map unsigned_to_int))).length - 2))
      else 0) ≤ d := by
  apply second_entry_le _ levels d _ h
  intro e he
  have hsorted := remove_trailing_duplicates_subset _ _ _ he
  have hmap : e ∈ levels.map unsigned_to_int :=
    (List.perm_insertionSort _ _).mem_iff.1 hsorted
  exact List.mem_map.1 hmap

/-- The level returned by `c2_determine_backtracking_lvl` lies between
`restart_base_decision_lvl` and any bound on the levels of the literals that is
at least `restart_base_decision_lvl`. -/
lemma c2_determine_backtracking_lvl_bounds (ops : Ops H) (c2 : C2 H) (conflict : Clause)
    (d : Nat) (hlev : ∀ lit ∈ conflict.occs, conflict_level ops c2 lit ≤ d)
    (hbase : c2.restart_base_decision_lvl ≤ d) :
    c2.restart_base_decision_lvl ≤ c2_determine_backtracking_lvl ops c2 conflict
      ∧ c2_determine_backtracking_lvl ops c2 conflict ≤ d := by
  have hread : conflict.occs.map (fun lit =>
      unsigned_to_int
        (if c2.state = C2_STATE.C2_SKOLEM_CONFLICT then
          if ops.skolem_get_dlvl_for_constant c2.skolem (lit_to_var lit)
              < ops.skolem_get_decision_lvl c2.skolem (lit_to_var lit)
          then ops.skolem_get_dlvl_for_constant c2.skolem (lit_to_var lit)
          else ops.skolem_get_decision_lvl c2.skolem (lit_to_var lit)
        else ops.partial_assignment_get_decision_lvl
          (ops.examples_get_conflicted_assignment c2.examples) (lit_to_var lit)))
      = (conflict.occs.map (conflict_level ops c2)).map unsigned_to_int := by
    rw [List.map_map]
    apply List.map_congr_left
    intro lit _
    rw [read_level_eq_conflict_level]
    rfl
  have hL : ∀ x ∈ conflict.occs.map (conflict_level ops c2), x ≤ d := by
    intro x hx
    obtain ⟨lit, hlit, rfl⟩ := List.mem_map.mp hx
    exact hlev lit hlit
  have hsecond := second_largest_le _ d hL
  unfold c2_determine_backtracking_lvl
  simp only [hread]
  split_ifs with h1 h2 h2
  · exact ⟨le_refl _, hbase⟩
  · rw [if_pos h1] at hsecond
    exact ⟨not_lt.mp h2, hsecond⟩
  · exact ⟨le_refl _, hbase⟩
  · exact ⟨not_lt.mp h2, Nat.zero_le d⟩

/-- What the loop of `c2_backtrack_to_decision_lvl` leaves when it ends: a
decision level of at most the target, and the state and the statistics it
started with. -/
lemma backtrack_loop_result (ops : Ops H) (L : Nat) :
    ∀ (fuel : Nat) (c2 c2' : C2 H), backtrack_loop ops fuel c2 L = .ok c2' →
      c2'.skolem.decision_lvl ≤ L ∧ c2'.state = c2.state ∧ c2'.statistics = c2.statistics := by
  intro fuel
  induction fuel with
  | zero =>
    intro c2 c2' h
    rw [backtrack_loop] at h
    split_ifs at h with hgt
    cases h
    exact ⟨not_lt.mp hgt, rfl, rfl⟩
  | succ fuel ih =>
    intro c2 c2' h
    rw [backtrack_loop] at h
    simp only at h
    split_ifs at h with hgt
    · have := ih _ _ h
      exact this
    · cases h
      exact ⟨not_lt.mp hgt, rfl, rfl⟩

/-- The loop of `c2_backtrack_to_decision_lvl` ends after at most as many
iterations as the decision level is above the target, when `skolem_pop` lowers
the decision level by one. -/
lemma backtrack_loop_terminates (ops : Ops H) (L : Nat)
    (hpop : ∀ s : Skolem H, 0 < s.decision_lvl →
      (ops.skolem_pop s).decision_lvl + 1 = s.decision_lvl) :
    ∀ (fuel : Nat) (c2 : C2 H), c2.skolem.decision_lvl ≤ L + fuel →
      ∃ c2', backtrack_loop ops fuel c2 L = .ok c2' := by
  intro fuel
  induction fuel with
  | zero =>
    intro c2 h
    rw [backtrack_loop, if_neg (by omega)]
    exact ⟨c2, rfl⟩
  | succ fuel ih =>
    intro c2 h
    rw [backtrack_loop]
    simp only
    split_ifs with hgt
    · apply ih
      have := hpop c2.skolem (by omega)
      show (ops.skolem_pop c2.skolem).decision_lvl ≤ L + fuel
      omega
    · exact ⟨c2, rfl⟩

/-- What `c2_backtrack_to_decision_lvl` leaves for a target that is not above
the decision level. -/
lemma c2_backtrack_to_decision_lvl_result (ops : Ops H) (fuel : Nat) (c2 c2' : C2 H) (L : Nat)
    (hL : L ≤ c2.skolem.decision_lvl)
    (h : c2_backtrack_to_decision_lvl ops fuel c2 L = .ok c2') :
    c2'.skolem.decision_lvl ≤ c2.skolem.decision_lvl ∧ c2'.statistics = c2.statistics := by
  unfold c2_backtrack_to_decision_lvl at h
  split_ifs at h with heq
  · cases h
    exact ⟨le_refl _, rfl⟩
  · obtain ⟨h1, _, h3⟩ := backtrack_loop_result ops L fuel _ _ h
    exact ⟨le_trans h1 hL, h3⟩

/-- `c2_backtrack_to_decision_lvl` returns when the bound on the number of
iterations is at least the number of levels to backtrack and `skolem_pop`
lowers the decision level by one. -/
lemma c2_backtrack_to_decision_lvl_terminates (ops : Ops H) (fuel : Nat) (c2 : C2 H) (L : Nat)
    (hpop : ∀ s : Skolem H, 0 < s.decision_lvl →
      (ops.skolem_pop s).decision_lvl + 1 = s.decision_lvl)
    (hfuel : c2.skolem.decision_lvl - L ≤ fuel) :
    ∃ c2', c2_backtrack_to_decision_lvl ops fuel c2 L = .ok c2' := by
  unfold c2_backtrack_to_decision_lvl
  split_ifs with heq
  · exact ⟨c2, rfl⟩
  · apply backtrack_loop_terminates ops L hpop
    show c2.skolem.decision_lvl ≤ L + fuel
    omega

/-- The difference of two `unsigned` values in the right order. -/
lemma unsigned_sub_of_le (a b : Nat) (hb : b ≤ a) (ha : a < 2 ^ 32) :
    unsigned_sub a b = a - b := by
  unfold unsigned_sub
  norm_num at ha ⊢
  have h1 : b % 4294967296 = b := Nat.mod_eq_of_lt (by omega)
  rw [h1]
  omega

lemma c2_new_clause_statistics (ops : Ops H) (c2 : C2 H) (c : Clause) :
    (c2_new_clause ops c2 c).statistics = c2.statistics := by
  unfold c2_new_clause; simp only; split_ifs <;> rfl

lemma c2_rescale_activity_values_statistics (c2 : C2 H) :
    (c2_rescale_activity_values c2).statistics = c2.statistics := by
  unfold c2_rescale_activity_values
  simp only
  exact foldl_keeps (fun c : C2 H => c.statistics = c2.statistics) _
    (by intro a b h; split_ifs <;> exact h) _ _ rfl

lemma c2_decay_activity_statistics (c2 : C2 H) :
    (c2_decay_activity c2).statistics = c2.statistics := by
  unfold c2_decay_activity
  simp only
  split_ifs
  · rfl
  · exact c2_rescale_activity_values_statistics c2

/-- The statistic `lvls_backtracked` after the end of the conflict branch of
`c2_run`, when the backtracking level is not above the decision level: it has
grown by the number of levels between the old and the new decision level. -/
lemma c2_run_backtrack_statistics (ops : Ops H) (fuel : Nat) (c2 : C2 H) (c : Clause) (n : Nat)
    (step : RunStep H) (hL : c2_determine_backtracking_lvl ops c2 c ≤ c2.skolem.decision_lvl)
    (hrange : c2.skolem.decision_lvl < 2 ^ 32)
    (h : c2_run_backtrack ops fuel c2 c n = .ok step) :
    ∃ c2', c2_backtrack_to_decision_lvl ops fuel c2 (c2_determine_backtracking_lvl ops c2 c)
        = .ok c2'
      ∧ c2'.skolem.decision_lvl ≤ c2.skolem.decision_lvl
      ∧ step.engine.statistics.lvls_backtracked
        = c2.statistics.lvls_backtracked
          + (c2.skolem.decision_lvl - c2'.skolem.decision_lvl) := by
  unfold c2_run_backtrack at h
  simp only at h
  split at h
  · cases h
  · rename_i c2' hb
    obtain ⟨hle, hstat⟩ := c2_backtrack_to_decision_lvl_result ops fuel c2 c2' _ hL hb
    refine ⟨c2', hb, hle, ?_⟩
    have hfin : (c2_decay_activity (c2_new_clause ops
        { c2' with statistics := { c2'.statistics with
            lvls_backtracked := c2'.statistics.lvls_backtracked
              + unsigned_sub c2.skolem.decision_lvl c2'.skolem.decision_lvl } } c)).statistics.lvls_backtracked
        = c2.statistics.lvls_backtracked
          + (c2.skolem.decision_lvl - c2'.skolem.decision_lvl) := by
      rw [c2_decay_activity_statistics, c2_new_clause_statistics]
      show c2'.statistics.lvls_backtracked
          + unsigned_sub c2.skolem.decision_lvl c2'.skolem.decision_lvl = _
      rw [hstat, unsigned_sub_of_le _ _ hle hrange]
    split_ifs at h <;> · cases h; exact hfin

/-- The end of the conflict branch of `c2_run` returns when the bound on the
number of iterations is at least the number of levels to backtrack and
`skolem_pop` lowers the decision level by one. -/
lemma c2_run_backtrack_terminates (ops : Ops H) (fuel : Nat) (c2 : C2 H) (c : Clause) (n : Nat)
    (hpop : ∀ s : Skolem H, 0 < s.decision_lvl →
      (ops.skolem_pop s).decision_lvl + 1 = s.decision_lvl)
    (hfuel : c2.skolem.decision_lvl - c2_determine_backtracking_lvl ops c2 c ≤ fuel) :
    ∃ step, c2_run_backtrack ops fuel c2 c n = .ok step := by
  obtain ⟨c2', hb⟩ := c2_backtrack_to_decision_lvl_terminates ops fuel c2 _ hpop hfuel
  unfold c2_run_backtrack
  simp only [hb]
  split_ifs
  · exact ⟨_, rfl⟩
  · exact ⟨_, rfl⟩

/-- Claim C24.  If every literal of the learnt clause has a level of at most
the current Skolem decision level, and `restart_base_decision_lvl` is at most
the current Skolem decision level, then the value of
`c2_determine_backtracking_lvl` lies between `restart_base_decision_lvl` and
the current Skolem decision level.  So the entry assertion of
`c2_backtrack_to_decision_lvl` holds at its call in `c2_run`; and when that
part of `c2_run` returns, the decision level is not above the old one and the
statistic `lvls_backtracked` has grown by their difference, which is computed
without wrap-around (decision levels are `unsigned`, below `2 ^ 32`).  It
returns whenever the bound on the number of loop iterations is at least the
number of levels to backtrack and `skolem_pop` lowers the level by one. -/
theorem c2_determine_backtracking_lvl_range (ops : Ops H) (c2 : C2 H) (learnt_clause : Clause)
    (hlev : ∀ lit ∈ learnt_clause.occs, conflict_level ops c2 lit ≤ c2.skolem.decision_lvl)
    (hbase : c2.restart_base_decision_lvl ≤ c2.skolem.decision_lvl) :
    c2.restart_base_decision_lvl ≤ c2_determine_backtracking_lvl ops c2 learnt_clause ∧
    c2_determine_backtracking_lvl ops c2 learnt_clause ≤ c2.skolem.decision_lvl ∧
    (c2.skolem.decision_lvl < 2 ^ 32 →
      ∀ (fuel n : Nat) (step : RunStep H),
        c2_run_backtrack ops fuel c2 learnt_clause n = .ok step →
        c2.statistics.lvls_backtracked ≤ step.engine.statistics.lvls_backtracked ∧
        ∃ c2', c2_backtrack_to_decision_lvl ops fuel c2
            (c2_determine_backtracking_lvl ops c2 learnt_clause) = .ok c2'
          ∧ c2'.skolem.decision_lvl ≤ c2.skolem.decision_lvl
          ∧ step.engine.statistics.lvls_backtracked
            = c2.statistics.lvls_backtracked
              + (c2.skolem.decision_lvl - c2'.skolem.decision_lvl)) ∧
    ((∀ s : Skolem H, 0 < s.decision_lvl →
        (ops.skolem_pop s).decision_lvl + 1 = s.decision_lvl) →
      ∀ (fuel n : Nat),
        c2.skolem.decision_lvl - c2_determine_backtracking_lvl ops c2 learnt_clause ≤ fuel →
        ∃ step, c2_run_backtrack ops fuel c2 learnt_clause n = .ok step) := by
  obtain ⟨h1, h2⟩ := c2_determine_backtracking_lvl_bounds ops c2 learnt_clause _ hlev hbase
  refine ⟨h1, h2, ?_, ?_⟩
  · intro hrange fuel n step hstep
    obtain ⟨c2', hb, hle, hstat⟩ :=
      c2_run_backtrack_statistics ops fuel c2 learnt_clause n step h2 hrange hstep
    exact ⟨by rw [hstat]; exact Nat.le_add_right _ _, c2', hb, hle, hstat⟩
  · intro hpop fuel n hfuel
    exact c2_run_backtrack_terminates ops fuel c2 learnt_clause n hpop hfuel

/-- Claim C24, on the engine `conflict_c2` at decision level 1 with the learnt
clause over the variables 1 and 2 of levels 0 and 1: the backtracking level
is 0. -/
theorem c2_determine_backtracking_lvl_range_witness :
    ((∀ lit ∈ clause_1_2.occs,
        conflict_level mini_ops conflict_c2 lit ≤ conflict_c2.skolem.decision_lvl)
      ∧ conflict_c2.restart_base_decision_lvl ≤ conflict_c2.skolem.decision_lvl) ∧
    conflict_c2.restart_base_decision_lvl
      ≤ c2_determine_backtracking_lvl mini_ops conflict_c2 clause_1_2 ∧
    c2_determine_backtracking_lvl mini_ops conflict_c2 clause_1_2
      ≤ conflict_c2.skolem.decision_lvl ∧
    c2_determine_backtracking_lvl mini_ops conflict_c2 clause_1_2 = 0 :=
  have hlev : ∀ lit ∈ clause_1_2.occs,
      conflict_level mini_ops conflict_c2 lit ≤ conflict_c2.skolem.decision_lvl := by
    intro lit hlit
    simp only [clause_1_2, List.mem_cons, List.mem_singleton, List.not_mem_nil, or_false] at hlit
    rcases hlit with rfl | rfl <;> decide
  have hbase : conflict_c2.restart_base_decision_lvl ≤ conflict_c2.skolem.decision_lvl := by
    decide
  have h := c2_determine_backtracking_lvl_range mini_ops conflict_c2 clause_1_2 hlev hbase
  ⟨⟨hlev, hbase⟩, h.1, h.2.1, by decide⟩

/-! ## C25: the state after backtracking -/

/-- Claim C25.  For a level `L` that is not above the current decision level:
when `L` equals the current decision level, `c2_backtrack_to_decision_lvl`
returns the engine as it is, whatever its state; when `L` is strictly below,
the engine it returns is in state `C2_READY`, whatever the state was before.
In the second case it returns whenever the bound on the number of loop
iterations is at least the number of levels to backtrack and `skolem_pop`
lowers the level by one. -/
theorem c2_backtrack_to_decision_lvl_state (ops : Ops H) (c2 : C2 H) (L : Nat)
    (hL : L ≤ c2.skolem.decision_lvl) :
    (L = c2.skolem.decision_lvl →
      ∀ fuel, c2_backtrack_to_decision_lvl ops fuel c2 L = .ok c2) ∧
    (L < c2.skolem.decision_lvl →
      (∀ fuel c2', c2_backtrack_to_decision_lvl ops fuel c2 L = .ok c2' →
        c2'.state = C2_STATE.C2_READY) ∧
      ((∀ s : Skolem H, 0 < s.decision_lvl →
          (ops.skolem_pop s).decision_lvl + 1 = s.decision_lvl) →
        ∀ fuel, c2.skolem.decision_lvl - L ≤ fuel →
          ∃ c2', c2_backtrack_to_decision_lvl ops fuel c2 L = .ok c2'
            ∧ c2'.state = C2_STATE.C2_READY)) := by
  have _ := hL
  have hstate : L < c2.skolem.decision_lvl →
      ∀ fuel c2', c2_backtrack_to_decision_lvl ops fuel c2 L = .ok c2' →
        c2'.state = C2_STATE.C2_READY := by
    intro hlt fuel c2' h
    unfold c2_backtrack_to_decision_lvl at h
    rw [if_neg (by omega)] at h
    exact (backtrack_loop_result ops L fuel _ _ h).2.1
  refine ⟨?_, fun hlt => ⟨hstate hlt, ?_⟩⟩
  · intro heq fuel
    unfold c2_backtrack_to_decision_lvl
    rw [if_pos heq]
  · intro hpop fuel hfuel
    obtain ⟨c2', h⟩ := c2_backtrack_to_decision_lvl_terminates ops fuel c2 L hpop hfuel
    exact ⟨c2', h, hstate hlt fuel c2' h⟩

/-- Claim C25, on the engine `unsat_level_c2` in state `C2_UNSAT` at decision
level 1: backtracking to level 1 returns it unchanged, backtracking to level 0
returns an engine in state `C2_READY`. -/
theorem c2_backtrack_to_decision_lvl_state_witness :
    (1 ≤ unsat_level_c2.skolem.decision_lvl ∧ 0 ≤ unsat_level_c2.skolem.decision_lvl) ∧
    unsat_level_c2.state = C2_STATE.C2_UNSAT ∧
    (∀ fuel, c2_backtrack_to_decision_lvl mini_ops fuel unsat_level_c2 1 = .ok unsat_level_c2) ∧
    (∃ c2', c2_backtrack_to_decision_lvl mini_ops 1 unsat_level_c2 0 = .ok c2'
      ∧ c2'.state = C2_STATE.C2_READY) :=
  ⟨⟨by decide, by decide⟩, rfl,
    (c2_backtrack_to_decision_lvl_state mini_ops unsat_level_c2 1 (by decide)).1 rfl,
    ((c2_backtrack_to_decision_lvl_state mini_ops unsat_level_c2 0 (by decide)).2
      (by decide)).2 (fun s hs => Nat.sub_add_cancel hs) 1 (by decide)⟩

/-! ## C26: the engine after `c2_init` -/

/-- Claim C26.  For every options record and whatever the components outside
`cadet2.c` do, so also when the fresh Skolem domain is conflicted, the engine
returned by `c2_init` is in state `C2_READY` with `restart_base_decision_lvl`
0, `activity_factor` 1, no `current_conflict`, `next_restart` 6 and
`next_major_restart` 15.  A following `c2_sat` does not take the early return
for a decided engine: after the test for 2QBF it goes on with the test of the
universal assumptions and the initial propagation.  With the instance
`conflicted_init_ops`, whose Skolem domain is conflicted from the start, the
result `CADET_RESULT_UNSAT` is found by the initial propagation, which sets
`current_conflict`. -/
theorem c2_init_ready (ops : Ops H) (options : Options) :
    (c2_init ops options).state = C2_STATE.C2_READY ∧
    (c2_init ops options).restart_base_decision_lvl = 0 ∧
    (c2_init ops options).activity_factor = 1 ∧
    (c2_init ops options).current_conflict = none ∧
    (c2_init ops options).next_restart = 6 ∧
    (c2_init ops options).next_major_restart = 15 ∧
    ¬ ((c2_init ops options).state = C2_STATE.C2_UNSAT
      ∨ (c2_init ops options).state = C2_STATE.C2_SAT) ∧
    (∀ fuel, c2_sat ops fuel (c2_init ops options) =
      if ¬ ops.qcnf_is_2QBF (c2_init ops options).qcnf
          ∧ ¬ ops.qcnf_is_propositional (c2_init ops options).qcnf then
        .ok (cadet_res.CADET_RESULT_UNKNOWN, c2_init ops options)
      else if (c2_init ops options).skolem.universals_assumptions.length ≠ 0 then
        .error (Failure.abort Abort.universal_assumptions_before_solving)
      else
        match c2_initial_propagation ops (c2_init ops options) with
        | .error e => .error e
        | .ok c2 =>
          if c2_is_in_conflcit c2 then c2_sat_return_result { c2 with state := C2_STATE.C2_UNSAT }
          else c2_sat_search ops fuel c2) ∧
    conflicted_init_ops.skolem_is_conflicted
      (conflicted_init_ops.skolem_init conflicted_init_ops.qcnf_init mini_options) = true ∧
    (c2_init conflicted_init_ops mini_options).state = C2_STATE.C2_READY ∧
    (∃ c2, c2_sat conflicted_init_ops 0 (c2_init conflicted_init_ops mini_options)
        = .ok (cadet_res.CADET_RESULT_UNSAT, c2) ∧ c2.current_conflict = some [1]) := by
  have hstate : (c2_init ops options).state = C2_STATE.C2_READY := rfl
  refine ⟨rfl, rfl, rfl, rfl, rfl, rfl, ?_, ?_, rfl, rfl, ⟨_, rfl, rfl⟩⟩
  · rw [hstate]
    simp
  · intro fuel
    rw [c2_sat]
    have hne : ¬ ((c2_init ops options).state = C2_STATE.C2_UNSAT
        ∨ (c2_init ops options).state = C2_STATE.C2_SAT) := by
      rw [hstate]; simp
    rw [if_neg hne]

end Cadet
